import Mathlib

/-!
# LogConverter: the log parser of `script.js`

A shallow embedding of the parsing half of `script.js` (the four regex helpers
`parseIncludedUser`, `parseIgnoredUser`, `parseBenutzer`, `parseUsersAddedToGroup`
and the scanner `analyzeLogfile`) together with the properties proved about it.

* A JavaScript string is a list of characters (`Str`). The patterns and string
  methods used here look at one character at a time and single out only
  whitespace, line terminators and a few ASCII characters, so a character
  outside the Basic Multilingual Plane behaves like the two code units
  JavaScript stores for it.
* A regular expression is a value of `Re`; `Re.run` is the backtracking matcher
  in continuation-passing style, as ECMAScript defines pattern semantics
  (greedy quantifiers try the longest repetition first, alternation tries the
  left branch first, a lazy quantifier tries the shortest repetition first),
  and `Re.search` is `String.prototype.match` for a pattern without flags:
  the first start index at which the pattern matches.
* Calling `.trim()` on a capture that is `undefined` throws; the helpers
  therefore return in `Except JsError`, and so do the loop body `step`, the
  loop `scanLines` and `analyzeLogfile`.
* `Re.Matches` is the declarative reading of a pattern; `Re.run_sound` links
  the matcher to it, and the lemmas of the section "Running the matcher
  forward" compute the first match on lines of a given shape.
-/

namespace LogConverter

/-- A JavaScript string. -/
abbrev Str := List Char

/-! ## Characters and string primitives -/

/-- ECMAScript `WhiteSpace` or `LineTerminator`: what `\s` matches and what
`String.prototype.trim` strips. -/
def isSpace (c : Char) : Bool :=
  c.toNat == 9 || c.toNat == 10 || c.toNat == 11 || c.toNat == 12 || c.toNat == 13 ||
  c.toNat == 32 || c.toNat == 160 || c.toNat == 5760 ||
  (8192 ≤ c.toNat && c.toNat ≤ 8202) ||
  c.toNat == 8232 || c.toNat == 8233 || c.toNat == 8239 || c.toNat == 8287 ||
  c.toNat == 12288 || c.toNat == 65279

/-- ECMAScript `LineTerminator` (LF, CR, U+2028, U+2029): what `.` refuses. -/
def isLineTerminator (c : Char) : Bool :=
  c.toNat == 10 || c.toNat == 13 || c.toNat == 8232 || c.toNat == 8233

/-- The method `s.trim()`. -/
def trim (s : Str) : Str :=
  ((s.dropWhile isSpace).reverse.dropWhile isSpace).reverse

/-- The method `s.startsWith(pat)`. -/
def startsWith (s pat : Str) : Bool := pat.isPrefixOf s

/-- The method `s.includes(pat)`. -/
def includes : Str → Str → Bool
  | [], pat => pat.isPrefixOf []
  | x :: xs, pat => pat.isPrefixOf (x :: xs) || includes xs pat

/-- The method `s.replace(pat, rep)` for a string pattern: the first occurrence
of `pat` is replaced. -/
def replaceFirst : Str → Str → Str → Str
  | [], pat, rep => if pat.isPrefixOf [] then rep else []
  | x :: xs, pat, rep =>
    if pat.isPrefixOf (x :: xs) then rep ++ (x :: xs).drop pat.length
    else x :: replaceFirst xs pat rep

/-- The loop of `logText.split(/\r?\n/)`: `cur` holds the current line reversed. -/
def splitLinesAux : Str → Str → List Str
  | [], cur => [cur.reverse]
  | [c], cur => if c = '\n' then [cur.reverse, []] else [(c :: cur).reverse]
  | c :: d :: rest, cur =>
    if c = '\n' then cur.reverse :: splitLinesAux (d :: rest) []
    else if c = '\r' ∧ d = '\n' then cur.reverse :: splitLinesAux rest []
    else splitLinesAux (d :: rest) (c :: cur)

/-- The call `logText.split(/\r?\n/)`. -/
def splitLines (logText : Str) : List Str := splitLinesAux logText []

/-! ## Regular expressions -/

/-- The named capture groups used by the four patterns. -/
inductive Grp where
  | email | anrede | lastFirst | datetime | name | lad | ez | dn
  deriving DecidableEq, Repr

/-- The character classes used by the four patterns. -/
inductive Cls where
  /-- The class `\s`. -/
  | space
  /-- The class `[^\s]`. -/
  | notSpace
  /-- The class `[^c]` for one character `c`. -/
  | notChar (c : Char)
  /-- The class `.` (no `s` flag). -/
  | dot
  deriving DecidableEq, Repr

/-- Membership of a character in a class. -/
def Cls.test : Cls → Char → Bool
  | .space, c => isSpace c
  | .notSpace, c => !isSpace c
  | .notChar d, c => !(c == d)
  | .dot, c => !isLineTerminator c

/-- The fragment of regular expressions the patterns are written in. Every
quantifier of the source is applied to a character class, except the optional
group `(?<lad>...)?`. -/
inductive Re where
  /-- A literal string. -/
  | lit (w : Str)
  /-- Greedy `X*` over a class. -/
  | star (cls : Cls)
  /-- Lazy `X*?` over a class. -/
  | lazyStar (cls : Cls)
  /-- Greedy `X+` over a class. -/
  | plus (cls : Cls)
  /-- Alternation `a|b`. -/
  | alt (a b : Re)
  /-- Concatenation. -/
  | seq (a b : Re)
  /-- Named capture group `(?<g>r)`. -/
  | group (g : Grp) (r : Re)
  /-- Greedy `r?`. -/
  | opt (r : Re)

/-- The captures of a match: `none` is JavaScript's `undefined`. -/
abbrev Caps := Grp → Option Str

/-- No group has participated. -/
def Caps.empty : Caps := fun _ => none

/-- Record what group `g` matched. -/
def Caps.set (c : Caps) (g : Grp) (v : Str) : Caps :=
  fun h => if h = g then some v else c h

/-- Greedy repetition of a class: the longest run first, then shorter ones. -/
def starGreedy (p : Char → Bool) : Str → (Str → Option Caps) → Option Caps
  | [], k => k []
  | x :: xs, k =>
    if p x then (starGreedy p xs k).or (k (x :: xs)) else k (x :: xs)

/-- Lazy repetition of a class: the empty run first, then longer ones. -/
def starLazy (p : Char → Bool) : Str → (Str → Option Caps) → Option Caps
  | [], k => k []
  | x :: xs, k =>
    (k (x :: xs)).or (if p x then starLazy p xs k else none)

/-- The backtracking matcher: `r.run s c k` matches `r` at the front of `s`
with captures `c` and hands the rest of the input and the captures to the
continuation `k`; `none` is failure. -/
def Re.run : Re → Str → Caps → (Str → Caps → Option Caps) → Option Caps
  | .lit w, s, c, k => if w.isPrefixOf s then k (s.drop w.length) c else none
  | .star cls, s, c, k => starGreedy cls.test s (fun s' => k s' c)
  | .lazyStar cls, s, c, k => starLazy cls.test s (fun s' => k s' c)
  | .plus cls, s, c, k =>
    match s with
    | [] => none
    | x :: xs => if cls.test x then starGreedy cls.test xs (fun s' => k s' c) else none
  | .alt a b, s, c, k => (a.run s c k).or (b.run s c k)
  | .seq a b, s, c, k => a.run s c (fun s' c' => b.run s' c' k)
  | .group g r, s, c, k =>
    r.run s c (fun s' c' => k s' (c'.set g (s.take (s.length - s'.length))))
  | .opt r, s, c, k => (r.run s c k).or (k s c)

/-- The call `line.match(pattern)` for a pattern without flags: the captures
of the match at the first start index that has one. -/
def Re.search (r : Re) : Str → Option Caps
  | [] => r.run [] Caps.empty (fun _ c => some c)
  | x :: xs => (r.run (x :: xs) Caps.empty (fun _ c => some c)).or (r.search xs)

/-- Concatenation of a list of expressions. -/
def Re.cat : List Re → Re
  | [] => .lit []
  | [r] => r
  | r :: rs => .seq r (Re.cat rs)

/-! ## The four patterns and their helpers -/

/-- A JavaScript exception. -/
inductive JsError where
  /-- A `TypeError`: a method was called on `undefined`. -/
  | typeError
  deriving DecidableEq, Repr

/-- Equality of results is decidable. -/
instance instDecidableEqResult {α : Type} [DecidableEq α] : DecidableEq (Except JsError α)
  | .ok a, .ok b =>
    if h : a = b then isTrue (by rw [h]) else isFalse (fun h2 => h (Except.ok.inj h2))
  | .error a, .error b =>
    if h : a = b then isTrue (by rw [h]) else isFalse (fun h2 => h (Except.error.inj h2))
  | .ok _, .error _ => isFalse (fun h => Except.noConfusion h)
  | .error _, .ok _ => isFalse (fun h => Except.noConfusion h)

/-- The call `v.trim()` on a capture: it throws when the capture is `undefined`. -/
def trimOf : Option Str → Except JsError Str
  | some v => .ok (trim v)
  | none => .error .typeError

/-- The expression `v ? v.trim() : null` on a capture: `undefined` and the
empty string are falsy. -/
def trimOrNull : Option Str → Option Str
  | some v => if v.isEmpty then none else some (trim v)
  | none => none

/-- The two values `analyzeLogfile` passes as `kind`. -/
inductive Kind where
  | LETZTES_AENDERUNGSDATUM
  | ERFASSUNGSZEITPUNKT
  deriving DecidableEq, Repr

/-- The text of a `kind`, as interpolated into the pattern. -/
def Kind.text : Kind → Str
  | .LETZTES_AENDERUNGSDATUM => "LETZTES_AENDERUNGSDATUM".toList
  | .ERFASSUNGSZEITPUNKT => "ERFASSUNGSZEITPUNKT".toList

/-- The alternation `Frau|Herrn`. -/
def salutation : Re := .alt (.lit "Frau".toList) (.lit "Herrn".toList)

/-- The pattern of `parseIncludedUser`:
`User\s+(?<email>[^\s]+)\s*\|\s*(?<anrede>Frau|Herrn)\s+(?<lastFirst>[^i]+)included based on KIND:\s+(?<datetime>.+)`. -/
def includedPattern (kind : Kind) : Re :=
  Re.cat [.lit "User".toList, .plus .space, .group .email (.plus .notSpace), .star .space,
    .lit "|".toList, .star .space, .group .anrede salutation, .plus .space,
    .group .lastFirst (.plus (.notChar 'i')),
    .lit ("included based on ".toList ++ kind.text ++ ":".toList), .plus .space,
    .group .datetime (.plus .dot)]

/-- The pattern of `parseIgnoredUser`:
`Ignorierter Nutzer:\s+(?<email>[^\s]+)\s*\|\s*(?<anrede>Frau|Herrn)\s+(?<name>[^|]+)\|.*?LETZTES_AENDERUNGSDATUM:\s*(?<lad>[^,]+)?,\s*ERFASSUNGSZEITPUNKT:\s*(?<ez>.*)`. -/
def ignoredPattern : Re :=
  Re.cat [.lit "Ignorierter Nutzer:".toList, .plus .space, .group .email (.plus .notSpace),
    .star .space, .lit "|".toList, .star .space, .group .anrede salutation, .plus .space,
    .group .name (.plus (.notChar '|')), .lit "|".toList, .lazyStar .dot,
    .lit "LETZTES_AENDERUNGSDATUM:".toList, .star .space,
    .opt (.group .lad (.plus (.notChar ','))), .lit ",".toList, .star .space,
    .lit "ERFASSUNGSZEITPUNKT:".toList, .star .space, .group .ez (.star .dot)]

/-- The pattern of `parseBenutzer`:
`Benutzer:\s+(?<email>[^\s]+)\s*\|\s*(?<anrede>Frau|Herrn)\s+(?<name>.+)`. -/
def benutzerPattern : Re :=
  Re.cat [.lit "Benutzer:".toList, .plus .space, .group .email (.plus .notSpace),
    .star .space, .lit "|".toList, .star .space, .group .anrede salutation, .plus .space,
    .group .name (.plus .dot)]

/-- The pattern of `parseUsersAddedToGroup`:
`Benutzer:\s+(?<email>[^\s]+)\s*\|\s+DN:\s+(?<dn>.*)`. -/
def groupPattern : Re :=
  Re.cat [.lit "Benutzer:".toList, .plus .space, .group .email (.plus .notSpace),
    .star .space, .lit "|".toList, .plus .space, .lit "DN:".toList, .plus .space,
    .group .dn (.star .dot)]

/-- What `parseIncludedUser` returns on a match. -/
structure IncludedUser where
  email : Str
  anrede : Str
  name : Str
  datum_zeit : Str
  kind : Kind
  deriving DecidableEq, Repr

/-- What `parseIgnoredUser` returns on a match. -/
structure IgnoredParse where
  email : Str
  anrede : Str
  name : Str
  letztes_aenderungsdatum : Option Str
  erfassungszeitpunkt : Option Str
  deriving DecidableEq, Repr

/-- What `parseBenutzer` returns on a match. -/
structure BenutzerParse where
  email : Str
  anrede : Str
  name : Str
  deriving DecidableEq, Repr

/-- What `parseUsersAddedToGroup` returns on a match. -/
structure GroupUser where
  email : Str
  dn : Str
  deriving DecidableEq, Repr

/-- The function `parseIncludedUser(line, kind)`; `none` is `null`. -/
def parseIncludedUser (line : Str) (kind : Kind) : Except JsError (Option IncludedUser) :=
  match (includedPattern kind).search line with
  | none => .ok none
  | some groups => do
    let email ← trimOf (groups .email)
    let anrede ← trimOf (groups .anrede)
    let name ← trimOf (groups .lastFirst)
    let datum_zeit ← trimOf (groups .datetime)
    pure (some { email := email, anrede := anrede, name := name,
                 datum_zeit := datum_zeit, kind := kind })

/-- The function `parseIgnoredUser(line)`. -/
def parseIgnoredUser (line : Str) : Except JsError (Option IgnoredParse) :=
  match ignoredPattern.search line with
  | none => .ok none
  | some groups => do
    let email ← trimOf (groups .email)
    let anrede ← trimOf (groups .anrede)
    let name ← trimOf (groups .name)
    pure (some { email := email, anrede := anrede, name := name,
                 letztes_aenderungsdatum := trimOrNull (groups .lad),
                 erfassungszeitpunkt := trimOrNull (groups .ez) })

/-- The function `parseBenutzer(line)`. -/
def parseBenutzer (line : Str) : Except JsError (Option BenutzerParse) :=
  match benutzerPattern.search line with
  | none => .ok none
  | some groups => do
    let email ← trimOf (groups .email)
    let anrede ← trimOf (groups .anrede)
    let name ← trimOf (groups .name)
    pure (some { email := email, anrede := anrede, name := name })

/-- The function `parseUsersAddedToGroup(line)`. -/
def parseUsersAddedToGroup (line : Str) : Except JsError (Option GroupUser) :=
  match groupPattern.search line with
  | none => .ok none
  | some groups => do
    let email ← trimOf (groups .email)
    let dn ← trimOf (groups .dn)
    pure (some { email := email, dn := dn })

/-! ## The scanner -/

/-- A record of `ignorierte_nutzer`: the parse with `organisation` attached. -/
structure IgnoredUser where
  email : Str
  anrede : Str
  name : Str
  letztes_aenderungsdatum : Option Str
  erfassungszeitpunkt : Option Str
  organisation : Option Str
  deriving DecidableEq, Repr

/-- A record of a tenant collection: the parse with `geschaeftspartner` attached. -/
structure TenantUser where
  email : Str
  anrede : Str
  name : Str
  geschaeftspartner : Option Str
  deriving DecidableEq, Repr

/-- The object `data` of `analyzeLogfile`: the six collections. -/
structure Data where
  eingeschlossen_lad : List IncludedUser
  eingeschlossen_ez : List IncludedUser
  ignorierte_nutzer : List IgnoredUser
  mandanten_ein_nutzer : List TenantUser
  mandanten_mehrere_nutzer : List TenantUser
  benutzer_hinzugefuegt_hv : List GroupUser
  deriving DecidableEq, Repr

/-- The local variables of `analyzeLogfile` that live across loop iterations. -/
structure Scan where
  data : Data
  currentOrg : Option Str
  currentGp : Option Str
  inIgnoredSection : Bool
  inSingleSection : Bool
  inMultiSection : Bool
  deriving DecidableEq, Repr

/-- The state before the first line. -/
def Scan.init : Scan :=
  { data := { eingeschlossen_lad := [], eingeschlossen_ez := [], ignorierte_nutzer := [],
              mandanten_ein_nutzer := [], mandanten_mehrere_nutzer := [],
              benutzer_hinzugefuegt_hv := [] },
    currentOrg := none, currentGp := none,
    inIgnoredSection := false, inSingleSection := false, inMultiSection := false }

/-- The banner of the first included section. -/
def markerIncludedLad : Str :=
  "========= Included Users Based on LETZTES_AENDERUNGSDATUM =========".toList
/-- The banner of the second included section. -/
def markerIncludedEz : Str :=
  "========= Included Users Based on ERFASSUNGSZEITPUNKT =========".toList
/-- The banner of the ignored-users section. -/
def markerIgnored : Str := "========= Ignorierte Nutzer von Mandanten =========".toList
/-- The banner of the single-user tenant section. -/
def markerSingle : Str := "========= Mandanten mit einem Benutzer =========".toList
/-- The banner of the multi-user tenant section. -/
def markerMulti : Str := "========= Mandanten mit mehreren Benutzern =========".toList
/-- The banner of the group section. -/
def markerGroup : Str :=
  "========= Users Added to Hauptverantwortlicher Group =========".toList

/-- The assignment of the three section flags. -/
def Scan.setFlags (st : Scan) (ign single multi : Bool) : Scan :=
  { st with inIgnoredSection := ign, inSingleSection := single, inMultiSection := multi }

/-- The body of the `for` loop of `analyzeLogfile` on one line. -/
def step (st : Scan) (line : Str) : Except JsError Scan :=
  let trimmed := trim line
  if includes line markerIncludedLad then .ok (st.setFlags false false false)
  else if includes line markerIncludedEz then .ok (st.setFlags false false false)
  else if includes line markerIgnored then .ok (st.setFlags true false false)
  else if includes line markerSingle then .ok (st.setFlags false true false)
  else if includes line markerMulti then .ok (st.setFlags false false true)
  else if includes line markerGroup then .ok (st.setFlags false false false)
  else if includes line " included based on LETZTES_AENDERUNGSDATUM:".toList then do
    let parsed ← parseIncludedUser line .LETZTES_AENDERUNGSDATUM
    match parsed with
    | some r => pure { st with data := { st.data with
        eingeschlossen_lad := st.data.eingeschlossen_lad ++ [r] } }
    | none => pure st
  else if includes line " included based on ERFASSUNGSZEITPUNKT:".toList then do
    let parsed ← parseIncludedUser line .ERFASSUNGSZEITPUNKT
    match parsed with
    | some r => pure { st with data := { st.data with
        eingeschlossen_ez := st.data.eingeschlossen_ez ++ [r] } }
    | none => pure st
  else if st.inIgnoredSection then
    if startsWith trimmed "Organization:".toList then
      .ok { st with currentOrg := some (trim (replaceFirst trimmed "Organization:".toList [])) }
    else if includes line "Ignorierter Nutzer:".toList then do
      let ignoredData ← parseIgnoredUser line
      match ignoredData with
      | some r => pure { st with data := { st.data with
          ignorierte_nutzer := st.data.ignorierte_nutzer ++
            [{ email := r.email, anrede := r.anrede, name := r.name,
               letztes_aenderungsdatum := r.letztes_aenderungsdatum,
               erfassungszeitpunkt := r.erfassungszeitpunkt,
               organisation := st.currentOrg }] } }
      | none => pure st
    else .ok st
  else if st.inSingleSection then
    if startsWith trimmed "Geschäftspartner:".toList then
      .ok { st with currentGp := some (trim (replaceFirst trimmed "Geschäftspartner:".toList [])) }
    else if startsWith trimmed "Benutzer:".toList then do
      let benData ← parseBenutzer trimmed
      match benData with
      | some r => pure { st with data := { st.data with
          mandanten_ein_nutzer := st.data.mandanten_ein_nutzer ++
            [{ email := r.email, anrede := r.anrede, name := r.name,
               geschaeftspartner := st.currentGp }] } }
      | none => pure st
    else .ok st
  else if st.inMultiSection then
    if startsWith trimmed "Geschäftspartner:".toList then
      .ok { st with currentGp := some (trim (replaceFirst trimmed "Geschäftspartner:".toList [])) }
    else if startsWith trimmed "Benutzer:".toList then do
      let benData ← parseBenutzer trimmed
      match benData with
      | some r => pure { st with data := { st.data with
          mandanten_mehrere_nutzer := st.data.mandanten_mehrere_nutzer ++
            [{ email := r.email, anrede := r.anrede, name := r.name,
               geschaeftspartner := st.currentGp }] } }
      | none => pure st
    else .ok st
  else if startsWith trimmed "Benutzer:".toList && includes trimmed " DN: ".toList then do
    let addedData ← parseUsersAddedToGroup trimmed
    match addedData with
    | some r => pure { st with data := { st.data with
        benutzer_hinzugefuegt_hv := st.data.benutzer_hinzugefuegt_hv ++ [r] } }
    | none => pure st
  else .ok st

/-- The `for` loop of `analyzeLogfile`. -/
def scanLines : Scan → List Str → Except JsError Scan
  | st, [] => .ok st
  | st, line :: rest =>
    match step st line with
    | .ok st' => scanLines st' rest
    | .error e => .error e

/-- The function `analyzeLogfile(logText)`. -/
def analyzeLogfile (logText : Str) : Except JsError Data :=
  match scanLines Scan.init (splitLines logText) with
  | .ok st => .ok st.data
  | .error e => .error e

/-! ## Specification-level notions used in the statements -/

/-- The declarative reading of a pattern: `r.Matches w c c'` says that `r` can
match exactly the word `w`, turning the captures `c` into `c'`. -/
def Re.Matches : Re → Str → Caps → Caps → Prop
  | .lit w0, w, c, c' => w = w0 ∧ c' = c
  | .star cls, w, c, c' => (∀ x ∈ w, cls.test x = true) ∧ c' = c
  | .lazyStar cls, w, c, c' => (∀ x ∈ w, cls.test x = true) ∧ c' = c
  | .plus cls, w, c, c' => w ≠ [] ∧ (∀ x ∈ w, cls.test x = true) ∧ c' = c
  | .alt a b, w, c, c' => a.Matches w c c' ∨ b.Matches w c c'
  | .seq a b, w, c, c' => ∃ w1 w2 c1, w = w1 ++ w2 ∧ a.Matches w1 c c1 ∧ b.Matches w2 c1 c'
  | .group g r, w, c, c' => ∃ c1, r.Matches w c c1 ∧ c' = c1.set g w
  | .opt r, w, c, c' => r.Matches w c c' ∨ (w = [] ∧ c' = c)

/-- The line contains one of the six section banners. -/
def isMarker (line : Str) : Bool :=
  includes line markerIncludedLad || includes line markerIncludedEz ||
  includes line markerIgnored || includes line markerSingle ||
  includes line markerMulti || includes line markerGroup

/-- The line is taken by one of the two included-user branches. -/
def isIncludedLine (line : Str) : Bool :=
  includes line " included based on LETZTES_AENDERUNGSDATUM:".toList ||
  includes line " included based on ERFASSUNGSZEITPUNKT:".toList

/-- The number of records in the six collections. -/
def Data.total (d : Data) : Nat :=
  d.eingeschlossen_lad.length + d.eingeschlossen_ez.length + d.ignorierte_nutzer.length +
  d.mandanten_ein_nutzer.length + d.mandanten_mehrere_nutzer.length +
  d.benutzer_hinzugefuegt_hv.length

/-- The six collections, all empty. -/
def Data.empty : Data :=
  { eingeschlossen_lad := [], eingeschlossen_ez := [], ignorierte_nutzer := [],
    mandanten_ein_nutzer := [], mandanten_mehrere_nutzer := [],
    benutzer_hinzugefuegt_hv := [] }

/-- The ways one iteration of the loop can change the scanner state: a banner
sets the flags, a header sets a context variable, a parsed line appends one
record to one collection, and every other line leaves the state as it is. -/
inductive StepShape (st : Scan) (line : Str) : Scan → Prop
  | marker (ign single multi : Bool) (hm : isMarker line = true)
      (hx : (ign && single) = false ∧ (ign && multi) = false ∧ (single && multi) = false) :
      StepShape st line (st.setFlags ign single multi)
  | skip : StepShape st line st
  | lad (r : IncludedUser) (hm : isMarker line = false)
      (hp : parseIncludedUser line .LETZTES_AENDERUNGSDATUM = .ok (some r)) :
      StepShape st line { st with data := { st.data with
        eingeschlossen_lad := st.data.eingeschlossen_lad ++ [r] } }
  | ez (r : IncludedUser) (hm : isMarker line = false)
      (hp : parseIncludedUser line .ERFASSUNGSZEITPUNKT = .ok (some r)) :
      StepShape st line { st with data := { st.data with
        eingeschlossen_ez := st.data.eingeschlossen_ez ++ [r] } }
  | org (hm : isMarker line = false) (hi : isIncludedLine line = false)
      (hs : st.inIgnoredSection = true)
      (hh : startsWith (trim line) "Organization:".toList = true) :
      StepShape st line { st with
        currentOrg := some (trim (replaceFirst (trim line) "Organization:".toList [])) }
  | ignored (r : IgnoredParse) (hm : isMarker line = false) (hi : isIncludedLine line = false)
      (hs : st.inIgnoredSection = true)
      (hh : startsWith (trim line) "Organization:".toList = false)
      (hp : parseIgnoredUser line = .ok (some r)) :
      StepShape st line { st with data := { st.data with
        ignorierte_nutzer := st.data.ignorierte_nutzer ++
          [{ email := r.email, anrede := r.anrede, name := r.name,
             letztes_aenderungsdatum := r.letztes_aenderungsdatum,
             erfassungszeitpunkt := r.erfassungszeitpunkt,
             organisation := st.currentOrg }] } }
  | gp (hm : isMarker line = false) (hi : isIncludedLine line = false)
      (hs : st.inIgnoredSection = false)
      (ht : st.inSingleSection = true ∨ st.inMultiSection = true)
      (hh : startsWith (trim line) "Geschäftspartner:".toList = true) :
      StepShape st line { st with
        currentGp := some (trim (replaceFirst (trim line) "Geschäftspartner:".toList [])) }
  | single (r : BenutzerParse) (hm : isMarker line = false) (hi : isIncludedLine line = false)
      (hs : st.inIgnoredSection = false) (h1 : st.inSingleSection = true)
      (hh : startsWith (trim line) "Geschäftspartner:".toList = false)
      (hp : parseBenutzer (trim line) = .ok (some r)) :
      StepShape st line { st with data := { st.data with
        mandanten_ein_nutzer := st.data.mandanten_ein_nutzer ++
          [{ email := r.email, anrede := r.anrede, name := r.name,
             geschaeftspartner := st.currentGp }] } }
  | multi (r : BenutzerParse) (hm : isMarker line = false) (hi : isIncludedLine line = false)
      (hs : st.inIgnoredSection = false) (h1 : st.inSingleSection = false)
      (h2 : st.inMultiSection = true)
      (hh : startsWith (trim line) "Geschäftspartner:".toList = false)
      (hp : parseBenutzer (trim line) = .ok (some r)) :
      StepShape st line { st with data := { st.data with
        mandanten_mehrere_nutzer := st.data.mandanten_mehrere_nutzer ++
          [{ email := r.email, anrede := r.anrede, name := r.name,
             geschaeftspartner := st.currentGp }] } }
  | group (r : GroupUser) (hm : isMarker line = false) (hi : isIncludedLine line = false)
      (hs : st.inIgnoredSection = false) (h1 : st.inSingleSection = false)
      (h2 : st.inMultiSection = false)
      (hp : parseUsersAddedToGroup (trim line) = .ok (some r)) :
      StepShape st line { st with data := { st.data with
        benutzer_hinzugefuegt_hv := st.data.benutzer_hinzugefuegt_hv ++ [r] } }

/-- A well-formed email field: non-empty and free of whitespace. -/
def GoodEmail (e : Str) : Prop := e ≠ [] ∧ ∀ x ∈ e, isSpace x = false

/-- One of the two salutation tokens of the patterns. -/
def GoodAnrede (a : Str) : Prop := a = "Frau".toList ∨ a = "Herrn".toList

/-- Every record of the six collections has a well-formed email, and every
record that has a salutation has one of the two tokens. -/
def Data.Good (d : Data) : Prop :=
  (∀ r ∈ d.eingeschlossen_lad, GoodEmail r.email ∧ GoodAnrede r.anrede) ∧
  (∀ r ∈ d.eingeschlossen_ez, GoodEmail r.email ∧ GoodAnrede r.anrede) ∧
  (∀ r ∈ d.ignorierte_nutzer, GoodEmail r.email ∧ GoodAnrede r.anrede) ∧
  (∀ r ∈ d.mandanten_ein_nutzer, GoodEmail r.email ∧ GoodAnrede r.anrede) ∧
  (∀ r ∈ d.mandanten_mehrere_nutzer, GoodEmail r.email ∧ GoodAnrede r.anrede) ∧
  (∀ r ∈ d.benutzer_hinzugefuegt_hv, GoodEmail r.email)

/-- The six section banners. -/
def markers : List Str :=
  [markerIncludedLad, markerIncludedEz, markerIgnored, markerSingle, markerMulti, markerGroup]

/-- The remainder of a header line after its label, trimmed: what the header
stores in the context variable. -/
def headerRest (label line : Str) : Str := trim ((trim line).drop label.length)

/-- The line is consumed as an `Organization:` header in state `st`: it reaches
the ignored-section branch and its trimmed form starts with the label. -/
def consumesOrg (st : Scan) (line : Str) : Bool :=
  !isMarker line && !isIncludedLine line && st.inIgnoredSection &&
  startsWith (trim line) "Organization:".toList

/-- The line is consumed as a `Geschäftspartner:` header in state `st`: it
reaches one of the two tenant branches and its trimmed form starts with the label. -/
def consumesGp (st : Scan) (line : Str) : Bool :=
  !isMarker line && !isIncludedLine line && !st.inIgnoredSection &&
  (st.inSingleSection || st.inMultiSection) &&
  startsWith (trim line) "Geschäftspartner:".toList

/-- One of the two salutation tokens stands at the front of `s` and a
whitespace character follows it. -/
def salutationAtFront (s : Str) : Bool :=
  (match s.drop 4 with
   | x :: _ => "Frau".toList.isPrefixOf s && isSpace x
   | [] => false) ||
  (match s.drop 5 with
   | x :: _ => "Herrn".toList.isPrefixOf s && isSpace x
   | [] => false)

/-- Somewhere in the line one of the two salutation tokens is followed by a
whitespace character. -/
def hasSalutation : Str → Bool
  | [] => false
  | x :: xs => salutationAtFront (x :: xs) || hasSalutation xs

/-- The repetition of class `p` cannot go on at the front of `s`: `s` is empty
or its first character is outside the class. -/
def Stops (p : Char → Bool) (s : Str) : Prop := ∀ y ∈ s.head?, p y = false

/-! ## Line endings and the workbook -/

/-- The text `s` with every line feed replaced by carriage return and line feed. -/
def toCRLF : Str → Str
  | [] => []
  | c :: rest => if c = '\n' then '\r' :: '\n' :: toCRLF rest else c :: toCRLF rest

/-- A cell of a sheet: a string or `null`. -/
abbrev Cell := Option Str

/-- A zero-based cell address `{ r, c }`. -/
structure CellAddr where
  r : Int
  c : Int
  deriving DecidableEq, Repr

/-- The object `{ s, e }` handed to `XLSX.utils.encode_range`. -/
structure Range where
  s : CellAddr
  e : CellAddr
  deriving DecidableEq, Repr

/-- A worksheet as `appendSheet` leaves it in the workbook: its name, the array
of arrays handed to `XLSX.utils.aoa_to_sheet` (header row first) and the `ref`
of its `!autofilter` entry, if it was set. -/
structure Sheet where
  name : Str
  allRows : List (List Cell)
  autofilter : Option Str
  deriving DecidableEq, Repr

/-- The expression `v || ""`: `null` and the empty string give the empty string. -/
def orEmpty : Option Str → Str
  | some v => if v.isEmpty then [] else v
  | none => []

/-- The inner function `appendSheet(sheetName, headers, rowData)` of
`createWorkbook`, acting on the workbook `wb`; `encode_range` is
`XLSX.utils.encode_range` of the SheetJS library. -/
def appendSheet (encode_range : Range → Str) (wb : List Sheet) (sheetName : Str)
    (headers : List Str) (rowData : List (List Cell)) : List Sheet :=
  let allRows := headers.map some :: rowData
  let ws : Sheet := { name := sheetName, allRows := allRows, autofilter := none }
  if rowData.length > 0 then
    let lastRowIndex : Int := rowData.length
    let lastColIndex : Int := (headers.length : Int) - 1
    wb ++ [{ ws with autofilter := some (encode_range
      { s := { r := 0, c := 0 }, e := { r := lastRowIndex, c := lastColIndex } }) }]
  else wb ++ [ws]

/-- The row of an included-user record. -/
def includedRow (item : IncludedUser) : List Cell :=
  [some item.email, some item.anrede, some item.name, some item.datum_zeit]

/-- The row of an ignored-user record. -/
def ignoredRow (item : IgnoredUser) : List Cell :=
  [some (orEmpty item.organisation), some item.email, some item.anrede, some item.name,
   item.letztes_aenderungsdatum, item.erfassungszeitpunkt]

/-- The row of a tenant record. -/
def tenantRow (item : TenantUser) : List Cell :=
  [item.geschaeftspartner, some item.email, some item.anrede, some item.name]

/-- The row of a group-added record. -/
def groupRow (item : GroupUser) : List Cell :=
  [some item.email, some item.dn]

/-- The function `createWorkbook(data)`: six calls of `appendSheet` on a new workbook. -/
def createWorkbook (encode_range : Range → Str) (data : Data) : List Sheet :=
  let wb : List Sheet := []
  let wb := appendSheet encode_range wb "Eingeschlossen_LetztesAD".toList
    ["Email".toList, "Anrede".toList, "Name".toList, "Datum/Uhrzeit".toList]
    (data.eingeschlossen_lad.map includedRow)
  let wb := appendSheet encode_range wb "Eingeschlossen_EZPunkt".toList
    ["Email".toList, "Anrede".toList, "Name".toList, "Datum/Uhrzeit".toList]
    (data.eingeschlossen_ez.map includedRow)
  let wb := appendSheet encode_range wb "Ignorierte_Nutzer".toList
    ["Organisation".toList, "Email".toList, "Anrede".toList, "Name".toList,
     "LetztesÄnderungsdatum".toList, "Erfassungszeitpunkt".toList]
    (data.ignorierte_nutzer.map ignoredRow)
  let wb := appendSheet encode_range wb "Mandanten_EinNutzer".toList
    ["Geschaeftspartner".toList, "Email".toList, "Anrede".toList, "Name".toList]
    (data.mandanten_ein_nutzer.map tenantRow)
  let wb := appendSheet encode_range wb "Mandanten_MehrereNutzer".toList
    ["Geschaeftspartner".toList, "Email".toList, "Anrede".toList, "Name".toList]
    (data.mandanten_mehrere_nutzer.map tenantRow)
  let wb := appendSheet encode_range wb "HV_Gruppe_Hinzugefuegt".toList
    ["Email".toList, "DN".toList]
    (data.benutzer_hinzugefuegt_hv.map groupRow)
  wb

/-! ## Readings of an included-user line -/

/-- The literal `included based on KIND:` of the pattern of `parseIncludedUser`. -/
def includedLiteral (kind : Kind) : Str :=
  "included based on ".toList ++ kind.text ++ ":".toList

/-- The text right after a salutation token reads as a name: a whitespace
character, then a non-empty stretch up to the first lowercase `i`, and that `i`
begins `included based on KIND:`. -/
def nameStretchAt (kind : Kind) : Str → Bool
  | [] => false
  | x :: rest =>
    isSpace x && !(rest.takeWhile (fun c => c != 'i')).isEmpty &&
      (includedLiteral kind).isPrefixOf (rest.dropWhile (fun c => c != 'i'))

/-- One of the two salutation tokens stands at the front of `s` and the text
after it reads as a name. -/
def salutationThenName (kind : Kind) (s : Str) : Bool :=
  ("Frau".toList.isPrefixOf s && nameStretchAt kind (s.drop 4)) ||
  ("Herrn".toList.isPrefixOf s && nameStretchAt kind (s.drop 5))

/-- Somewhere in the line a `|` is followed, after optional whitespace, by a
salutation token and a name free of lowercase `i` that reaches
`included based on KIND:`. -/
def hasIFreeName (kind : Kind) : Str → Bool
  | [] => false
  | x :: xs =>
    (x == '|' && salutationThenName kind (xs.dropWhile isSpace)) || hasIFreeName kind xs

/-- The line has a part of the form the pattern of `parseIncludedUser`
describes: `User`, whitespace, an email `e` (a non-empty run of non-whitespace
characters), optional whitespace, `|`, optional whitespace, a salutation token
`a`, whitespace, a name `n` that is non-empty and free of lowercase `i`,
`included based on KIND:`, whitespace, and a date `d` (non-empty, without line
terminator). -/
def IncludedPart (kind : Kind) (line : Str) : Prop :=
  ∃ pre w1 e w2 w3 a w4 n w5 d post : Str,
    line = pre ++ ("User".toList ++ (w1 ++ (e ++ (w2 ++ ('|' :: (w3 ++ (a ++ (w4 ++ (n ++
      (includedLiteral kind ++ (w5 ++ (d ++ post)))))))))))) ∧
    w1 ≠ [] ∧ (∀ x ∈ w1, isSpace x = true) ∧
    e ≠ [] ∧ (∀ x ∈ e, isSpace x = false) ∧
    (∀ x ∈ w2, isSpace x = true) ∧ (∀ x ∈ w3, isSpace x = true) ∧
    GoodAnrede a ∧
    w4 ≠ [] ∧ (∀ x ∈ w4, isSpace x = true) ∧
    n ≠ [] ∧ (∀ x ∈ n, x ≠ 'i') ∧
    w5 ≠ [] ∧ (∀ x ∈ w5, isSpace x = true) ∧
    d ≠ [] ∧ (∀ x ∈ d, isLineTerminator x = false)

/-- An optional field of a record is well-formed: `null`, or a non-empty string
that is its own trim (no whitespace at either end). -/
def GoodOptional (f : Option Str) : Prop := ∀ x, f = some x → x ≠ [] ∧ trim x = x

/-- The end of the pattern of `parseIgnoredUser`, from the comma on:
`,\s*ERFASSUNGSZEITPUNKT:\s*(?<ez>.*)`. -/
def ignoredEnd : Re :=
  Re.cat [.lit ",".toList, .star .space, .lit "ERFASSUNGSZEITPUNKT:".toList, .star .space,
    .group .ez (.star .dot)]

/-- The collections of `a` followed, collection by collection, by those of `b`. -/
def Data.append (a b : Data) : Data :=
  { eingeschlossen_lad := a.eingeschlossen_lad ++ b.eingeschlossen_lad,
    eingeschlossen_ez := a.eingeschlossen_ez ++ b.eingeschlossen_ez,
    ignorierte_nutzer := a.ignorierte_nutzer ++ b.ignorierte_nutzer,
    mandanten_ein_nutzer := a.mandanten_ein_nutzer ++ b.mandanten_ein_nutzer,
    mandanten_mehrere_nutzer := a.mandanten_mehrere_nutzer ++ b.mandanten_mehrere_nutzer,
    benutzer_hinzugefuegt_hv := a.benutzer_hinzugefuegt_hv ++ b.benutzer_hinzugefuegt_hv }

/-- The two record sets hold the same records in each collection, up to order. -/
def Data.SameRecords (a b : Data) : Prop :=
  a.eingeschlossen_lad.Perm b.eingeschlossen_lad ∧
  a.eingeschlossen_ez.Perm b.eingeschlossen_ez ∧
  a.ignorierte_nutzer.Perm b.ignorierte_nutzer ∧
  a.mandanten_ein_nutzer.Perm b.mandanten_ein_nutzer ∧
  a.mandanten_mehrere_nutzer.Perm b.mandanten_mehrere_nutzer ∧
  a.benutzer_hinzugefuegt_hv.Perm b.benutzer_hinzugefuegt_hv

/-- The part of the loop state that steers how later lines are read: the two
remembered headers and the three section flags. -/
def Scan.control (st : Scan) : Option Str × Option Str × Bool × Bool × Bool :=
  (st.currentOrg, st.currentGp, st.inIgnoredSection, st.inSingleSection, st.inMultiSection)

/-! ## Salutation positions -/

/-- The part the three salutation-bearing patterns have in common, up to and
including the salutation: `LABEL\s+[^\s]+\s*\|\s*(Frau|Herrn)\s+`, where `LABEL`
is `User`, `Ignorierter Nutzer:` or `Benutzer:`. A part of a line of this form
is a salutation position that holds a recognised token. -/
def salutationHead (label : Str) : Re :=
  Re.cat [.lit label, .plus .space, .plus .notSpace, .star .space, .lit "|".toList,
    .star .space, salutation, .plus .space]

/-- The pattern of `parseUsersAddedToGroup` up to the `dn` capture:
`Benutzer:\s+[^\s]+\s*\|\s+DN:\s+`. -/
def dnHead : Re :=
  Re.cat [.lit "Benutzer:".toList, .plus .space, .plus .notSpace, .star .space,
    .lit "|".toList, .plus .space, .lit "DN:".toList, .plus .space]

/-- Some part of the line is matched by `r`. -/
def hasPart (r : Re) (line : Str) : Bool := (r.search line).isSome

/-- Some salutation position of the line holds `Frau` or `Herrn`: the line has
a part `User E | S `, `Ignorierter Nutzer: E | S ` or (once trimmed, as
`parseBenutzer` receives it) `Benutzer: E | S ` with `S` a recognised token. -/
def salutationRecognised (line : Str) : Bool :=
  hasPart (salutationHead "User".toList) line ||
  hasPart (salutationHead "Ignorierter Nutzer:".toList) line ||
  hasPart (salutationHead "Benutzer:".toList) (trim line)

/-- The line is read as a group line when no section is active: it has no
banner and neither included phrase, its trimmed form starts with `Benutzer:`,
contains ` DN: ` and has a part `Benutzer: E | DN: `. -/
def isGroupLine (line : Str) : Bool :=
  !isMarker line && !isIncludedLine line &&
    (startsWith (trim line) "Benutzer:".toList && includes (trim line) " DN: ".toList) &&
    hasPart dnHead (trim line)

/-! ## String primitives -/

theorem trim_eq_self_of_no_space (s : Str) (h : ∀ x ∈ s, isSpace x = false) : trim s = s := by
  have h1 : ∀ (t : Str), (∀ x ∈ t, isSpace x = false) → t.dropWhile isSpace = t := by
    intro t ht
    cases t with
    | nil => rfl
    | cons a t => simp [List.dropWhile, ht a (List.mem_cons_self a t)]
  unfold trim
  rw [h1 s h, h1 s.reverse (fun x hx => h x (List.mem_reverse.mp hx)), List.reverse_reverse]

theorem includes_eq_true_iff (s pat : Str) : includes s pat = true ↔ pat <:+: s := by
  induction s with
  | nil =>
    simp only [includes, List.isPrefixOf_iff_prefix, List.infix_nil, List.prefix_nil]
  | cons x xs ih =>
    simp only [includes, Bool.or_eq_true, ih, List.isPrefixOf_iff_prefix]
    constructor
    · rintro (h | h)
      · exact h.isInfix
      · exact h.trans (List.suffix_cons x xs).isInfix
    · intro h
      rcases List.infix_cons_iff.mp h with h | h
      · exact Or.inl h
      · exact Or.inr h

theorem trim_isInfix (s : Str) : trim s <:+: s := by
  unfold trim
  have h1 : (s.dropWhile isSpace).reverse.dropWhile isSpace <:+ (s.dropWhile isSpace).reverse :=
    List.dropWhile_suffix isSpace
  have h2 := List.reverse_prefix.mpr h1
  rw [List.reverse_reverse] at h2
  exact h2.isInfix.trans (List.dropWhile_suffix isSpace).isInfix

theorem salutationAtFront_iff (s : Str) :
    salutationAtFront s = true ↔
      ∃ a x t, GoodAnrede a ∧ isSpace x = true ∧ s = a ++ [x] ++ t := by
  constructor
  · intro h
    unfold salutationAtFront at h
    rcases Bool.or_eq_true_iff.mp h with h | h
    · split at h
      · rename_i x t hd
        obtain ⟨hp, hx⟩ := Bool.and_eq_true_iff.mp h
        obtain ⟨u, hu⟩ := List.isPrefixOf_iff_prefix.mp hp
        subst hu
        have : u = x :: t := by simpa using hd
        exact ⟨"Frau".toList, x, t, Or.inl rfl, hx, by simp [this]⟩
      · exact absurd h (by simp)
    · split at h
      · rename_i x t hd
        obtain ⟨hp, hx⟩ := Bool.and_eq_true_iff.mp h
        obtain ⟨u, hu⟩ := List.isPrefixOf_iff_prefix.mp hp
        subst hu
        have : u = x :: t := by simpa using hd
        exact ⟨"Herrn".toList, x, t, Or.inr rfl, hx, by simp [this]⟩
      · exact absurd h (by simp)
  · rintro ⟨a, x, t, ha, hx, rfl⟩
    rcases ha with rfl | rfl
    · simp [salutationAtFront, hx]
    · simp [salutationAtFront, hx]

theorem hasSalutation_iff (s : Str) :
    hasSalutation s = true ↔ ∃ a x, GoodAnrede a ∧ isSpace x = true ∧ (a ++ [x]) <:+: s := by
  induction s with
  | nil =>
    simp only [hasSalutation, Bool.false_eq_true, List.infix_nil, List.append_eq_nil,
      List.cons_ne_self, and_false, exists_false, exists_const]
  | cons c cs ih =>
    simp only [hasSalutation, Bool.or_eq_true, ih, salutationAtFront_iff]
    constructor
    · rintro (⟨a, x, t, ha, hx, he⟩ | ⟨a, x, ha, hx, hinf⟩)
      · exact ⟨a, x, ha, hx, [], t, by simp [he]⟩
      · exact ⟨a, x, ha, hx, hinf.trans (List.suffix_cons c cs).isInfix⟩
    · rintro ⟨a, x, ha, hx, hinf⟩
      rcases List.infix_cons_iff.mp hinf with hpre | hinf
      · obtain ⟨t, ht⟩ := hpre
        exact Or.inl ⟨a, x, t, ha, hx, ht.symm⟩
      · exact Or.inr ⟨a, x, ha, hx, hinf⟩

theorem hasSalutation_of_isInfix (s t : Str) (hst : s <:+: t) (h : hasSalutation s = true) :
    hasSalutation t = true := by
  obtain ⟨a, x, ha, hx, hinf⟩ := (hasSalutation_iff s).mp h
  exact (hasSalutation_iff t).mpr ⟨a, x, ha, hx, hinf.trans hst⟩

/-! ## Soundness of the matcher -/

theorem starGreedy_sound (p : Char → Bool) (s : Str) (k : Str → Option Caps) (v : Caps)
    (h : starGreedy p s k = some v) :
    ∃ w s', s = w ++ s' ∧ (∀ x ∈ w, p x = true) ∧ k s' = some v := by
  induction s with
  | nil => exact ⟨[], [], rfl, by simp, h⟩
  | cons x xs ih =>
    unfold starGreedy at h
    split at h
    · rename_i hp
      rcases Option.or_eq_some.mp h with h1 | ⟨_, h2⟩
      · obtain ⟨w, s', hs, hw, hk⟩ := ih h1
        refine ⟨x :: w, s', by simp [hs], ?_, hk⟩
        intro y hy
        rcases List.mem_cons.mp hy with rfl | hy
        · exact hp
        · exact hw y hy
      · exact ⟨[], x :: xs, rfl, by simp, h2⟩
    · exact ⟨[], x :: xs, rfl, by simp, h⟩

theorem starLazy_sound (p : Char → Bool) (s : Str) (k : Str → Option Caps) (v : Caps)
    (h : starLazy p s k = some v) :
    ∃ w s', s = w ++ s' ∧ (∀ x ∈ w, p x = true) ∧ k s' = some v := by
  induction s with
  | nil => exact ⟨[], [], rfl, by simp, h⟩
  | cons x xs ih =>
    unfold starLazy at h
    rcases Option.or_eq_some.mp h with h1 | ⟨_, h2⟩
    · exact ⟨[], x :: xs, rfl, by simp, h1⟩
    · split at h2
      · rename_i hp
        obtain ⟨w, s', hs, hw, hk⟩ := ih h2
        refine ⟨x :: w, s', by simp [hs], ?_, hk⟩
        intro y hy
        rcases List.mem_cons.mp hy with rfl | hy
        · exact hp
        · exact hw y hy
      · exact absurd h2 (by simp)

theorem Re.run_sound (r : Re) : ∀ (s : Str) (c : Caps) (k : Str → Caps → Option Caps) (v : Caps),
    r.run s c k = some v → ∃ w s' c', s = w ++ s' ∧ r.Matches w c c' ∧ k s' c' = some v := by
  induction r with
  | lit w0 =>
    intro s c k v h
    simp only [Re.run] at h
    split at h
    · rename_i hp
      obtain ⟨t, ht⟩ := List.isPrefixOf_iff_prefix.mp hp
      subst ht
      simp only [List.drop_left] at h
      exact ⟨w0, t, c, rfl, ⟨rfl, rfl⟩, h⟩
    · exact absurd h (by simp)
  | star cls =>
    intro s c k v h
    obtain ⟨w, s', hs, hw, hk⟩ := starGreedy_sound _ _ _ _ h
    exact ⟨w, s', c, hs, ⟨hw, rfl⟩, hk⟩
  | lazyStar cls =>
    intro s c k v h
    obtain ⟨w, s', hs, hw, hk⟩ := starLazy_sound _ _ _ _ h
    exact ⟨w, s', c, hs, ⟨hw, rfl⟩, hk⟩
  | plus cls =>
    intro s c k v h
    cases s with
    | nil => simp [Re.run] at h
    | cons x xs =>
      simp only [Re.run] at h
      split at h
      · rename_i hp
        obtain ⟨w, s', hs, hw, hk⟩ := starGreedy_sound _ _ _ _ h
        refine ⟨x :: w, s', c, by simp [hs], ⟨by simp, ?_, rfl⟩, hk⟩
        intro y hy
        rcases List.mem_cons.mp hy with rfl | hy
        · exact hp
        · exact hw y hy
      · exact absurd h (by simp)
  | alt a b iha ihb =>
    intro s c k v h
    simp only [Re.run] at h
    rcases Option.or_eq_some.mp h with h1 | ⟨_, h2⟩
    · obtain ⟨w, s', c', hs, hm, hk⟩ := iha s c k v h1
      exact ⟨w, s', c', hs, Or.inl hm, hk⟩
    · obtain ⟨w, s', c', hs, hm, hk⟩ := ihb s c k v h2
      exact ⟨w, s', c', hs, Or.inr hm, hk⟩
  | seq a b iha ihb =>
    intro s c k v h
    simp only [Re.run] at h
    obtain ⟨w1, s1, c1, hs1, hm1, hk1⟩ := iha s c _ v h
    obtain ⟨w2, s2, c2, hs2, hm2, hk2⟩ := ihb s1 c1 k v hk1
    exact ⟨w1 ++ w2, s2, c2, by simp [hs1, hs2], ⟨w1, w2, c1, rfl, hm1, hm2⟩, hk2⟩
  | group g r ih =>
    intro s c k v h
    simp only [Re.run] at h
    obtain ⟨w, s', c1, hs, hm, hk⟩ := ih s c _ v h
    subst hs
    simp only [List.length_append, Nat.add_sub_cancel, List.take_left] at hk
    exact ⟨w, s', c1.set g w, rfl, ⟨c1, hm, rfl⟩, hk⟩
  | opt r ih =>
    intro s c k v h
    simp only [Re.run] at h
    rcases Option.or_eq_some.mp h with h1 | ⟨_, h2⟩
    · obtain ⟨w, s', c', hs, hm, hk⟩ := ih s c k v h1
      exact ⟨w, s', c', hs, Or.inl hm, hk⟩
    · exact ⟨[], s, c, rfl, Or.inr ⟨rfl, rfl⟩, h2⟩

theorem Re.search_sound (r : Re) (s : Str) (v : Caps) (h : r.search s = some v) :
    ∃ pre w post, s = pre ++ w ++ post ∧ r.Matches w Caps.empty v := by
  induction s with
  | nil =>
    simp only [Re.search] at h
    obtain ⟨w, s', c', hs, hm, hk⟩ := r.run_sound _ _ _ _ h
    simp only [Option.some.injEq] at hk
    subst hk
    exact ⟨[], w, s', by simpa using hs, hm⟩
  | cons x xs ih =>
    simp only [Re.search] at h
    rcases Option.or_eq_some.mp h with h1 | ⟨_, h2⟩
    · obtain ⟨w, s', c', hs, hm, hk⟩ := r.run_sound _ _ _ _ h1
      simp only [Option.some.injEq] at hk
      subst hk
      exact ⟨[], w, s', by simpa using hs, hm⟩
    · obtain ⟨pre, w, post, hs, hm⟩ := ih h2
      exact ⟨x :: pre, w, post, by simp [hs], hm⟩

/-! ## What a match of each pattern captures -/

theorem trim_frau : trim "Frau".toList = "Frau".toList := by decide

theorem trim_herrn : trim "Herrn".toList = "Herrn".toList := by decide

theorem GoodAnrede.trim_anrede {a : Str} (h : GoodAnrede a) : trim a = a := by
  rcases h with rfl | rfl
  · exact trim_frau
  · exact trim_herrn

theorem GoodEmail.trim_email {e : Str} (h : GoodEmail e) : trim e = e :=
  trim_eq_self_of_no_space e h.2

theorem notSpace_test (x : Char) (h : Cls.notSpace.test x = true) : isSpace x = false := by
  simpa [Cls.test] using h

theorem includedPattern_matches (kind : Kind) (w : Str) (v : Caps)
    (h : (includedPattern kind).Matches w Caps.empty v) :
    ∃ e a n d, GoodEmail e ∧ GoodAnrede a ∧ (∀ x ∈ n, x ≠ 'i') ∧
      (∃ x, isSpace x = true ∧ (a ++ [x]) <:+: w) ∧
      v .email = some e ∧ v .anrede = some a ∧ v .lastFirst = some n ∧
      v .datetime = some d := by
  simp only [includedPattern, Re.cat, Re.Matches, salutation] at h
  obtain ⟨_, _, _, rfl, ⟨rfl, rfl⟩, h⟩ := h
  obtain ⟨w1, _, _, rfl, ⟨_, _, rfl⟩, h⟩ := h
  obtain ⟨e, _, _, rfl, ⟨_, ⟨hen, he, rfl⟩, rfl⟩, h⟩ := h
  obtain ⟨w2, _, _, rfl, ⟨_, rfl⟩, h⟩ := h
  obtain ⟨_, _, _, rfl, ⟨rfl, rfl⟩, h⟩ := h
  obtain ⟨w3, _, _, rfl, ⟨_, rfl⟩, h⟩ := h
  obtain ⟨a, _, _, rfl, ⟨c1, ha, rfl⟩, h⟩ := h
  obtain ⟨w4, _, _, rfl, ⟨hw4n, hw4, rfl⟩, h⟩ := h
  obtain ⟨n, _, _, rfl, ⟨_, ⟨_, hn, rfl⟩, rfl⟩, h⟩ := h
  obtain ⟨_, _, _, rfl, ⟨rfl, rfl⟩, h⟩ := h
  obtain ⟨w5, d, _, rfl, ⟨_, _, rfl⟩, h⟩ := h
  obtain ⟨_, ⟨_, _, rfl⟩, rfl⟩ := h
  have hga : GoodAnrede a := by
    rcases ha with ⟨rfl, _⟩ | ⟨rfl, _⟩
    · exact Or.inl rfl
    · exact Or.inr rfl
  have hc : ∀ c : Caps, (a = "Frau".toList ∧ c = Caps.empty.set .email e ∨
      a = "Herrn".toList ∧ c = Caps.empty.set .email e) → c = Caps.empty.set .email e := by
    intro c hc
    rcases hc with ⟨_, h⟩ | ⟨_, h⟩ <;> exact h
  refine ⟨e, a, n, d, ⟨hen, fun x hx => notSpace_test x (he x hx)⟩, hga, ?_, ?_, ?_⟩
  · intro x hx
    have := hn x hx
    simpa [Cls.test] using this
  · cases w4 with
    | nil => exact absurd rfl hw4n
    | cons x w4 =>
      refine ⟨x, by simpa [Cls.test] using hw4 x (List.mem_cons_self _ _), ?_⟩
      exact ⟨"User".toList ++ w1 ++ e ++ w2 ++ "|".toList ++ w3,
        w4 ++ (n ++ ("included based on ".toList ++ (kind.text ++ (":".toList ++ (w5 ++ d))))),
        by simp only [List.append_assoc, List.singleton_append, List.cons_append, List.nil_append]⟩
  · have := hc c1 ha
    subst this
    simp [Caps.set]


theorem ignoredPattern_matches (w : Str) (v : Caps)
    (h : ignoredPattern.Matches w Caps.empty v) :
    ∃ e a n, GoodEmail e ∧ GoodAnrede a ∧ (∃ x, isSpace x = true ∧ (a ++ [x]) <:+: w) ∧
      v .email = some e ∧ v .anrede = some a ∧ v .name = some n := by
  simp only [ignoredPattern, Re.cat, Re.Matches, salutation] at h
  obtain ⟨_, _, _, rfl, ⟨rfl, rfl⟩, h⟩ := h
  obtain ⟨w1, _, _, rfl, ⟨_, _, rfl⟩, h⟩ := h
  obtain ⟨e, _, _, rfl, ⟨_, ⟨hen, he, rfl⟩, rfl⟩, h⟩ := h
  obtain ⟨w2, _, _, rfl, ⟨_, rfl⟩, h⟩ := h
  obtain ⟨_, _, _, rfl, ⟨rfl, rfl⟩, h⟩ := h
  obtain ⟨w3, _, _, rfl, ⟨_, rfl⟩, h⟩ := h
  obtain ⟨a, _, _, rfl, ⟨c1, ha, rfl⟩, h⟩ := h
  obtain ⟨w4, _, _, rfl, ⟨hw4n, hw4, rfl⟩, h⟩ := h
  obtain ⟨n, _, _, rfl, ⟨_, ⟨_, _, rfl⟩, rfl⟩, h⟩ := h
  obtain ⟨_, _, _, rfl, ⟨rfl, rfl⟩, h⟩ := h
  obtain ⟨w5, _, _, rfl, ⟨_, rfl⟩, h⟩ := h
  obtain ⟨_, _, _, rfl, ⟨rfl, rfl⟩, h⟩ := h
  obtain ⟨w6, _, _, rfl, ⟨_, rfl⟩, h⟩ := h
  obtain ⟨l, _, c2, rfl, hl, h⟩ := h
  obtain ⟨_, _, _, rfl, ⟨rfl, rfl⟩, h⟩ := h
  obtain ⟨w7, _, _, rfl, ⟨_, rfl⟩, h⟩ := h
  obtain ⟨_, _, _, rfl, ⟨rfl, rfl⟩, h⟩ := h
  obtain ⟨w8, z, _, rfl, ⟨_, rfl⟩, h⟩ := h
  obtain ⟨_, ⟨_, rfl⟩, rfl⟩ := h
  have hga : GoodAnrede a := by
    rcases ha with ⟨rfl, _⟩ | ⟨rfl, _⟩
    · exact Or.inl rfl
    · exact Or.inr rfl
  have hc1 : c1 = Caps.empty.set .email e := by
    rcases ha with ⟨_, h⟩ | ⟨_, h⟩ <;> exact h
  subst hc1
  refine ⟨e, a, n, ⟨hen, fun x hx => notSpace_test x (he x hx)⟩, hga, ?_, ?_⟩
  · cases w4 with
    | nil => exact absurd rfl hw4n
    | cons x w4 =>
      refine ⟨x, by simpa [Cls.test] using hw4 x (List.mem_cons_self _ _), ?_⟩
      exact ⟨"Ignorierter Nutzer:".toList ++ w1 ++ e ++ w2 ++ "|".toList ++ w3, _, by
        simp only [List.append_assoc, List.singleton_append, List.cons_append, List.nil_append]; rfl⟩
  · rcases hl with ⟨_, ⟨_, _, rfl⟩, rfl⟩ | ⟨_, rfl⟩ <;> simp [Caps.set]

theorem benutzerPattern_matches (w : Str) (v : Caps)
    (h : benutzerPattern.Matches w Caps.empty v) :
    ∃ e a n, GoodEmail e ∧ GoodAnrede a ∧ (∃ x, isSpace x = true ∧ (a ++ [x]) <:+: w) ∧
      v .email = some e ∧ v .anrede = some a ∧ v .name = some n := by
  simp only [benutzerPattern, Re.cat, Re.Matches, salutation] at h
  obtain ⟨_, _, _, rfl, ⟨rfl, rfl⟩, h⟩ := h
  obtain ⟨w1, _, _, rfl, ⟨_, _, rfl⟩, h⟩ := h
  obtain ⟨e, _, _, rfl, ⟨_, ⟨hen, he, rfl⟩, rfl⟩, h⟩ := h
  obtain ⟨w2, _, _, rfl, ⟨_, rfl⟩, h⟩ := h
  obtain ⟨_, _, _, rfl, ⟨rfl, rfl⟩, h⟩ := h
  obtain ⟨w3, _, _, rfl, ⟨_, rfl⟩, h⟩ := h
  obtain ⟨a, _, _, rfl, ⟨c1, ha, rfl⟩, h⟩ := h
  obtain ⟨w4, n, _, rfl, ⟨hw4n, hw4, rfl⟩, h⟩ := h
  obtain ⟨_, ⟨_, _, rfl⟩, rfl⟩ := h
  have hga : GoodAnrede a := by
    rcases ha with ⟨rfl, _⟩ | ⟨rfl, _⟩
    · exact Or.inl rfl
    · exact Or.inr rfl
  have hc1 : c1 = Caps.empty.set .email e := by
    rcases ha with ⟨_, h⟩ | ⟨_, h⟩ <;> exact h
  subst hc1
  refine ⟨e, a, n, ⟨hen, fun x hx => notSpace_test x (he x hx)⟩, hga, ?_, ?_⟩
  · cases w4 with
    | nil => exact absurd rfl hw4n
    | cons x w4 =>
      refine ⟨x, by simpa [Cls.test] using hw4 x (List.mem_cons_self _ _), ?_⟩
      exact ⟨"Benutzer:".toList ++ w1 ++ e ++ w2 ++ "|".toList ++ w3, _, by
        simp only [List.append_assoc, List.singleton_append, List.cons_append, List.nil_append]; rfl⟩
  · simp [Caps.set]

theorem groupPattern_matches (w : Str) (v : Caps)
    (h : groupPattern.Matches w Caps.empty v) :
    ∃ e d, GoodEmail e ∧ v .email = some e ∧ v .dn = some d := by
  simp only [groupPattern, Re.cat, Re.Matches] at h
  obtain ⟨_, _, _, rfl, ⟨rfl, rfl⟩, h⟩ := h
  obtain ⟨w1, _, _, rfl, ⟨_, _, rfl⟩, h⟩ := h
  obtain ⟨e, _, _, rfl, ⟨_, ⟨hen, he, rfl⟩, rfl⟩, h⟩ := h
  obtain ⟨w2, _, _, rfl, ⟨_, rfl⟩, h⟩ := h
  obtain ⟨_, _, _, rfl, ⟨rfl, rfl⟩, h⟩ := h
  obtain ⟨w3, _, _, rfl, ⟨_, _, rfl⟩, h⟩ := h
  obtain ⟨_, _, _, rfl, ⟨rfl, rfl⟩, h⟩ := h
  obtain ⟨w4, d, _, rfl, ⟨_, _, rfl⟩, h⟩ := h
  obtain ⟨_, ⟨_, rfl⟩, rfl⟩ := h
  exact ⟨e, d, ⟨hen, fun x hx => notSpace_test x (he x hx)⟩, by simp [Caps.set]⟩


/-! ## The four helpers never throw, and what they return -/

theorem mem_of_mem_trim (s : Str) (x : Char) (h : x ∈ trim s) : x ∈ s := by
  unfold trim at h
  have h1 := (List.dropWhile_sublist isSpace).mem (List.mem_reverse.mp h)
  exact (List.dropWhile_sublist isSpace).mem (List.mem_reverse.mp h1)

theorem parseIncludedUser_spec (line : Str) (kind : Kind) :
    parseIncludedUser line kind = .ok none ∨
    ∃ u, parseIncludedUser line kind = .ok (some u) ∧ GoodEmail u.email ∧
      GoodAnrede u.anrede ∧ u.kind = kind ∧ (∀ x ∈ u.name, x ≠ 'i') ∧ hasSalutation line = true := by
  unfold parseIncludedUser
  cases hs : (includedPattern kind).search line with
  | none => exact Or.inl rfl
  | some v =>
    obtain ⟨pre, w, post, hl, hm⟩ := Re.search_sound _ _ _ hs
    obtain ⟨e, a, n, d, he, ha, hn, hinf, h1, h2, h3, h4⟩ := includedPattern_matches kind w v hm
    refine Or.inr ⟨⟨trim e, trim a, trim n, trim d, kind⟩, ?_, ?_, ?_, rfl, ?_, ?_⟩
    · simp only [h1, h2, h3, h4, trimOf]
      rfl
    · simpa only [he.trim_email] using he
    · simpa only [ha.trim_anrede] using ha
    · exact fun x hx => hn x (mem_of_mem_trim n x hx)
    · obtain ⟨x, hx, hinf⟩ := hinf
      exact (hasSalutation_iff line).mpr
        ⟨a, x, ha, hx, hl ▸ hinf.trans (List.infix_append pre w post)⟩

theorem parseIgnoredUser_spec (line : Str) :
    parseIgnoredUser line = .ok none ∨
    ∃ u, parseIgnoredUser line = .ok (some u) ∧ GoodEmail u.email ∧
      GoodAnrede u.anrede ∧ hasSalutation line = true := by
  unfold parseIgnoredUser
  cases hs : ignoredPattern.search line with
  | none => exact Or.inl rfl
  | some v =>
    obtain ⟨pre, w, post, hl, hm⟩ := Re.search_sound _ _ _ hs
    obtain ⟨e, a, n, he, ha, hinf, h1, h2, h3⟩ := ignoredPattern_matches w v hm
    refine Or.inr ⟨⟨trim e, trim a, trim n, trimOrNull (v .lad), trimOrNull (v .ez)⟩,
      ?_, ?_, ?_, ?_⟩
    · simp only [h1, h2, h3, trimOf]
      rfl
    · simpa only [he.trim_email] using he
    · simpa only [ha.trim_anrede] using ha
    · obtain ⟨x, hx, hinf⟩ := hinf
      exact (hasSalutation_iff line).mpr
        ⟨a, x, ha, hx, hl ▸ hinf.trans (List.infix_append pre w post)⟩

theorem parseBenutzer_spec (line : Str) :
    parseBenutzer line = .ok none ∨
    ∃ u, parseBenutzer line = .ok (some u) ∧ GoodEmail u.email ∧
      GoodAnrede u.anrede ∧ hasSalutation line = true := by
  unfold parseBenutzer
  cases hs : benutzerPattern.search line with
  | none => exact Or.inl rfl
  | some v =>
    obtain ⟨pre, w, post, hl, hm⟩ := Re.search_sound _ _ _ hs
    obtain ⟨e, a, n, he, ha, hinf, h1, h2, h3⟩ := benutzerPattern_matches w v hm
    refine Or.inr ⟨⟨trim e, trim a, trim n⟩, ?_, ?_, ?_, ?_⟩
    · simp only [h1, h2, h3, trimOf]
      rfl
    · simpa only [he.trim_email] using he
    · simpa only [ha.trim_anrede] using ha
    · obtain ⟨x, hx, hinf⟩ := hinf
      exact (hasSalutation_iff line).mpr
        ⟨a, x, ha, hx, hl ▸ hinf.trans (List.infix_append pre w post)⟩

theorem parseUsersAddedToGroup_spec (line : Str) :
    parseUsersAddedToGroup line = .ok none ∨
    ∃ u, parseUsersAddedToGroup line = .ok (some u) ∧ GoodEmail u.email := by
  unfold parseUsersAddedToGroup
  cases hs : groupPattern.search line with
  | none => exact Or.inl rfl
  | some v =>
    obtain ⟨pre, w, post, hl, hm⟩ := Re.search_sound _ _ _ hs
    obtain ⟨e, d, he, h1, h2⟩ := groupPattern_matches w v hm
    refine Or.inr ⟨⟨trim e, trim d⟩, ?_, ?_⟩
    · simp only [h1, h2, trimOf]
      rfl
    · simpa only [he.trim_email] using he


/-! ## One iteration of the loop -/

theorem step_shape (st : Scan) (line : Str) :
    ∃ st', step st line = .ok st' ∧ StepShape st line st' := by
  unfold step
  simp only []
  by_cases m1 : includes line markerIncludedLad = true
  · rw [if_pos m1]
    exact ⟨_, rfl, .marker _ _ _ (by simp [isMarker, m1]) (by simp)⟩
  rw [if_neg m1]
  by_cases m2 : includes line markerIncludedEz = true
  · rw [if_pos m2]
    exact ⟨_, rfl, .marker _ _ _ (by simp [isMarker, m2]) (by simp)⟩
  rw [if_neg m2]
  by_cases m3 : includes line markerIgnored = true
  · rw [if_pos m3]
    exact ⟨_, rfl, .marker _ _ _ (by simp [isMarker, m3]) (by simp)⟩
  rw [if_neg m3]
  by_cases m4 : includes line markerSingle = true
  · rw [if_pos m4]
    exact ⟨_, rfl, .marker _ _ _ (by simp [isMarker, m4]) (by simp)⟩
  rw [if_neg m4]
  by_cases m5 : includes line markerMulti = true
  · rw [if_pos m5]
    exact ⟨_, rfl, .marker _ _ _ (by simp [isMarker, m5]) (by simp)⟩
  rw [if_neg m5]
  by_cases m6 : includes line markerGroup = true
  · rw [if_pos m6]
    exact ⟨_, rfl, .marker _ _ _ (by simp [isMarker, m6]) (by simp)⟩
  rw [if_neg m6]
  have hm : isMarker line = false := by simp [isMarker, m1, m2, m3, m4, m5, m6]
  by_cases i1 : includes line " included based on LETZTES_AENDERUNGSDATUM:".toList = true
  · rw [if_pos i1]
    rcases parseIncludedUser_spec line .LETZTES_AENDERUNGSDATUM with h | ⟨u, h, _⟩
    · exact ⟨_, by rw [h]; rfl, .skip⟩
    · exact ⟨_, by rw [h]; rfl, .lad u hm h⟩
  rw [if_neg i1]
  by_cases i2 : includes line " included based on ERFASSUNGSZEITPUNKT:".toList = true
  · rw [if_pos i2]
    rcases parseIncludedUser_spec line .ERFASSUNGSZEITPUNKT with h | ⟨u, h, _⟩
    · exact ⟨_, by rw [h]; rfl, .skip⟩
    · exact ⟨_, by rw [h]; rfl, .ez u hm h⟩
  rw [if_neg i2]
  have hi : isIncludedLine line = false := by
    unfold isIncludedLine
    rw [Bool.eq_false_iff.mpr i1, Bool.eq_false_iff.mpr i2]
    rfl
  by_cases s1 : st.inIgnoredSection = true
  · rw [if_pos s1]
    by_cases o1 : startsWith (trim line) "Organization:".toList = true
    · rw [if_pos o1]
      exact ⟨_, rfl, .org hm hi s1 o1⟩
    rw [if_neg o1]
    by_cases o2 : includes line "Ignorierter Nutzer:".toList = true
    · rw [if_pos o2]
      rcases parseIgnoredUser_spec line with h | ⟨u, h, _⟩
      · exact ⟨_, by rw [h]; rfl, .skip⟩
      · exact ⟨_, by rw [h]; rfl, .ignored u hm hi s1 (by simpa using o1) h⟩
    rw [if_neg o2]
    exact ⟨_, rfl, .skip⟩
  rw [if_neg s1]
  have s1f : st.inIgnoredSection = false := by simpa using s1
  by_cases s2 : st.inSingleSection = true
  · rw [if_pos s2]
    by_cases g1 : startsWith (trim line) "Geschäftspartner:".toList = true
    · rw [if_pos g1]
      exact ⟨_, rfl, .gp hm hi s1f (Or.inl s2) g1⟩
    rw [if_neg g1]
    by_cases b1 : startsWith (trim line) "Benutzer:".toList = true
    · rw [if_pos b1]
      rcases parseBenutzer_spec (trim line) with h | ⟨u, h, _⟩
      · exact ⟨_, by rw [h]; rfl, .skip⟩
      · exact ⟨_, by rw [h]; rfl, .single u hm hi s1f s2 (by simpa using g1) h⟩
    rw [if_neg b1]
    exact ⟨_, rfl, .skip⟩
  rw [if_neg s2]
  have s2f : st.inSingleSection = false := by simpa using s2
  by_cases s3 : st.inMultiSection = true
  · rw [if_pos s3]
    by_cases g1 : startsWith (trim line) "Geschäftspartner:".toList = true
    · rw [if_pos g1]
      exact ⟨_, rfl, .gp hm hi s1f (Or.inr s3) g1⟩
    rw [if_neg g1]
    by_cases b1 : startsWith (trim line) "Benutzer:".toList = true
    · rw [if_pos b1]
      rcases parseBenutzer_spec (trim line) with h | ⟨u, h, _⟩
      · exact ⟨_, by rw [h]; rfl, .skip⟩
      · exact ⟨_, by rw [h]; rfl, .multi u hm hi s1f s2f s3 (by simpa using g1) h⟩
    rw [if_neg b1]
    exact ⟨_, rfl, .skip⟩
  rw [if_neg s3]
  have s3f : st.inMultiSection = false := by simpa using s3
  by_cases d1 : (startsWith (trim line) "Benutzer:".toList &&
      includes (trim line) " DN: ".toList) = true
  · rw [if_pos d1]
    rcases parseUsersAddedToGroup_spec (trim line) with h | ⟨u, h, _⟩
    · exact ⟨_, by rw [h]; rfl, .skip⟩
    · exact ⟨_, by rw [h]; rfl, .group u hm hi s1f s2f s3f h⟩
  rw [if_neg d1]
  exact ⟨_, rfl, .skip⟩


/-! ## The loop as a whole -/

theorem scanLines_induct (P : Scan → Prop)
    (hstep : ∀ st line st', P st → StepShape st line st' → P st') :
    ∀ (lines : List Str) (st : Scan), P st → ∃ st', scanLines st lines = .ok st' ∧ P st' := by
  intro lines
  induction lines with
  | nil => exact fun st h => ⟨st, rfl, h⟩
  | cons line rest ih =>
    intro st h
    obtain ⟨st1, h1, hs⟩ := step_shape st line
    obtain ⟨st2, h2, hp⟩ := ih st1 (hstep st line st1 h hs)
    exact ⟨st2, by simp only [scanLines, h1, h2], hp⟩

theorem analyzeLogfile_eq (logText : Str) (st : Scan)
    (h : scanLines Scan.init (splitLines logText) = .ok st) :
    analyzeLogfile logText = .ok st.data := by
  simp only [analyzeLogfile, h]

theorem isMarker_of_infix (line : Str) (h : ∃ m ∈ markers, m <:+: line) :
    isMarker line = true := by
  obtain ⟨m, hm, hinf⟩ := h
  have hinc := (includes_eq_true_iff line m).mpr hinf
  simp only [markers, List.mem_cons, List.mem_singleton, List.not_mem_nil, or_false] at hm
  unfold isMarker
  rcases hm with rfl | rfl | rfl | rfl | rfl | rfl <;> simp only [hinc, Bool.or_true, Bool.true_or]

theorem StepShape.good {st : Scan} {line : Str} {st' : Scan} (h : StepShape st line st')
    (hg : st.data.Good) : st'.data.Good := by
  obtain ⟨g1, g2, g3, g4, g5, g6⟩ := hg
  cases h with
  | marker => exact ⟨g1, g2, g3, g4, g5, g6⟩
  | skip => exact ⟨g1, g2, g3, g4, g5, g6⟩
  | org => exact ⟨g1, g2, g3, g4, g5, g6⟩
  | gp => exact ⟨g1, g2, g3, g4, g5, g6⟩
  | lad r hm hp =>
    rcases parseIncludedUser_spec line .LETZTES_AENDERUNGSDATUM with h | ⟨u, h, he, ha, _⟩
    · rw [h] at hp; cases hp
    · rw [h] at hp; cases hp
      refine ⟨?_, g2, g3, g4, g5, g6⟩
      intro x hx
      rcases List.mem_append.mp hx with hx | hx
      · exact g1 x hx
      · rw [List.mem_singleton.mp hx]; exact ⟨he, ha⟩
  | ez r hm hp =>
    rcases parseIncludedUser_spec line .ERFASSUNGSZEITPUNKT with h | ⟨u, h, he, ha, _⟩
    · rw [h] at hp; cases hp
    · rw [h] at hp; cases hp
      refine ⟨g1, ?_, g3, g4, g5, g6⟩
      intro x hx
      rcases List.mem_append.mp hx with hx | hx
      · exact g2 x hx
      · rw [List.mem_singleton.mp hx]; exact ⟨he, ha⟩
  | ignored r hm hi hs hh hp =>
    rcases parseIgnoredUser_spec line with h | ⟨u, h, he, ha, _⟩
    · rw [h] at hp; cases hp
    · rw [h] at hp; cases hp
      refine ⟨g1, g2, ?_, g4, g5, g6⟩
      intro x hx
      rcases List.mem_append.mp hx with hx | hx
      · exact g3 x hx
      · rw [List.mem_singleton.mp hx]; exact ⟨he, ha⟩
  | single r hm hi hs h1 hh hp =>
    rcases parseBenutzer_spec (trim line) with h | ⟨u, h, he, ha, _⟩
    · rw [h] at hp; cases hp
    · rw [h] at hp; cases hp
      refine ⟨g1, g2, g3, ?_, g5, g6⟩
      intro x hx
      rcases List.mem_append.mp hx with hx | hx
      · exact g4 x hx
      · rw [List.mem_singleton.mp hx]; exact ⟨he, ha⟩
  | multi r hm hi hs h1 h2 hh hp =>
    rcases parseBenutzer_spec (trim line) with h | ⟨u, h, he, ha, _⟩
    · rw [h] at hp; cases hp
    · rw [h] at hp; cases hp
      refine ⟨g1, g2, g3, g4, ?_, g6⟩
      intro x hx
      rcases List.mem_append.mp hx with hx | hx
      · exact g5 x hx
      · rw [List.mem_singleton.mp hx]; exact ⟨he, ha⟩
  | group r hm hi hs h1 h2 hp =>
    rcases parseUsersAddedToGroup_spec (trim line) with h | ⟨u, h, he⟩
    · rw [h] at hp; cases hp
    · rw [h] at hp; cases hp
      refine ⟨g1, g2, g3, g4, g5, ?_⟩
      intro x hx
      rcases List.mem_append.mp hx with hx | hx
      · exact g6 x hx
      · rw [List.mem_singleton.mp hx]; exact he

theorem StepShape.total {st : Scan} {line : Str} {st' : Scan} (h : StepShape st line st') :
    st'.data.total = st.data.total ∨ st'.data.total = st.data.total + 1 := by
  cases h with
  | marker => exact Or.inl rfl
  | skip => exact Or.inl rfl
  | org => exact Or.inl rfl
  | gp => exact Or.inl rfl
  | lad => right; simp only [Data.total, List.length_append, List.length_singleton]; omega
  | ez => right; simp only [Data.total, List.length_append, List.length_singleton]; omega
  | ignored => right; simp only [Data.total, List.length_append, List.length_singleton]; omega
  | single => right; simp only [Data.total, List.length_append, List.length_singleton]; omega
  | multi => right; simp only [Data.total, List.length_append, List.length_singleton]; omega
  | group => right; simp only [Data.total, List.length_append, List.length_singleton]; omega

theorem scanLines_total_le : ∀ (lines : List Str) (st : Scan),
    ∃ st', scanLines st lines = .ok st' ∧ st'.data.total ≤ st.data.total + lines.length := by
  intro lines
  induction lines with
  | nil => exact fun st => ⟨st, rfl, by simp⟩
  | cons line rest ih =>
    intro st
    obtain ⟨st1, h1, hs⟩ := step_shape st line
    obtain ⟨st2, h2, hle⟩ := ih st1
    refine ⟨st2, by simp only [scanLines, h1, h2], ?_⟩
    have := hs.total
    simp only [List.length_cons]
    omega

/-! ## The claims -/

/-- C3 (totality): on every input string `analyzeLogfile` returns normally, with
a value holding the six collections (it never throws), and on the empty string
all six collections are empty. -/
theorem analyzeLogfile_total :
    (∀ logText : Str, ∃ d : Data, analyzeLogfile logText = .ok d) ∧
    analyzeLogfile [] = .ok Data.empty := by
  refine ⟨fun logText => ?_, by decide⟩
  obtain ⟨st, h, _⟩ := scanLines_induct (fun _ => True) (fun _ _ _ _ _ => trivial)
    (splitLines logText) Scan.init trivial
  exact ⟨st.data, analyzeLogfile_eq logText st h⟩

/-- C8 (record invariant): for every input, `analyzeLogfile` returns six
collections in which every record has a non-empty email without whitespace, and
every record of the two included collections, the ignored collection and the
two tenant collections has `anrede` equal to `Frau` or `Herrn`. -/
theorem analyzeLogfile_records_good (logText : Str) :
    ∃ d : Data, analyzeLogfile logText = .ok d ∧ d.Good := by
  have h0 : Scan.init.data.Good := by
    simp [Data.Good, Scan.init]
  obtain ⟨st, h, hg⟩ := scanLines_induct (fun st => st.data.Good)
    (fun _ _ _ hg hs => hs.good hg) (splitLines logText) Scan.init h0
  exact ⟨st.data, analyzeLogfile_eq logText st h, hg⟩

/-- C9 (marker frame): processing a line that contains one of the six section
banners succeeds, appends no record to any collection, and leaves `currentOrg`
and `currentGp` as they were. -/
theorem marker_line_frame (st : Scan) (line : Str) (h : ∃ m ∈ markers, m <:+: line) :
    ∃ st', step st line = .ok st' ∧ st'.data = st.data ∧
      st'.currentOrg = st.currentOrg ∧ st'.currentGp = st.currentGp := by
  have hm := isMarker_of_infix line h
  obtain ⟨st', h1, hs⟩ := step_shape st line
  refine ⟨st', h1, ?_⟩
  cases hs with
  | marker => exact ⟨rfl, rfl, rfl⟩
  | skip => exact ⟨rfl, rfl, rfl⟩
  | lad _ hm2 => rw [hm] at hm2; cases hm2
  | ez _ hm2 => rw [hm] at hm2; cases hm2
  | org hm2 => rw [hm] at hm2; cases hm2
  | ignored _ hm2 => rw [hm] at hm2; cases hm2
  | gp hm2 => rw [hm] at hm2; cases hm2
  | single _ hm2 => rw [hm] at hm2; cases hm2
  | multi _ hm2 => rw [hm] at hm2; cases hm2
  | group _ hm2 => rw [hm] at hm2; cases hm2

/-- C10 (at most one record per line): processing one line succeeds and raises
the number of records over the six collections by 0 or 1, and for every input
the number of records `analyzeLogfile` returns is at most the number of lines
the input splits into. -/
theorem analyzeLogfile_total_le_lines :
    (∀ (st : Scan) (line : Str), ∃ st', step st line = .ok st' ∧
      (st'.data.total = st.data.total ∨ st'.data.total = st.data.total + 1)) ∧
    (∀ logText : Str, ∃ d : Data, analyzeLogfile logText = .ok d ∧
      d.total ≤ (splitLines logText).length) := by
  constructor
  · intro st line
    obtain ⟨st', h, hs⟩ := step_shape st line
    exact ⟨st', h, hs.total⟩
  · intro logText
    obtain ⟨st, h, hle⟩ := scanLines_total_le (splitLines logText) Scan.init
    refine ⟨st.data, analyzeLogfile_eq logText st h, ?_⟩
    simpa [Scan.init, Data.total] using hle


/-! ## Context variables -/

theorem replaceFirst_of_startsWith (s pat : Str) (h : startsWith s pat = true) :
    replaceFirst s pat [] = s.drop pat.length := by
  unfold startsWith at h
  cases s with
  | nil =>
    have : pat = [] := by
      cases pat with
      | nil => rfl
      | cons a t => simp [List.isPrefixOf] at h
    subst this
    rfl
  | cons x xs => simp only [replaceFirst, h, if_true, List.nil_append]

theorem isMarker_false_iff (line : Str) (h : isMarker line = false) :
    includes line markerIncludedLad = false ∧ includes line markerIncludedEz = false ∧
    includes line markerIgnored = false ∧ includes line markerSingle = false ∧
    includes line markerMulti = false ∧ includes line markerGroup = false := by
  unfold isMarker at h
  simp only [Bool.or_eq_false_iff] at h
  obtain ⟨⟨⟨⟨⟨m1, m2⟩, m3⟩, m4⟩, m5⟩, m6⟩ := h
  exact ⟨m1, m2, m3, m4, m5, m6⟩

theorem isIncludedLine_false_iff (line : Str) (h : isIncludedLine line = false) :
    includes line " included based on LETZTES_AENDERUNGSDATUM:".toList = false ∧
    includes line " included based on ERFASSUNGSZEITPUNKT:".toList = false := by
  unfold isIncludedLine at h
  simp only [Bool.or_eq_false_iff] at h
  exact h

theorem step_org (st : Scan) (line : Str) (h : consumesOrg st line = true) :
    step st line =
      .ok { st with currentOrg := some (headerRest "Organization:".toList line) } := by
  unfold consumesOrg at h
  simp only [Bool.and_eq_true, Bool.not_eq_true'] at h
  obtain ⟨⟨⟨hm, hi⟩, hs⟩, hh⟩ := h
  obtain ⟨m1, m2, m3, m4, m5, m6⟩ := isMarker_false_iff line hm
  obtain ⟨i1, i2⟩ := isIncludedLine_false_iff line hi
  unfold step
  simp only []
  rw [if_neg (by rw [m1]; simp), if_neg (by rw [m2]; simp), if_neg (by rw [m3]; simp),
    if_neg (by rw [m4]; simp), if_neg (by rw [m5]; simp), if_neg (by rw [m6]; simp),
    if_neg (by rw [i1]; simp), if_neg (by rw [i2]; simp), if_pos hs, if_pos hh,
    replaceFirst_of_startsWith _ _ hh]
  rfl

theorem step_gp (st : Scan) (line : Str) (h : consumesGp st line = true) :
    step st line =
      .ok { st with currentGp := some (headerRest "Geschäftspartner:".toList line) } := by
  unfold consumesGp at h
  simp only [Bool.and_eq_true, Bool.not_eq_true', Bool.or_eq_true] at h
  obtain ⟨⟨⟨⟨hm, hi⟩, hs⟩, ht⟩, hh⟩ := h
  obtain ⟨m1, m2, m3, m4, m5, m6⟩ := isMarker_false_iff line hm
  obtain ⟨i1, i2⟩ := isIncludedLine_false_iff line hi
  unfold step
  simp only []
  rw [if_neg (by rw [m1]; simp), if_neg (by rw [m2]; simp), if_neg (by rw [m3]; simp),
    if_neg (by rw [m4]; simp), if_neg (by rw [m5]; simp), if_neg (by rw [m6]; simp),
    if_neg (by rw [i1]; simp), if_neg (by rw [i2]; simp), if_neg (by rw [hs]; simp)]
  by_cases h1 : st.inSingleSection = true
  · rw [if_pos h1, if_pos hh, replaceFirst_of_startsWith _ _ hh]
    rfl
  · have h2 : st.inMultiSection = true := by
      rcases ht with h | h
      · exact absurd h h1
      · exact h
    rw [if_neg h1, if_pos h2, if_pos hh, replaceFirst_of_startsWith _ _ hh]
    rfl

theorem StepShape.org_frame {st : Scan} {line : Str} {st' : Scan} (h : StepShape st line st')
    (hc : consumesOrg st line = false) :
    st'.currentOrg = st.currentOrg ∧
    ∃ new, st'.data.ignorierte_nutzer = st.data.ignorierte_nutzer ++ new ∧
      ∀ r ∈ new, r.organisation = st.currentOrg := by
  cases h with
  | marker => exact ⟨rfl, [], by simp [Scan.setFlags], by simp⟩
  | skip => exact ⟨rfl, [], by simp, by simp⟩
  | lad => exact ⟨rfl, [], by simp, by simp⟩
  | ez => exact ⟨rfl, [], by simp, by simp⟩
  | org hm hi hs hh =>
    rw [consumesOrg, hm, hi, hs, hh] at hc
    exact absurd hc (by decide)
  | ignored r => exact ⟨rfl, _, rfl, by simp⟩
  | gp => exact ⟨rfl, [], by simp, by simp⟩
  | single => exact ⟨rfl, [], by simp, by simp⟩
  | multi => exact ⟨rfl, [], by simp, by simp⟩
  | group => exact ⟨rfl, [], by simp, by simp⟩

theorem StepShape.gp_frame {st : Scan} {line : Str} {st' : Scan} (h : StepShape st line st')
    (hc : consumesGp st line = false) :
    st'.currentGp = st.currentGp ∧
    ∃ new, st'.data.mandanten_mehrere_nutzer = st.data.mandanten_mehrere_nutzer ++ new ∧
      ∀ r ∈ new, r.geschaeftspartner = st.currentGp := by
  cases h with
  | marker => exact ⟨rfl, [], by simp [Scan.setFlags], by simp⟩
  | skip => exact ⟨rfl, [], by simp, by simp⟩
  | lad => exact ⟨rfl, [], by simp, by simp⟩
  | ez => exact ⟨rfl, [], by simp, by simp⟩
  | org => exact ⟨rfl, [], by simp, by simp⟩
  | ignored => exact ⟨rfl, [], by simp, by simp⟩
  | gp hm hi hs ht hh =>
    have hor : (st.inSingleSection || st.inMultiSection) = true := by
      rcases ht with ht | ht <;> simp [ht]
    rw [consumesGp, hm, hi, hs, hor, hh] at hc
    exact absurd hc (by decide)
  | single => exact ⟨rfl, [], by simp, by simp⟩
  | multi r => exact ⟨rfl, _, rfl, by simp⟩
  | group => exact ⟨rfl, [], by simp, by simp⟩

theorem consumesOrg_false_of_label (st : Scan) (line : Str)
    (h : startsWith (trim line) "Organization:".toList = false) : consumesOrg st line = false := by
  unfold consumesOrg
  rw [h, Bool.and_false]

theorem consumesGp_false_of_label (st : Scan) (line : Str)
    (h : startsWith (trim line) "Geschäftspartner:".toList = false) :
    consumesGp st line = false := by
  unfold consumesGp
  rw [h, Bool.and_false]

theorem scanLines_org_frame : ∀ (lines : List Str) (st : Scan),
    (∀ l ∈ lines, startsWith (trim l) "Organization:".toList = false) →
    ∃ st', scanLines st lines = .ok st' ∧ st'.currentOrg = st.currentOrg ∧
      ∃ new, st'.data.ignorierte_nutzer = st.data.ignorierte_nutzer ++ new ∧
        ∀ r ∈ new, r.organisation = st.currentOrg := by
  intro lines
  induction lines with
  | nil => exact fun st _ => ⟨st, rfl, rfl, [], by simp, by simp⟩
  | cons line rest ih =>
    intro st h
    obtain ⟨st1, h1, hs⟩ := step_shape st line
    obtain ⟨ho, new1, hn1, hr1⟩ :=
      hs.org_frame (consumesOrg_false_of_label st line (h line (List.mem_cons_self _ _)))
    obtain ⟨st2, h2, ho2, new2, hn2, hr2⟩ :=
      ih st1 (fun l hl => h l (List.mem_cons_of_mem _ hl))
    refine ⟨st2, by simp only [scanLines, h1, h2], ho2.trans ho, new1 ++ new2, ?_, ?_⟩
    · rw [hn2, hn1, List.append_assoc]
    · intro r hr
      rcases List.mem_append.mp hr with hr | hr
      · exact hr1 r hr
      · rw [hr2 r hr, ho]

theorem scanLines_gp_frame : ∀ (lines : List Str) (st : Scan),
    (∀ l ∈ lines, startsWith (trim l) "Geschäftspartner:".toList = false) →
    ∃ st', scanLines st lines = .ok st' ∧ st'.currentGp = st.currentGp ∧
      ∃ new, st'.data.mandanten_mehrere_nutzer = st.data.mandanten_mehrere_nutzer ++ new ∧
        ∀ r ∈ new, r.geschaeftspartner = st.currentGp := by
  intro lines
  induction lines with
  | nil => exact fun st _ => ⟨st, rfl, rfl, [], by simp, by simp⟩
  | cons line rest ih =>
    intro st h
    obtain ⟨st1, h1, hs⟩ := step_shape st line
    obtain ⟨ho, new1, hn1, hr1⟩ :=
      hs.gp_frame (consumesGp_false_of_label st line (h line (List.mem_cons_self _ _)))
    obtain ⟨st2, h2, ho2, new2, hn2, hr2⟩ :=
      ih st1 (fun l hl => h l (List.mem_cons_of_mem _ hl))
    refine ⟨st2, by simp only [scanLines, h1, h2], ho2.trans ho, new1 ++ new2, ?_, ?_⟩
    · rw [hn2, hn1, List.append_assoc]
    · intro r hr
      rcases List.mem_append.mp hr with hr | hr
      · exact hr1 r hr
      · rw [hr2 r hr, ho]


/-- C9, at a concrete input: a banner with text around it, processed in a state
whose context variables are set. -/
theorem marker_line_frame_witness :
    (∃ m ∈ markers, m <:+: "xx ========= Mandanten mit mehreren Benutzern ========= yy".toList) ∧
    ∃ st', step { Scan.init with currentOrg := some "Acme".toList,
                                 currentGp := some "GP1".toList, inSingleSection := true }
        "xx ========= Mandanten mit mehreren Benutzern ========= yy".toList = .ok st' ∧
      st'.data = Scan.init.data ∧ st'.currentOrg = some "Acme".toList ∧
      st'.currentGp = some "GP1".toList :=
  have h : ∃ m ∈ markers,
      m <:+: "xx ========= Mandanten mit mehreren Benutzern ========= yy".toList :=
    ⟨markerMulti, by simp [markers], "xx ".toList, " yy".toList, by decide⟩
  ⟨h, marker_line_frame _ _ h⟩

/-- C1, at the input of the specification's fixed-output scenario: the banner
followed by the line for `Frau Muster, Alice` yields six empty collections,
because `[^i]+` cannot reach `included based on` across the `i` of `Alice`;
the same two lines with the name `Muster, Anna` yield the one record. -/
theorem included_line_with_i_dropped :
    analyzeLogfile ("========= Included Users Based on LETZTES_AENDERUNGSDATUM =========\n" ++
      "User alice@x.com | Frau Muster, Alice included based on LETZTES_AENDERUNGSDATUM: 2024-01-01 10:00").toList
      = .ok Data.empty ∧
    analyzeLogfile ("========= Included Users Based on LETZTES_AENDERUNGSDATUM =========\n" ++
      "User alice@x.com | Frau Muster, Anna included based on LETZTES_AENDERUNGSDATUM: 2024-01-01 10:00").toList
      = .ok { Data.empty with eingeschlossen_lad := [
          { email := "alice@x.com".toList, anrede := "Frau".toList, name := "Muster, Anna".toList,
            datum_zeit := "2024-01-01 10:00".toList, kind := .LETZTES_AENDERUNGSDATUM }] } := by
  constructor <;> decide

/-- C2, refuted at a concrete input: the business partner `GP1` set in the
single-user section is carried by the record appended after the
`Mandanten mit mehreren Benutzern` banner; it is not null. -/
theorem gp_leaks_into_multi_section :
    analyzeLogfile ("========= Mandanten mit einem Benutzer =========\n" ++
      "Geschäftspartner: GP1\n" ++
      "Benutzer: a@x.com | Herrn Eins, Emil\n" ++
      "========= Mandanten mit mehreren Benutzern =========\n" ++
      "Benutzer: b@x.com | Frau Zwei, Zoe").toList
      = .ok { Data.empty with
          mandanten_ein_nutzer := [
            { email := "a@x.com".toList, anrede := "Herrn".toList, name := "Eins, Emil".toList,
              geschaeftspartner := some "GP1".toList }],
          mandanten_mehrere_nutzer := [
            { email := "b@x.com".toList, anrede := "Frau".toList, name := "Zwei, Zoe".toList,
              geschaeftspartner := some "GP1".toList }] } := by
  decide

/-- C2, amended: after a `Geschäftspartner:` header consumed in a tenant section
(so in particular in the single-user section), as long as no later line starts
(trimmed) with `Geschäftspartner:`, the scan succeeds, `currentGp` stays the
trimmed remainder of that header, and every record appended to
`mandanten_mehrere_nutzer` carries it: a section banner does not reset the
business partner. -/
theorem multi_records_keep_gp (st : Scan) (hdr : Str) (mid : List Str)
    (hhdr : consumesGp st hdr = true)
    (hmid : ∀ l ∈ mid, startsWith (trim l) "Geschäftspartner:".toList = false) :
    ∃ st', scanLines st (hdr :: mid) = .ok st' ∧
      st'.currentGp = some (headerRest "Geschäftspartner:".toList hdr) ∧
      ∃ new, st'.data.mandanten_mehrere_nutzer = st.data.mandanten_mehrere_nutzer ++ new ∧
        ∀ r ∈ new, r.geschaeftspartner = some (headerRest "Geschäftspartner:".toList hdr) := by
  obtain ⟨st', h, hg, new, hn, hr⟩ := scanLines_gp_frame mid
    { st with currentGp := some (headerRest "Geschäftspartner:".toList hdr) } hmid
  exact ⟨st', by simp only [scanLines, step_gp st hdr hhdr, h], hg, new, hn, hr⟩

/-- C2 amended, at a concrete input: the header `Geschäftspartner: GP1` in the
single-user section, then the multi-user banner and a user line. -/
theorem multi_records_keep_gp_witness :
    (Scan.init.setFlags false true false).inSingleSection = true ∧
    consumesGp (Scan.init.setFlags false true false) "Geschäftspartner: GP1".toList = true ∧
    (∀ l ∈ ["========= Mandanten mit mehreren Benutzern =========".toList,
            "Benutzer: b@x.com | Frau Zwei, Zoe".toList],
      startsWith (trim l) "Geschäftspartner:".toList = false) ∧
    ∃ st', scanLines (Scan.init.setFlags false true false)
        ("Geschäftspartner: GP1".toList ::
          ["========= Mandanten mit mehreren Benutzern =========".toList,
           "Benutzer: b@x.com | Frau Zwei, Zoe".toList]) = .ok st' ∧
      st'.currentGp = some (headerRest "Geschäftspartner:".toList "Geschäftspartner: GP1".toList) ∧
      ∃ new, st'.data.mandanten_mehrere_nutzer =
          (Scan.init.setFlags false true false).data.mandanten_mehrere_nutzer ++ new ∧
        ∀ r ∈ new, r.geschaeftspartner =
          some (headerRest "Geschäftspartner:".toList "Geschäftspartner: GP1".toList) :=
  ⟨by decide, by decide, by decide,
    multi_records_keep_gp _ _ _ (by decide) (by decide)⟩

/-- C4 (context inheritance): a line consumed as an `Organization:` header in
the ignored section sets `currentOrg` to its trimmed remainder; every other
line leaves `currentOrg` alone and any record it appends to
`ignorierte_nutzer` carries `currentOrg`; so after such a header, as long as no
later line starts (trimmed) with `Organization:`, every record appended to
`ignorierte_nutzer` carries that header's organisation. In particular the
ignored banner, `Organization: Acme` and three parseable `Ignorierter Nutzer:`
lines yield exactly three ignored records, each with organisation `Acme`. -/
theorem ignored_records_inherit_org :
    (∀ (st : Scan) (line : Str), consumesOrg st line = true →
      step st line =
        .ok { st with currentOrg := some (headerRest "Organization:".toList line) }) ∧
    (∀ (st : Scan) (line : Str), consumesOrg st line = false →
      ∃ st', step st line = .ok st' ∧ st'.currentOrg = st.currentOrg ∧
        ∃ new, st'.data.ignorierte_nutzer = st.data.ignorierte_nutzer ++ new ∧
          ∀ r ∈ new, r.organisation = st.currentOrg) ∧
    (∀ (st : Scan) (hdr : Str) (mid : List Str), consumesOrg st hdr = true →
      (∀ l ∈ mid, startsWith (trim l) "Organization:".toList = false) →
      ∃ st', scanLines st (hdr :: mid) = .ok st' ∧
        ∃ new, st'.data.ignorierte_nutzer = st.data.ignorierte_nutzer ++ new ∧
          ∀ r ∈ new, r.organisation = some (headerRest "Organization:".toList hdr)) ∧
    analyzeLogfile ("========= Ignorierte Nutzer von Mandanten =========\n" ++
      "Organization: Acme\n" ++
      "Ignorierter Nutzer: a@x.com | Frau Muster, Anna | LETZTES_AENDERUNGSDATUM: 2023-05-01, ERFASSUNGSZEITPUNKT: 2022-01-01\n" ++
      "Ignorierter Nutzer: b@x.com | Herrn Beispiel, Bernd | LETZTES_AENDERUNGSDATUM:,ERFASSUNGSZEITPUNKT: 2024-01-01\n" ++
      "Ignorierter Nutzer: c@x.com | Frau Test, Clara | LETZTES_AENDERUNGSDATUM: 2021-03-04, ERFASSUNGSZEITPUNKT:").toList =
    .ok { Data.empty with ignorierte_nutzer := [
      { email := "a@x.com".toList, anrede := "Frau".toList, name := "Muster, Anna".toList,
        letztes_aenderungsdatum := some "2023-05-01".toList,
        erfassungszeitpunkt := some "2022-01-01".toList, organisation := some "Acme".toList },
      { email := "b@x.com".toList, anrede := "Herrn".toList, name := "Beispiel, Bernd".toList,
        letztes_aenderungsdatum := none,
        erfassungszeitpunkt := some "2024-01-01".toList, organisation := some "Acme".toList },
      { email := "c@x.com".toList, anrede := "Frau".toList, name := "Test, Clara".toList,
        letztes_aenderungsdatum := some "2021-03-04".toList,
        erfassungszeitpunkt := none, organisation := some "Acme".toList }] } := by
  refine ⟨step_org, ?_, ?_, by decide⟩
  · intro st line hc
    obtain ⟨st', h, hs⟩ := step_shape st line
    exact ⟨st', h, hs.org_frame hc⟩
  · intro st hdr mid hhdr hmid
    obtain ⟨st', h, _, new, hn, hr⟩ := scanLines_org_frame mid
      { st with currentOrg := some (headerRest "Organization:".toList hdr) } hmid
    exact ⟨st', by simp only [scanLines, step_org st hdr hhdr, h], new, hn, hr⟩


/-! ## Running the matcher forward -/

theorem run_lit_append (w s : Str) (c : Caps) (k : Str → Caps → Option Caps) :
    (Re.lit w).run (w ++ s) c k = k s c := by
  have h : w.isPrefixOf (w ++ s) = true := List.isPrefixOf_iff_prefix.mpr (List.prefix_append w s)
  simp only [Re.run, h, if_true, List.drop_left]

theorem run_lit_mismatch (a b : Char) (w s : Str) (c : Caps) (k : Str → Caps → Option Caps)
    (h : a ≠ b) : (Re.lit (a :: w)).run (b :: s) c k = none := by
  have hp : (a :: w).isPrefixOf (b :: s) = false := by
    simp [List.isPrefixOf, h]
  simp only [Re.run, hp, Bool.false_eq_true, if_false]

theorem starGreedy_of_stops (p : Char → Bool) (s : Str) (k : Str → Option Caps)
    (hs : Stops p s) : starGreedy p s k = k s := by
  cases s with
  | nil => rfl
  | cons y t =>
    have : p y = false := hs y (by simp)
    simp only [starGreedy, this, Bool.false_eq_true, if_false]

theorem starGreedy_head (p : Char → Bool) (w s : Str) (k : Str → Option Caps) (v : Caps)
    (hw : ∀ x ∈ w, p x = true) (hs : Stops p s) (hk : k s = some v) :
    starGreedy p (w ++ s) k = some v := by
  induction w with
  | nil => simpa [starGreedy_of_stops p s k hs] using hk
  | cons x w ih =>
    have hx : p x = true := hw x (List.mem_cons_self _ _)
    have := ih (fun y hy => hw y (List.mem_cons_of_mem _ hy))
    rw [List.cons_append, starGreedy, if_pos hx, this, Option.or_some]

theorem starGreedy_backoff (p : Char → Bool) (w : Str) (z : Char) (s : Str)
    (k : Str → Option Caps) (v : Caps)
    (hw : ∀ x ∈ w, p x = true) (hz : p z = true) (hs : Stops p s)
    (hk0 : k s = none) (hk : k (z :: s) = some v) :
    starGreedy p (w ++ z :: s) k = some v := by
  induction w with
  | nil =>
    simp only [List.nil_append, starGreedy, hz, if_true, starGreedy_of_stops p s k hs, hk0,
      Option.none_or, hk]
  | cons x w ih =>
    have hx : p x = true := hw x (List.mem_cons_self _ _)
    have := ih (fun y hy => hw y (List.mem_cons_of_mem _ hy))
    rw [List.cons_append, starGreedy, if_pos hx, this, Option.or_some]

theorem starGreedy_total (p : Char → Bool) (s : Str) (f : Str → Caps) :
    starGreedy p s (fun s' => some (f s')) = some (f (s.dropWhile p)) := by
  induction s with
  | nil => rfl
  | cons x t ih =>
    by_cases hx : p x = true
    · simp only [starGreedy, hx, if_true, ih, Option.or_some, List.dropWhile_cons_of_pos]
    · simp only [starGreedy, hx, Bool.false_eq_true, if_false]
      rw [List.dropWhile_cons_of_neg hx]

theorem starLazy_head (p : Char → Bool) (s : Str) (k : Str → Option Caps) (v : Caps)
    (hk : k s = some v) : starLazy p s k = some v := by
  cases s with
  | nil => exact hk
  | cons x t => simp only [starLazy, hk, Option.or_some]

theorem run_star_head (cls : Cls) (w s : Str) (c : Caps) (k : Str → Caps → Option Caps)
    (v : Caps) (hw : ∀ x ∈ w, cls.test x = true) (hs : Stops cls.test s)
    (hk : k s c = some v) : (Re.star cls).run (w ++ s) c k = some v := by
  simp only [Re.run]
  exact starGreedy_head cls.test w s _ v hw hs hk

theorem run_plus_head (cls : Cls) (w s : Str) (c : Caps) (k : Str → Caps → Option Caps)
    (v : Caps) (hn : w ≠ []) (hw : ∀ x ∈ w, cls.test x = true) (hs : Stops cls.test s)
    (hk : k s c = some v) : (Re.plus cls).run (w ++ s) c k = some v := by
  cases w with
  | nil => exact absurd rfl hn
  | cons x w =>
    have hx : cls.test x = true := hw x (List.mem_cons_self _ _)
    simp only [List.cons_append, Re.run, hx, if_true]
    exact starGreedy_head cls.test w s _ v (fun y hy => hw y (List.mem_cons_of_mem _ hy)) hs hk

theorem run_plus_fail (cls : Cls) (s : Str) (c : Caps) (k : Str → Caps → Option Caps)
    (hs : Stops cls.test s) : (Re.plus cls).run s c k = none := by
  cases s with
  | nil => rfl
  | cons y t =>
    have : cls.test y = false := hs y (by simp)
    simp only [Re.run, this, Bool.false_eq_true, if_false]

theorem take_length_append (w s : Str) : (w ++ s).take ((w ++ s).length - s.length) = w := by
  simp only [List.length_append, Nat.add_sub_cancel, List.take_left]

theorem run_group_plus_head (g : Grp) (cls : Cls) (w s : Str) (c : Caps)
    (k : Str → Caps → Option Caps) (v : Caps) (hn : w ≠ [])
    (hw : ∀ x ∈ w, cls.test x = true) (hs : Stops cls.test s)
    (hk : k s (c.set g w) = some v) : (Re.group g (Re.plus cls)).run (w ++ s) c k = some v := by
  show (Re.plus cls).run (w ++ s) c
    (fun s' c' => k s' (c'.set g ((w ++ s).take ((w ++ s).length - s'.length)))) = some v
  exact run_plus_head cls w s c _ v hn hw hs (by simpa only [take_length_append] using hk)

theorem run_group_plus_fail (g : Grp) (cls : Cls) (s : Str) (c : Caps)
    (k : Str → Caps → Option Caps) (hs : Stops cls.test s) :
    (Re.group g (Re.plus cls)).run s c k = none := by
  show (Re.plus cls).run s c
    (fun s' c' => k s' (c'.set g (s.take (s.length - s'.length)))) = none
  exact run_plus_fail cls s c _ hs

theorem run_group_salutation (a rest : Str) (c : Caps) (k : Str → Caps → Option Caps)
    (ha : GoodAnrede a) :
    (Re.group .anrede salutation).run (a ++ rest) c k = k rest (c.set .anrede a) := by
  rcases ha with rfl | rfl
  · have h1 : ("Frau".toList ++ rest).take (("Frau".toList ++ rest).length - rest.length)
        = "Frau".toList := take_length_append _ _
    have h2 : ("Herrn".toList).isPrefixOf ("Frau".toList ++ rest) = false := by
      simp [List.isPrefixOf]
    simp only [Re.run, salutation, List.isPrefixOf_iff_prefix.mpr (List.prefix_append _ rest),
      if_true, List.drop_left, h1, h2, Bool.false_eq_true, if_false, Option.or_none]
  · have h1 : ("Herrn".toList ++ rest).take (("Herrn".toList ++ rest).length - rest.length)
        = "Herrn".toList := take_length_append _ _
    have h2 : ("Frau".toList).isPrefixOf ("Herrn".toList ++ rest) = false := by
      simp [List.isPrefixOf]
    simp only [Re.run, salutation, List.isPrefixOf_iff_prefix.mpr (List.prefix_append _ rest),
      if_true, List.drop_left, h1, h2, Bool.false_eq_true, if_false, Option.none_or]

theorem take_sub_dropWhile (p : Char → Bool) (s : Str) :
    s.take (s.length - (s.dropWhile p).length) = s.takeWhile p := by
  have h := List.takeWhile_append_dropWhile p s
  have hl : s.length = (s.takeWhile p).length + (s.dropWhile p).length := by
    rw [← List.length_append, h]
  rw [hl, Nat.add_sub_cancel]
  have := List.take_left (s.takeWhile p) (s.dropWhile p)
  rwa [h] at this

theorem run_group_star_dot_last (g : Grp) (s : Str) (c : Caps) :
    (Re.group g (Re.star .dot)).run s c (fun _ c' => some c') =
      some (c.set g (s.takeWhile Cls.dot.test)) := by
  simp only [Re.run]
  rw [starGreedy_total Cls.dot.test s (fun s' => c.set g (s.take (s.length - s'.length))),
    take_sub_dropWhile]

theorem search_of_run (r : Re) (s : Str) (v : Caps)
    (h : r.run s Caps.empty (fun _ c => some c) = some v) : r.search s = some v := by
  cases s with
  | nil => exact h
  | cons x t => simp only [Re.search, h, Option.or_some]


/-! ## Trimming -/

theorem trim_eq_rdropWhile (s : Str) :
    trim s = (s.dropWhile isSpace).rdropWhile isSpace := rfl

theorem rdropWhile_append_of_all (p : Char → Bool) (l b : Str) (hb : ∀ x ∈ b, p x = true) :
    (l ++ b).rdropWhile p = l.rdropWhile p := by
  unfold List.rdropWhile
  rw [List.reverse_append, List.dropWhile_append_of_pos (fun x hx => hb x (List.mem_reverse.mp hx))]

theorem trim_space_append (a b : Str) (ha : ∀ x ∈ a, isSpace x = true) :
    trim (a ++ b) = trim b := by
  unfold trim
  rw [List.dropWhile_append_of_pos ha]

theorem trim_append_space (a b : Str) (hb : ∀ x ∈ b, isSpace x = true) :
    trim (a ++ b) = trim a := by
  rw [trim_eq_rdropWhile, trim_eq_rdropWhile, List.dropWhile_append]
  split
  · rename_i h
    have h1 : a.dropWhile isSpace = [] := List.isEmpty_iff.mp h
    rw [h1, List.dropWhile_eq_nil_iff.mpr hb]
  · exact rdropWhile_append_of_all isSpace _ b hb

theorem trim_dropWhile (s : Str) : trim (s.dropWhile isSpace) = trim s := by
  unfold trim
  rw [List.dropWhile_idempotent]

theorem dropWhile_eq_trim_append (s : Str) :
    ∃ tr, s.dropWhile isSpace = trim s ++ tr ∧ ∀ x ∈ tr, isSpace x = true := by
  refine ⟨((s.dropWhile isSpace).reverse.takeWhile isSpace).reverse, ?_, ?_⟩
  · unfold trim
    rw [← List.reverse_append, List.takeWhile_append_dropWhile, List.reverse_reverse]
  · intro x hx
    exact List.mem_takeWhile_imp (List.mem_reverse.mp hx)

theorem trim_trim (s : Str) : trim (trim s) = trim s := by
  obtain ⟨tr, h, htr⟩ := dropWhile_eq_trim_append s
  rw [← trim_append_space (trim s) tr htr, ← h, trim_dropWhile]

theorem trim_dot_run (s : Str) (h : ∀ x ∈ trim s, isLineTerminator x = false) :
    trim ((s.dropWhile isSpace).takeWhile Cls.dot.test) = trim s := by
  obtain ⟨tr, hd, htr⟩ := dropWhile_eq_trim_append s
  have hdot : ∀ x ∈ trim s, Cls.dot.test x = true := by
    intro x hx
    simp [Cls.test, h x hx]
  rw [hd, List.takeWhile_append_of_pos hdot,
    trim_append_space _ _ (fun x hx => htr x (List.takeWhile_subset _ hx)), trim_trim]

theorem dot_run_ne_nil (s : Str) (hne : trim s ≠ [])
    (h : ∀ x ∈ trim s, isLineTerminator x = false) :
    (s.dropWhile isSpace).takeWhile Cls.dot.test ≠ [] := by
  obtain ⟨tr, hd, htr⟩ := dropWhile_eq_trim_append s
  have hdot : ∀ x ∈ trim s, Cls.dot.test x = true := by
    intro x hx
    simp [Cls.test, h x hx]
  rw [hd, List.takeWhile_append_of_pos hdot]
  intro hnil
  exact hne (List.append_eq_nil.mp hnil).1

theorem stops_dropWhile (p : Char → Bool) (s : Str) : Stops p (s.dropWhile p) := by
  induction s with
  | nil => intro y hy; simp at hy
  | cons x t ih =>
    by_cases hx : p x = true
    · rw [List.dropWhile_cons_of_pos hx]; exact ih
    · rw [List.dropWhile_cons_of_neg hx]
      intro y hy
      simp only [List.head?_cons, Option.mem_def, Option.some.injEq] at hy
      subst hy
      simpa using hx

theorem stops_cons (p : Char → Bool) (y : Char) (t : Str) (h : p y = false) :
    Stops p (y :: t) := by
  intro z hz
  simp only [List.head?_cons, Option.mem_def, Option.some.injEq] at hz
  subst hz
  exact h

theorem stops_append (p : Char → Bool) (a b : Str) (ha : a ≠ []) (h : Stops p a) :
    Stops p (a ++ b) := by
  cases a with
  | nil => exact absurd rfl ha
  | cons y t => exact stops_cons p y (t ++ b) (h y (by simp))

theorem trimOf_email (e : Str) (h : GoodEmail e) : trimOf (some e) = .ok e := by
  simp only [trimOf, h.trim_email]

theorem run_seq (a b : Re) (s : Str) (c : Caps) (k : Str → Caps → Option Caps) :
    (Re.seq a b).run s c k = a.run s c (fun s' c' => b.run s' c' k) := rfl

theorem run_star_stops (cls : Cls) (s : Str) (c : Caps) (k : Str → Caps → Option Caps)
    (hs : Stops cls.test s) : (Re.star cls).run s c k = k s c := by
  simp only [Re.run]
  exact starGreedy_of_stops cls.test s _ hs

theorem run_opt_skip (r : Re) (s : Str) (c : Caps) (k : Str → Caps → Option Caps)
    (h : r.run s c k = none) : (Re.opt r).run s c k = k s c := by
  simp only [Re.run, h, Option.none_or]

theorem run_lazyStar_skip (cls : Cls) (x : Char) (s : Str) (c : Caps)
    (k : Str → Caps → Option Caps) (v : Caps) (hx : cls.test x = true)
    (h0 : k (x :: s) c = none) (hk : k s c = some v) :
    (Re.lazyStar cls).run (x :: s) c k = some v := by
  simp only [Re.run, starLazy, h0, Option.none_or, hx, if_true]
  exact starLazy_head cls.test s _ v hk


theorem run_lit_head (w s : Str) (c : Caps) (k : Str → Caps → Option Caps) (v : Caps)
    (hk : k s c = some v) : (Re.lit w).run (w ++ s) c k = some v := by
  rw [run_lit_append, hk]

theorem run_star_stops_head (cls : Cls) (s : Str) (c : Caps) (k : Str → Caps → Option Caps)
    (v : Caps) (hs : Stops cls.test s) (hk : k s c = some v) :
    (Re.star cls).run s c k = some v := by
  rw [run_star_stops cls s c k hs, hk]

theorem run_opt_skip_head (r : Re) (s : Str) (c : Caps) (k : Str → Caps → Option Caps)
    (v : Caps) (h : r.run s c k = none) (hk : k s c = some v) :
    (Re.opt r).run s c k = some v := by
  rw [run_opt_skip r s c k h, hk]

theorem run_group_salutation_head (a rest : Str) (c : Caps) (k : Str → Caps → Option Caps)
    (v : Caps) (ha : GoodAnrede a) (hk : k rest (c.set .anrede a) = some v) :
    (Re.group .anrede salutation).run (a ++ rest) c k = some v := by
  rw [run_group_salutation a rest c k ha, hk]

theorem cat_cons (r r2 : Re) (rs : List Re) :
    Re.cat (r :: r2 :: rs) = .seq r (Re.cat (r2 :: rs)) := rfl

/-! ## An ignored-user line with an empty last-change date -/

theorem ignored_tail_run (T : Str) (c : Caps) :
    (Re.cat [.lazyStar .dot, .lit "LETZTES_AENDERUNGSDATUM:".toList, .star .space,
      .opt (.group .lad (.plus (.notChar ','))), .lit ",".toList, .star .space,
      .lit "ERFASSUNGSZEITPUNKT:".toList, .star .space, .group .ez (.star .dot)]).run
      (' ' :: ("LETZTES_AENDERUNGSDATUM:".toList ++ (",".toList ++
        ("ERFASSUNGSZEITPUNKT:".toList ++ (' ' :: T))))) c (fun _ c' => some c') =
    some (c.set .ez ((T.dropWhile isSpace).takeWhile Cls.dot.test)) := by
  simp only [Re.cat]
  rw [run_seq]
  apply run_lazyStar_skip
  · decide
  · rw [run_seq]
    exact run_lit_mismatch 'L' ' ' _ _ _ _ (by decide)
  rw [run_seq]
  apply run_lit_head
  rw [run_seq]
  apply run_star_stops_head
  · exact stops_cons _ ',' _ (by decide)
  rw [run_seq]
  apply run_opt_skip_head
  · exact run_group_plus_fail _ _ _ _ _ (stops_cons _ ',' _ (by decide))
  rw [run_seq]
  apply run_lit_head
  rw [run_seq]
  apply run_star_stops_head
  · exact stops_cons _ 'E' _ (by decide)
  rw [run_seq]
  apply run_lit_head
  rw [run_seq]
  have hsplit : (' ' :: T) = (' ' :: T.takeWhile isSpace) ++ T.dropWhile isSpace := by
    rw [List.cons_append, List.takeWhile_append_dropWhile]
  rw [hsplit]
  apply run_star_head
  · intro x hx
    rcases List.mem_cons.mp hx with rfl | hx
    · decide
    · exact List.mem_takeWhile_imp hx
  · exact stops_dropWhile _ _
  · exact run_group_star_dot_last _ _ _


theorem trim_of_all_space (s : Str) (h : ∀ x ∈ s, isSpace x = true) : trim s = [] := by
  unfold trim
  rw [List.dropWhile_eq_nil_iff.mpr h]
  rfl

theorem stops_of_head_mem (p : Char → Bool) (s : Str) (h : ∀ x ∈ s, p x = false) :
    Stops p s := fun y hy => h y (List.mem_of_mem_head? hy)

theorem ignored_name_run (N R : Str) (c : Caps) (rest : Re) (k : Str → Caps → Option Caps)
    (hN : ∀ x ∈ N, x ≠ '|') :
    ∃ nm, trim nm = trim N ∧ ∀ v, rest.run R (c.set .name nm) k = some v →
      (Re.seq (.plus .space) (Re.seq (.group .name (.plus (.notChar '|')))
        (Re.seq (.lit "|".toList) rest))).run (' ' :: (N ++ (' ' :: ('|' :: R)))) c k
        = some v := by
  have hpipe : ∀ t : Str, Stops (Cls.notChar '|').test ('|' :: t) :=
    fun t => stops_cons _ '|' t (by decide)
  by_cases hall : ∀ x ∈ N, isSpace x = true
  · refine ⟨[' '], ?_, ?_⟩
    · rw [trim_of_all_space N hall]; decide
    · intro v hv
      rw [run_seq]
      show starGreedy isSpace (N ++ ' ' :: ('|' :: R)) _ = some v
      apply starGreedy_backoff isSpace N ' ' ('|' :: R) _ v hall (by decide)
        (stops_cons _ '|' _ (by decide))
      · beta_reduce
        rw [run_seq]
        exact run_group_plus_fail _ _ _ _ _ (hpipe R)
      · beta_reduce
        rw [run_seq]
        refine run_group_plus_head _ _ [' '] ('|' :: R) _ _ v (by simp) ?_ (hpipe R) ?_
        · intro x hx
          rw [List.mem_singleton.mp hx]; decide
        · rw [run_seq]
          refine run_lit_head "|".toList R _ _ v ?_
          exact hv
  · have hX : (' ' :: (N ++ [' '])) = (' ' :: (N ++ [' '])).takeWhile isSpace ++
        (' ' :: (N ++ [' '])).dropWhile isSpace := (List.takeWhile_append_dropWhile _ _).symm
    have hYne : (' ' :: (N ++ [' '])).dropWhile isSpace ≠ [] := by
      intro h
      apply hall
      intro x hx
      exact List.dropWhile_eq_nil_iff.mp h x (by simp [hx])
    have hWne : (' ' :: (N ++ [' '])).takeWhile isSpace ≠ [] := by
      rw [List.takeWhile_cons_of_pos (by decide)]
      simp
    refine ⟨(' ' :: (N ++ [' '])).dropWhile isSpace, ?_, ?_⟩
    · rw [trim_dropWhile]
      have h1 : (' ' :: (N ++ [' '])) = [' '] ++ (N ++ [' ']) := rfl
      rw [h1, trim_space_append _ _ (by simp; decide), trim_append_space _ _ (by simp; decide)]
    · intro v hv
      have hin : (' ' :: (N ++ (' ' :: ('|' :: R)))) =
          (' ' :: (N ++ [' '])).takeWhile isSpace ++
            ((' ' :: (N ++ [' '])).dropWhile isSpace ++ ('|' :: R)) := by
        rw [← List.append_assoc, ← hX]
        simp
      rw [hin, run_seq]
      refine run_plus_head _ _ _ _ _ v hWne (fun x hx => List.mem_takeWhile_imp hx)
        (stops_append _ _ _ hYne (stops_dropWhile _ _)) ?_
      rw [run_seq]
      refine run_group_plus_head _ _ _ _ _ _ v hYne ?_ (hpipe R) ?_
      · intro x hx
        have hx2 : x ∈ (' ' :: (N ++ [' '])) := (List.dropWhile_subset _) hx
        have : x ≠ '|' := by
          simp only [List.mem_cons, List.mem_append, List.mem_singleton, List.not_mem_nil,
            or_false] at hx2
          rcases hx2 with rfl | hx2 | rfl
          · decide
          · exact hN x hx2
          · decide
        simpa [Cls.test] using this
      · rw [run_seq]
        refine run_lit_head "|".toList R _ _ v ?_
        exact hv

theorem ignored_run (E S N T : Str) (hE : GoodEmail E) (hS : GoodAnrede S)
    (hN : ∀ x ∈ N, x ≠ '|') :
    ∃ nm, trim nm = trim N ∧
      ignoredPattern.run
        ("Ignorierter Nutzer:".toList ++ (' ' :: (E ++ (' ' :: ('|' :: (' ' :: (S ++ (' ' :: (N ++ (' ' :: ('|' :: (' ' :: ("LETZTES_AENDERUNGSDATUM:".toList ++ (",".toList ++ ("ERFASSUNGSZEITPUNKT:".toList ++ (' ' :: T))))))))))))))))
        Caps.empty (fun _ c => some c) =
      some ((((Caps.empty.set .email E).set .anrede S).set .name nm).set .ez
        ((T.dropWhile isSpace).takeWhile Cls.dot.test)) := by
  obtain ⟨nm, hnm, hrun⟩ := ignored_name_run N
    (' ' :: ("LETZTES_AENDERUNGSDATUM:".toList ++
      (",".toList ++ ("ERFASSUNGSZEITPUNKT:".toList ++ (' ' :: T)))))
    ((Caps.empty.set .email E).set .anrede S)
    (Re.cat [.lazyStar .dot, .lit "LETZTES_AENDERUNGSDATUM:".toList, .star .space,
      .opt (.group .lad (.plus (.notChar ','))), .lit ",".toList, .star .space,
      .lit "ERFASSUNGSZEITPUNKT:".toList, .star .space, .group .ez (.star .dot)])
    (fun _ c => some c) hN
  refine ⟨nm, hnm, ?_⟩
  have hSstop : Stops Cls.space.test S := by
    rcases hS with rfl | rfl
    · exact stops_cons _ 'F' _ (by decide)
    · exact stops_cons _ 'H' _ (by decide)
  have hSne : S ≠ [] := by
    rcases hS with rfl | rfl <;> decide
  simp only [ignoredPattern]
  rw [cat_cons, run_seq]
  apply run_lit_head
  rw [cat_cons, run_seq]
  refine run_plus_head _ [' '] _ _ _ _ (by simp) (by simp; decide)
    (stops_append _ _ _ hE.1 (stops_of_head_mem _ _ hE.2)) ?_
  rw [cat_cons, run_seq]
  refine run_group_plus_head _ _ E _ _ _ _ hE.1 (fun x hx => by simp [Cls.test, hE.2 x hx])
    (stops_cons _ ' ' _ (by decide)) ?_
  rw [cat_cons, run_seq]
  refine run_star_head _ [' '] _ _ _ _ (by simp; decide) (stops_cons _ '|' _ (by decide)) ?_
  rw [cat_cons, run_seq]
  refine run_lit_head "|".toList _ _ _ _ ?_
  rw [cat_cons, run_seq]
  refine run_star_head _ [' '] _ _ _ _ (by simp; decide) (stops_append _ _ _ hSne hSstop) ?_
  rw [cat_cons, run_seq]
  refine run_group_salutation_head S _ _ _ _ hS ?_
  rw [cat_cons, cat_cons, cat_cons]
  exact hrun _ (ignored_tail_run T _)


/-- C5, refuted at a concrete input: with a lone carriage return inside `T`
the capture `.*` ends at it, so `erfassungszeitpunkt` is the text before the
carriage return, not `T` trimmed. -/
theorem ignored_ez_cut_at_line_terminator :
    parseIgnoredUser ("Ignorierter Nutzer: a@x.com | Frau Muster, Anna | " ++
      "LETZTES_AENDERUNGSDATUM:,ERFASSUNGSZEITPUNKT: 2024-01-01\r10:00").toList =
      .ok (some { email := "a@x.com".toList, anrede := "Frau".toList,
                  name := "Muster, Anna".toList, letztes_aenderungsdatum := none,
                  erfassungszeitpunkt := some "2024-01-01".toList }) ∧
    trim "2024-01-01\r10:00".toList = "2024-01-01\r10:00".toList := by
  constructor <;> decide

/-- C5, amended: for every line
`Ignorierter Nutzer: E | S N | LETZTES_AENDERUNGSDATUM:,ERFASSUNGSZEITPUNKT: T`
with `E` a non-empty run of non-whitespace characters, `S` one of `Frau` and
`Herrn`, `N` free of `|`, and `T` non-blank and, once trimmed, free of line
terminators, `parseIgnoredUser` returns the record with email `E`, salutation
`S`, name `N` trimmed, `letztes_aenderungsdatum` null and
`erfassungszeitpunkt` equal to `T` trimmed. -/
theorem ignored_empty_lad (E S N T : Str) (hE : GoodEmail E) (hS : GoodAnrede S)
    (hN : ∀ x ∈ N, x ≠ '|') (hT : trim T ≠ [])
    (hLT : ∀ x ∈ trim T, isLineTerminator x = false) :
    parseIgnoredUser ("Ignorierter Nutzer: ".toList ++ E ++ " | ".toList ++ S ++ " ".toList ++ N ++
      " | LETZTES_AENDERUNGSDATUM:,ERFASSUNGSZEITPUNKT: ".toList ++ T) =
    .ok (some { email := E, anrede := S, name := trim N, letztes_aenderungsdatum := none,
                erfassungszeitpunkt := some (trim T) }) := by
  obtain ⟨nm, hnm, hrun⟩ := ignored_run E S N T hE hS hN
  have hline : "Ignorierter Nutzer: ".toList ++ E ++ " | ".toList ++ S ++ " ".toList ++ N ++
      " | LETZTES_AENDERUNGSDATUM:,ERFASSUNGSZEITPUNKT: ".toList ++ T =
      "Ignorierter Nutzer:".toList ++ (' ' :: (E ++ (' ' :: ('|' :: (' ' :: (S ++ (' ' :: (N ++ (' ' :: ('|' :: (' ' :: ("LETZTES_AENDERUNGSDATUM:".toList ++ (",".toList ++ ("ERFASSUNGSZEITPUNKT:".toList ++ (' ' :: T))))))))))))))) := by
    simp
  rw [hline]
  unfold parseIgnoredUser
  rw [search_of_run _ _ _ hrun]
  have hne := dot_run_ne_nil T hT hLT
  simp [Caps.set, Caps.empty, trimOf, trimOrNull, hE.trim_email, hS.trim_anrede, hnm,
    trim_dot_run T hLT, hne]
  rfl


/-- C5 amended, at the input of the specification's example: `T = 2024-01-01`. -/
theorem ignored_empty_lad_witness :
    GoodEmail "b@x.com".toList ∧ GoodAnrede "Herrn".toList ∧
    (∀ x ∈ "Beispiel, Bernd".toList, x ≠ '|') ∧ trim "2024-01-01".toList ≠ [] ∧
    (∀ x ∈ trim "2024-01-01".toList, isLineTerminator x = false) ∧
    parseIgnoredUser ("Ignorierter Nutzer: ".toList ++ "b@x.com".toList ++ " | ".toList ++
      "Herrn".toList ++ " ".toList ++ "Beispiel, Bernd".toList ++
      " | LETZTES_AENDERUNGSDATUM:,ERFASSUNGSZEITPUNKT: ".toList ++ "2024-01-01".toList) =
    .ok (some { email := "b@x.com".toList, anrede := "Herrn".toList,
                name := trim "Beispiel, Bernd".toList, letztes_aenderungsdatum := none,
                erfassungszeitpunkt := some (trim "2024-01-01".toList) }) :=
  ⟨⟨by decide, by decide⟩, Or.inr rfl, by decide, by decide, by decide,
    ignored_empty_lad _ _ _ _ ⟨by decide, by decide⟩ (Or.inr rfl) (by decide) (by decide)
      (by decide)⟩


/-! ## A group line with no section active -/

theorem group_run (E Z : Str) (hE : GoodEmail E) :
    groupPattern.run ("Benutzer:".toList ++ (' ' :: (E ++ (' ' :: ('|' :: (' ' ::
      ("DN:".toList ++ (' ' :: Z)))))))) Caps.empty (fun _ c => some c) =
    some ((Caps.empty.set .email E).set .dn ((Z.dropWhile isSpace).takeWhile Cls.dot.test)) := by
  simp only [groupPattern]
  rw [cat_cons, run_seq]
  apply run_lit_head
  rw [cat_cons, run_seq]
  refine run_plus_head _ [' '] _ _ _ _ (by simp) (by simp; decide)
    (stops_append _ _ _ hE.1 (stops_of_head_mem _ _ hE.2)) ?_
  rw [cat_cons, run_seq]
  refine run_group_plus_head _ _ E _ _ _ _ hE.1 (fun x hx => by simp [Cls.test, hE.2 x hx])
    (stops_cons _ ' ' _ (by decide)) ?_
  rw [cat_cons, run_seq]
  refine run_star_head _ [' '] _ _ _ _ (by simp; decide) (stops_cons _ '|' _ (by decide)) ?_
  rw [cat_cons, run_seq]
  refine run_lit_head "|".toList _ _ _ _ ?_
  rw [cat_cons, run_seq]
  refine run_plus_head _ [' '] _ _ _ _ (by simp) (by simp; decide)
    (stops_cons _ 'D' _ (by decide)) ?_
  rw [cat_cons, run_seq]
  apply run_lit_head
  rw [cat_cons, run_seq]
  have hsplit : (' ' :: Z) = (' ' :: Z.takeWhile isSpace) ++ Z.dropWhile isSpace := by
    rw [List.cons_append, List.takeWhile_append_dropWhile]
  rw [hsplit]
  refine run_plus_head _ _ _ _ _ _ (by simp) ?_ (stops_dropWhile _ _) ?_
  · intro x hx
    rcases List.mem_cons.mp hx with rfl | hx
    · decide
    · exact List.mem_takeWhile_imp hx
  · exact run_group_star_dot_last _ _ _

theorem rdropWhile_append_rest (p : Char → Bool) (l : Str) :
    ∃ tr, l = l.rdropWhile p ++ tr ∧ ∀ x ∈ tr, p x = true := by
  refine ⟨(l.reverse.takeWhile p).reverse, ?_, ?_⟩
  · unfold List.rdropWhile
    rw [← List.reverse_append, List.takeWhile_append_dropWhile, List.reverse_reverse]
  · intro x hx
    exact List.mem_takeWhile_imp (List.mem_reverse.mp hx)

theorem trim_rdropWhile (s : Str) : trim (s.rdropWhile isSpace) = trim s := by
  obtain ⟨tr, h, htr⟩ := rdropWhile_append_rest isSpace s
  conv_rhs => rw [h]
  rw [trim_append_space _ _ htr]

theorem rdropWhile_ne_nil_of_trim (s : Str) (h : trim s ≠ []) : s.rdropWhile isSpace ≠ [] := by
  intro hnil
  apply h
  rw [← trim_rdropWhile, hnil]
  rfl

theorem trim_label_append (P D : Str) (c : Char) (P' : Str) (hP : P = c :: P')
    (hc : isSpace c = false) (hD : trim D ≠ []) :
    trim (P ++ D) = P ++ D.rdropWhile isSpace := by
  obtain ⟨tr, h, htr⟩ := rdropWhile_append_rest isSpace D
  have hZ := rdropWhile_ne_nil_of_trim D hD
  conv_lhs => rw [h, ← List.append_assoc, trim_append_space _ _ htr]
  rw [trim_eq_rdropWhile]
  have h1 : (P ++ D.rdropWhile isSpace).dropWhile isSpace = P ++ D.rdropWhile isSpace := by
    rw [hP, List.cons_append, List.dropWhile_cons_of_neg (by simp [hc])]
  rw [h1, List.rdropWhile_eq_self_iff]
  intro hl
  rw [List.getLast_append_of_ne_nil hZ]
  have := List.rdropWhile_last_not isSpace D hZ
  exact this


theorem parseUsersAddedToGroup_line (E Z : Str) (hE : GoodEmail E)
    (hLT : ∀ x ∈ trim Z, isLineTerminator x = false) :
    parseUsersAddedToGroup ("Benutzer: ".toList ++ E ++ " | DN: ".toList ++ Z) =
      .ok (some { email := E, dn := trim Z }) := by
  have hline : "Benutzer: ".toList ++ E ++ " | DN: ".toList ++ Z =
      "Benutzer:".toList ++ (' ' :: (E ++ (' ' :: ('|' :: (' ' ::
        ("DN:".toList ++ (' ' :: Z))))))) := by
    simp
  rw [hline]
  unfold parseUsersAddedToGroup
  rw [search_of_run _ _ _ (group_run E Z hE)]
  simp [Caps.set, Caps.empty, trimOf, hE.trim_email, trim_dot_run Z hLT]
  rfl

theorem step_group_line (st : Scan) (E D : Str) (hE : GoodEmail E) (hD : trim D ≠ [])
    (hLT : ∀ x ∈ trim D, isLineTerminator x = false)
    (hs1 : st.inIgnoredSection = false) (hs2 : st.inSingleSection = false)
    (hs3 : st.inMultiSection = false)
    (hm : isMarker ("Benutzer: ".toList ++ E ++ " | DN: ".toList ++ D) = false)
    (hi : isIncludedLine ("Benutzer: ".toList ++ E ++ " | DN: ".toList ++ D) = false) :
    step st ("Benutzer: ".toList ++ E ++ " | DN: ".toList ++ D) =
      .ok { st with data := { st.data with
        benutzer_hinzugefuegt_hv := st.data.benutzer_hinzugefuegt_hv ++
          [{ email := E, dn := trim D }] } } := by
  obtain ⟨m1, m2, m3, m4, m5, m6⟩ := isMarker_false_iff _ hm
  obtain ⟨i1, i2⟩ := isIncludedLine_false_iff _ hi
  have htrim : trim ("Benutzer: ".toList ++ E ++ " | DN: ".toList ++ D) =
      "Benutzer: ".toList ++ E ++ " | DN: ".toList ++ D.rdropWhile isSpace :=
    trim_label_append ("Benutzer: ".toList ++ E ++ " | DN: ".toList) D 'B'
      ("enutzer: ".toList ++ E ++ " | DN: ".toList) (by simp) (by decide) hD
  have hstart : startsWith ("Benutzer: ".toList ++ E ++ " | DN: ".toList ++
      D.rdropWhile isSpace) "Benutzer:".toList = true := by
    unfold startsWith
    rw [List.isPrefixOf_iff_prefix]
    exact ⟨' ' :: (E ++ " | DN: ".toList ++ D.rdropWhile isSpace), by simp⟩
  have hincl : includes ("Benutzer: ".toList ++ E ++ " | DN: ".toList ++
      D.rdropWhile isSpace) " DN: ".toList = true := by
    rw [includes_eq_true_iff]
    exact ⟨"Benutzer: ".toList ++ E ++ " |".toList, D.rdropWhile isSpace, by simp⟩
  have hparse := parseUsersAddedToGroup_line E (D.rdropWhile isSpace) hE
    (by rw [trim_rdropWhile]; exact hLT)
  rw [trim_rdropWhile] at hparse
  unfold step
  simp only []
  rw [if_neg (by rw [m1]; simp), if_neg (by rw [m2]; simp), if_neg (by rw [m3]; simp),
    if_neg (by rw [m4]; simp), if_neg (by rw [m5]; simp), if_neg (by rw [m6]; simp),
    if_neg (by rw [i1]; simp), if_neg (by rw [i2]; simp), if_neg (by rw [hs1]; simp),
    if_neg (by rw [hs2]; simp), if_neg (by rw [hs3]; simp), htrim,
    if_pos (by rw [hstart, hincl]; rfl), hparse]
  rfl


/-- C6, refuted at three concrete inputs, each processed with no section
active: a group line whose `dn` is blank adds no record (the trimmed line no
longer contains ` DN: `); a group line whose `dn` contains a section banner is
consumed as that banner; and a `dn` with a lone carriage return inside is cut
at it, so the stored `dn` is not `dn` trimmed. -/
theorem group_line_precedence_fails :
    step Scan.init "Benutzer: bob@x.com | DN: ".toList = .ok Scan.init ∧
    step Scan.init
      "Benutzer: bob@x.com | DN: uid=bob ========= Mandanten mit einem Benutzer =========".toList
      = .ok (Scan.init.setFlags false true false) ∧
    step Scan.init "Benutzer: bob@x.com | DN: uid=bob\rou=Benutzer".toList =
      .ok { Scan.init with data := { Data.empty with benutzer_hinzugefuegt_hv := [
        { email := "bob@x.com".toList, dn := "uid=bob".toList }] } } ∧
    trim "uid=bob\rou=Benutzer".toList = "uid=bob\rou=Benutzer".toList := by
  refine ⟨by decide, by decide, by decide, by decide⟩

/-- C6, amended: for every line `Benutzer: E | DN: D` with `E` a non-empty run
of non-whitespace characters and `D` non-blank and, once trimmed, free of line
terminators, that contains no section banner and neither of the two
` included based on ...:` phrases, processing it while no section is active
succeeds, appends exactly the record with email `E` and dn `D` trimmed to
`benutzer_hinzugefuegt_hv`, and leaves the other five collections (so both
tenant collections) as they were. -/
theorem group_line_adds_group_record (st : Scan) (E D : Str) (hE : GoodEmail E)
    (hD : trim D ≠ []) (hLT : ∀ x ∈ trim D, isLineTerminator x = false)
    (hs1 : st.inIgnoredSection = false) (hs2 : st.inSingleSection = false)
    (hs3 : st.inMultiSection = false)
    (hm : isMarker ("Benutzer: ".toList ++ E ++ " | DN: ".toList ++ D) = false)
    (hi : isIncludedLine ("Benutzer: ".toList ++ E ++ " | DN: ".toList ++ D) = false) :
    ∃ st', step st ("Benutzer: ".toList ++ E ++ " | DN: ".toList ++ D) = .ok st' ∧
      st'.data.benutzer_hinzugefuegt_hv =
        st.data.benutzer_hinzugefuegt_hv ++ [{ email := E, dn := trim D }] ∧
      st'.data.mandanten_ein_nutzer = st.data.mandanten_ein_nutzer ∧
      st'.data.mandanten_mehrere_nutzer = st.data.mandanten_mehrere_nutzer ∧
      st'.data.eingeschlossen_lad = st.data.eingeschlossen_lad ∧
      st'.data.eingeschlossen_ez = st.data.eingeschlossen_ez ∧
      st'.data.ignorierte_nutzer = st.data.ignorierte_nutzer :=
  ⟨_, step_group_line st E D hE hD hLT hs1 hs2 hs3 hm hi, rfl, rfl, rfl, rfl, rfl, rfl⟩

/-- C6 amended, at the input of the specification's example:
`Benutzer: bob@x.com | DN: uid=bob,ou=Benutzer` in the initial state. -/
theorem group_line_adds_group_record_witness :
    GoodEmail "bob@x.com".toList ∧ trim "uid=bob,ou=Benutzer".toList ≠ [] ∧
    (∀ x ∈ trim "uid=bob,ou=Benutzer".toList, isLineTerminator x = false) ∧
    Scan.init.inIgnoredSection = false ∧ Scan.init.inSingleSection = false ∧
    Scan.init.inMultiSection = false ∧
    isMarker ("Benutzer: ".toList ++ "bob@x.com".toList ++ " | DN: ".toList ++
      "uid=bob,ou=Benutzer".toList) = false ∧
    isIncludedLine ("Benutzer: ".toList ++ "bob@x.com".toList ++ " | DN: ".toList ++
      "uid=bob,ou=Benutzer".toList) = false ∧
    ∃ st', step Scan.init ("Benutzer: ".toList ++ "bob@x.com".toList ++ " | DN: ".toList ++
        "uid=bob,ou=Benutzer".toList) = .ok st' ∧
      st'.data.benutzer_hinzugefuegt_hv = Scan.init.data.benutzer_hinzugefuegt_hv ++
        [{ email := "bob@x.com".toList, dn := trim "uid=bob,ou=Benutzer".toList }] ∧
      st'.data.mandanten_ein_nutzer = Scan.init.data.mandanten_ein_nutzer ∧
      st'.data.mandanten_mehrere_nutzer = Scan.init.data.mandanten_mehrere_nutzer ∧
      st'.data.eingeschlossen_lad = Scan.init.data.eingeschlossen_lad ∧
      st'.data.eingeschlossen_ez = Scan.init.data.eingeschlossen_ez ∧
      st'.data.ignorierte_nutzer = Scan.init.data.ignorierte_nutzer :=
  ⟨⟨by decide, by decide⟩, by decide, by decide, rfl, rfl, rfl, by decide, by decide,
    group_line_adds_group_record Scan.init _ _ ⟨by decide, by decide⟩ (by decide) (by decide)
      rfl rfl rfl (by decide) (by decide)⟩


/-! ## Sections and included-user lines -/

theorem StepShape.flags_of_not_marker {st : Scan} {line : Str} {st' : Scan}
    (h : StepShape st line st') (hm : isMarker line = false) :
    st'.inIgnoredSection = st.inIgnoredSection ∧ st'.inSingleSection = st.inSingleSection ∧
    st'.inMultiSection = st.inMultiSection := by
  cases h with
  | marker _ _ _ hm2 => rw [hm] at hm2; cases hm2
  | skip => exact ⟨rfl, rfl, rfl⟩
  | lad => exact ⟨rfl, rfl, rfl⟩
  | ez => exact ⟨rfl, rfl, rfl⟩
  | org => exact ⟨rfl, rfl, rfl⟩
  | ignored => exact ⟨rfl, rfl, rfl⟩
  | gp => exact ⟨rfl, rfl, rfl⟩
  | single => exact ⟨rfl, rfl, rfl⟩
  | multi => exact ⟨rfl, rfl, rfl⟩
  | group => exact ⟨rfl, rfl, rfl⟩

theorem StepShape.exclusive {st : Scan} {line : Str} {st' : Scan}
    (h : StepShape st line st')
    (hx : (st.inIgnoredSection && st.inSingleSection) = false ∧
      (st.inIgnoredSection && st.inMultiSection) = false ∧
      (st.inSingleSection && st.inMultiSection) = false) :
    (st'.inIgnoredSection && st'.inSingleSection) = false ∧
    (st'.inIgnoredSection && st'.inMultiSection) = false ∧
    (st'.inSingleSection && st'.inMultiSection) = false := by
  cases h with
  | marker _ _ _ _ hx2 => exact hx2
  | skip => exact hx
  | lad => exact hx
  | ez => exact hx
  | org => exact hx
  | ignored => exact hx
  | gp => exact hx
  | single => exact hx
  | multi => exact hx
  | group => exact hx

theorem StepShape.group_only_without_section {st : Scan} {line : Str} {st' : Scan}
    (h : StepShape st line st')
    (hs : st.inIgnoredSection = true ∨ st.inSingleSection = true ∨ st.inMultiSection = true) :
    st'.data.benutzer_hinzugefuegt_hv = st.data.benutzer_hinzugefuegt_hv := by
  cases h with
  | marker => rfl
  | skip => rfl
  | lad => rfl
  | ez => rfl
  | org => rfl
  | ignored => rfl
  | gp => rfl
  | single => rfl
  | multi => rfl
  | group r hm hi h1 h2 h3 hp =>
    rcases hs with hs | hs | hs
    · rw [h1] at hs; cases hs
    · rw [h2] at hs; cases hs
    · rw [h3] at hs; cases hs

theorem scanLines_flags_frame : ∀ (lines : List Str) (st : Scan),
    (∀ l ∈ lines, isMarker l = false) →
    ∃ st', scanLines st lines = .ok st' ∧ st'.inIgnoredSection = st.inIgnoredSection ∧
      st'.inSingleSection = st.inSingleSection ∧ st'.inMultiSection = st.inMultiSection := by
  intro lines
  induction lines with
  | nil => exact fun st _ => ⟨st, rfl, rfl, rfl, rfl⟩
  | cons line rest ih =>
    intro st h
    obtain ⟨st1, h1, hs⟩ := step_shape st line
    obtain ⟨f1, f2, f3⟩ := hs.flags_of_not_marker (h line (List.mem_cons_self _ _))
    obtain ⟨st2, h2, g1, g2, g3⟩ := ih st1 (fun l hl => h l (List.mem_cons_of_mem _ hl))
    exact ⟨st2, by simp only [scanLines, h1, h2], g1.trans f1, g2.trans f2, g3.trans f3⟩

theorem step_marker_flags (st : Scan) (line : Str) :
    ((includes line markerIncludedLad = true ∨ includes line markerIncludedEz = true) →
      step st line = .ok (st.setFlags false false false)) ∧
    (includes line markerIncludedLad = false → includes line markerIncludedEz = false →
      includes line markerIgnored = true → step st line = .ok (st.setFlags true false false)) ∧
    (includes line markerIncludedLad = false → includes line markerIncludedEz = false →
      includes line markerIgnored = false → includes line markerSingle = true →
      step st line = .ok (st.setFlags false true false)) ∧
    (includes line markerIncludedLad = false → includes line markerIncludedEz = false →
      includes line markerIgnored = false → includes line markerSingle = false →
      includes line markerMulti = true → step st line = .ok (st.setFlags false false true)) ∧
    (includes line markerIncludedLad = false → includes line markerIncludedEz = false →
      includes line markerIgnored = false → includes line markerSingle = false →
      includes line markerMulti = false → includes line markerGroup = true →
      step st line = .ok (st.setFlags false false false)) := by
  refine ⟨?_, ?_, ?_, ?_, ?_⟩
  · intro h
    unfold step
    simp only []
    by_cases m1 : includes line markerIncludedLad = true
    · rw [if_pos m1]
    · rw [if_neg m1]
      rcases h with h | h
      · exact absurd h m1
      · rw [if_pos h]
  · intro m1 m2 m3
    unfold step
    simp only []
    rw [if_neg (by rw [m1]; simp), if_neg (by rw [m2]; simp), if_pos m3]
  · intro m1 m2 m3 m4
    unfold step
    simp only []
    rw [if_neg (by rw [m1]; simp), if_neg (by rw [m2]; simp), if_neg (by rw [m3]; simp),
      if_pos m4]
  · intro m1 m2 m3 m4 m5
    unfold step
    simp only []
    rw [if_neg (by rw [m1]; simp), if_neg (by rw [m2]; simp), if_neg (by rw [m3]; simp),
      if_neg (by rw [m4]; simp), if_pos m5]
  · intro m1 m2 m3 m4 m5 m6
    unfold step
    simp only []
    rw [if_neg (by rw [m1]; simp), if_neg (by rw [m2]; simp), if_neg (by rw [m3]; simp),
      if_neg (by rw [m4]; simp), if_neg (by rw [m5]; simp), if_pos m6]

theorem scan_append_nil (st : Scan) :
    ({ st with data := { st.data with
        eingeschlossen_lad := st.data.eingeschlossen_lad ++ [] } } : Scan) = st ∧
    ({ st with data := { st.data with
        eingeschlossen_ez := st.data.eingeschlossen_ez ++ [] } } : Scan) = st := by
  cases st with
  | mk data o g a b c =>
    cases data
    simp

theorem step_included_lad (st : Scan) (line : Str) (hm : isMarker line = false)
    (hi : includes line " included based on LETZTES_AENDERUNGSDATUM:".toList = true) :
    ∃ p, parseIncludedUser line .LETZTES_AENDERUNGSDATUM = .ok p ∧
      (∀ r ∈ p, r.kind = .LETZTES_AENDERUNGSDATUM) ∧
      step st line = .ok { st with data := { st.data with
        eingeschlossen_lad := st.data.eingeschlossen_lad ++ p.toList } } := by
  obtain ⟨m1, m2, m3, m4, m5, m6⟩ := isMarker_false_iff line hm
  rcases parseIncludedUser_spec line .LETZTES_AENDERUNGSDATUM with h | ⟨u, h, _, _, hk, _⟩
  · refine ⟨none, h, by simp, ?_⟩
    rw [Option.toList, (scan_append_nil st).1]
    unfold step
    simp only []
    rw [if_neg (by rw [m1]; simp), if_neg (by rw [m2]; simp), if_neg (by rw [m3]; simp),
      if_neg (by rw [m4]; simp), if_neg (by rw [m5]; simp), if_neg (by rw [m6]; simp),
      if_pos hi, h]
    rfl
  · refine ⟨some u, h, ?_, ?_⟩
    · intro r hr
      rw [Option.mem_def, Option.some.injEq] at hr
      rw [← hr]; exact hk
    · unfold step
      simp only []
      rw [if_neg (by rw [m1]; simp), if_neg (by rw [m2]; simp), if_neg (by rw [m3]; simp),
        if_neg (by rw [m4]; simp), if_neg (by rw [m5]; simp), if_neg (by rw [m6]; simp),
        if_pos hi, h]
      rfl

theorem step_included_ez (st : Scan) (line : Str) (hm : isMarker line = false)
    (hl : includes line " included based on LETZTES_AENDERUNGSDATUM:".toList = false)
    (hi : includes line " included based on ERFASSUNGSZEITPUNKT:".toList = true) :
    ∃ p, parseIncludedUser line .ERFASSUNGSZEITPUNKT = .ok p ∧
      (∀ r ∈ p, r.kind = .ERFASSUNGSZEITPUNKT) ∧
      step st line = .ok { st with data := { st.data with
        eingeschlossen_ez := st.data.eingeschlossen_ez ++ p.toList } } := by
  obtain ⟨m1, m2, m3, m4, m5, m6⟩ := isMarker_false_iff line hm
  rcases parseIncludedUser_spec line .ERFASSUNGSZEITPUNKT with h | ⟨u, h, _, _, hk, _⟩
  · refine ⟨none, h, by simp, ?_⟩
    rw [Option.toList, (scan_append_nil st).2]
    unfold step
    simp only []
    rw [if_neg (by rw [m1]; simp), if_neg (by rw [m2]; simp), if_neg (by rw [m3]; simp),
      if_neg (by rw [m4]; simp), if_neg (by rw [m5]; simp), if_neg (by rw [m6]; simp),
      if_neg (by rw [hl]; simp), if_pos hi, h]
    rfl
  · refine ⟨some u, h, ?_, ?_⟩
    · intro r hr
      rw [Option.mem_def, Option.some.injEq] at hr
      rw [← hr]; exact hk
    · unfold step
      simp only []
      rw [if_neg (by rw [m1]; simp), if_neg (by rw [m2]; simp), if_neg (by rw [m3]; simp),
        if_neg (by rw [m4]; simp), if_neg (by rw [m5]; simp), if_neg (by rw [m6]; simp),
        if_neg (by rw [hl]; simp), if_pos hi, h]
      rfl


/-- C11 (section branches consume their lines): while one of the three section
flags is set, processing any line succeeds and appends nothing to
`benutzer_hinzugefuegt_hv`; so a `Benutzer: E | DN: D` line inside the ignored
section or a tenant section produces no group-added record. -/
theorem section_line_adds_no_group_record (st : Scan) (line : Str)
    (h : st.inIgnoredSection = true ∨ st.inSingleSection = true ∨ st.inMultiSection = true) :
    ∃ st', step st line = .ok st' ∧
      st'.data.benutzer_hinzugefuegt_hv = st.data.benutzer_hinzugefuegt_hv := by
  obtain ⟨st', h1, hs⟩ := step_shape st line
  exact ⟨st', h1, hs.group_only_without_section h⟩

/-- C11, at a concrete input: the group line of the specification processed in
the ignored section. -/
theorem section_line_adds_no_group_record_witness :
    ((Scan.init.setFlags true false false).inIgnoredSection = true ∨
      (Scan.init.setFlags true false false).inSingleSection = true ∨
      (Scan.init.setFlags true false false).inMultiSection = true) ∧
    ∃ st', step (Scan.init.setFlags true false false)
        "Benutzer: bob@x.com | DN: uid=bob,ou=Benutzer".toList = .ok st' ∧
      st'.data.benutzer_hinzugefuegt_hv =
        (Scan.init.setFlags true false false).data.benutzer_hinzugefuegt_hv :=
  ⟨Or.inl rfl, section_line_adds_no_group_record _ _ (Or.inl rfl)⟩

/-- C12 (included-user lines do not depend on the section): for a line that
contains no section banner, if it contains ` included based on
LETZTES_AENDERUNGSDATUM:` then, whatever the scanner state, processing it
appends the record `parseIncludedUser` returns for that basis (if any, and
then tagged with that basis) to `eingeschlossen_lad` and changes nothing else:
the other five collections, the three section flags, `currentOrg` and
`currentGp` stay as they were. The same holds for ` included based on
ERFASSUNGSZEITPUNKT:` and `eingeschlossen_ez` when the line does not contain
the first phrase (which is tested first). -/
theorem included_line_section_independent (line : Str) (hm : isMarker line = false) :
    (includes line " included based on LETZTES_AENDERUNGSDATUM:".toList = true →
      ∃ p, parseIncludedUser line .LETZTES_AENDERUNGSDATUM = .ok p ∧
        (∀ r ∈ p, r.kind = .LETZTES_AENDERUNGSDATUM) ∧
        ∀ st : Scan, step st line = .ok { st with data := { st.data with
          eingeschlossen_lad := st.data.eingeschlossen_lad ++ p.toList } }) ∧
    (includes line " included based on LETZTES_AENDERUNGSDATUM:".toList = false →
      includes line " included based on ERFASSUNGSZEITPUNKT:".toList = true →
      ∃ p, parseIncludedUser line .ERFASSUNGSZEITPUNKT = .ok p ∧
        (∀ r ∈ p, r.kind = .ERFASSUNGSZEITPUNKT) ∧
        ∀ st : Scan, step st line = .ok { st with data := { st.data with
          eingeschlossen_ez := st.data.eingeschlossen_ez ++ p.toList } }) := by
  constructor
  · intro hi
    obtain ⟨p, hp, hk, _⟩ := step_included_lad Scan.init line hm hi
    refine ⟨p, hp, hk, fun st => ?_⟩
    obtain ⟨q, hq, _, hs⟩ := step_included_lad st line hm hi
    rw [hp] at hq
    cases hq
    exact hs
  · intro hl hi
    obtain ⟨p, hp, hk, _⟩ := step_included_ez Scan.init line hm hl hi
    refine ⟨p, hp, hk, fun st => ?_⟩
    obtain ⟨q, hq, _, hs⟩ := step_included_ez st line hm hl hi
    rw [hp] at hq
    cases hq
    exact hs

/-- C12, at a concrete input: an included-user line for the second basis. -/
theorem included_line_section_independent_witness :
    isMarker ("User a@x.com | Herrn Muster, Anna included based on " ++
      "ERFASSUNGSZEITPUNKT: 2024-01-01").toList = false ∧
    ((includes ("User a@x.com | Herrn Muster, Anna included based on " ++
        "ERFASSUNGSZEITPUNKT: 2024-01-01").toList
        " included based on LETZTES_AENDERUNGSDATUM:".toList = true →
      ∃ p, parseIncludedUser ("User a@x.com | Herrn Muster, Anna included based on " ++
          "ERFASSUNGSZEITPUNKT: 2024-01-01").toList .LETZTES_AENDERUNGSDATUM = .ok p ∧
        (∀ r ∈ p, r.kind = .LETZTES_AENDERUNGSDATUM) ∧
        ∀ st : Scan, step st ("User a@x.com | Herrn Muster, Anna included based on " ++
          "ERFASSUNGSZEITPUNKT: 2024-01-01").toList = .ok { st with data := { st.data with
          eingeschlossen_lad := st.data.eingeschlossen_lad ++ p.toList } }) ∧
    (includes ("User a@x.com | Herrn Muster, Anna included based on " ++
        "ERFASSUNGSZEITPUNKT: 2024-01-01").toList
        " included based on LETZTES_AENDERUNGSDATUM:".toList = false →
      includes ("User a@x.com | Herrn Muster, Anna included based on " ++
        "ERFASSUNGSZEITPUNKT: 2024-01-01").toList
        " included based on ERFASSUNGSZEITPUNKT:".toList = true →
      ∃ p, parseIncludedUser ("User a@x.com | Herrn Muster, Anna included based on " ++
          "ERFASSUNGSZEITPUNKT: 2024-01-01").toList .ERFASSUNGSZEITPUNKT = .ok p ∧
        (∀ r ∈ p, r.kind = .ERFASSUNGSZEITPUNKT) ∧
        ∀ st : Scan, step st ("User a@x.com | Herrn Muster, Anna included based on " ++
          "ERFASSUNGSZEITPUNKT: 2024-01-01").toList = .ok { st with data := { st.data with
          eingeschlossen_ez := st.data.eingeschlossen_ez ++ p.toList } })) :=
  ⟨by decide, included_line_section_independent _ (by decide)⟩

/-- C18 (section mutual exclusion): the three flags start all false; after
processing any list of lines (so any prefix of the lines of any input) the scan
has succeeded and at most one of the three flags is set; a line without a
section banner leaves the three flags as they were, also over any run of such
lines; and a line with a banner sets them to the section of the first banner,
in the order the code tests them, that the line contains: none for the two
included banners and the group banner, ignored, single-user or multi-user for
the other three. -/
theorem section_flags_exclusive :
    (Scan.init.inIgnoredSection = false ∧ Scan.init.inSingleSection = false ∧
      Scan.init.inMultiSection = false) ∧
    (∀ lines : List Str, ∃ st, scanLines Scan.init lines = .ok st ∧
      (st.inIgnoredSection && st.inSingleSection) = false ∧
      (st.inIgnoredSection && st.inMultiSection) = false ∧
      (st.inSingleSection && st.inMultiSection) = false) ∧
    (∀ (st : Scan) (line : Str), isMarker line = false →
      ∃ st', step st line = .ok st' ∧ st'.inIgnoredSection = st.inIgnoredSection ∧
        st'.inSingleSection = st.inSingleSection ∧ st'.inMultiSection = st.inMultiSection) ∧
    (∀ (st : Scan) (lines : List Str), (∀ l ∈ lines, isMarker l = false) →
      ∃ st', scanLines st lines = .ok st' ∧ st'.inIgnoredSection = st.inIgnoredSection ∧
        st'.inSingleSection = st.inSingleSection ∧ st'.inMultiSection = st.inMultiSection) ∧
    (∀ (st : Scan) (line : Str),
      ((includes line markerIncludedLad = true ∨ includes line markerIncludedEz = true) →
        step st line = .ok (st.setFlags false false false)) ∧
      (includes line markerIncludedLad = false → includes line markerIncludedEz = false →
        includes line markerIgnored = true →
        step st line = .ok (st.setFlags true false false)) ∧
      (includes line markerIncludedLad = false → includes line markerIncludedEz = false →
        includes line markerIgnored = false → includes line markerSingle = true →
        step st line = .ok (st.setFlags false true false)) ∧
      (includes line markerIncludedLad = false → includes line markerIncludedEz = false →
        includes line markerIgnored = false → includes line markerSingle = false →
        includes line markerMulti = true →
        step st line = .ok (st.setFlags false false true)) ∧
      (includes line markerIncludedLad = false → includes line markerIncludedEz = false →
        includes line markerIgnored = false → includes line markerSingle = false →
        includes line markerMulti = false → includes line markerGroup = true →
        step st line = .ok (st.setFlags false false false))) := by
  refine ⟨⟨rfl, rfl, rfl⟩, ?_, ?_, ?_, step_marker_flags⟩
  · intro lines
    exact scanLines_induct
      (fun st => (st.inIgnoredSection && st.inSingleSection) = false ∧
        (st.inIgnoredSection && st.inMultiSection) = false ∧
        (st.inSingleSection && st.inMultiSection) = false)
      (fun _ _ _ hx hs => hs.exclusive hx) lines Scan.init ⟨rfl, rfl, rfl⟩
  · intro st line hm
    obtain ⟨st', h1, hs⟩ := step_shape st line
    exact ⟨st', h1, hs.flags_of_not_marker hm⟩
  · intro st lines h
    exact scanLines_flags_frame lines st h


/-! ## Line endings -/

theorem splitLinesAux_lf (rest cur : Str) :
    splitLinesAux ('\n' :: rest) cur = cur.reverse :: splitLinesAux rest [] := by
  cases rest with
  | nil => simp [splitLinesAux]
  | cons d rest => simp [splitLinesAux]

theorem splitLinesAux_crlf (rest cur : Str) :
    splitLinesAux ('\r' :: '\n' :: rest) cur = cur.reverse :: splitLinesAux rest [] := by
  simp [splitLinesAux]

theorem splitLinesAux_plain (c : Char) (rest cur : Str) (h1 : c ≠ '\n') (h2 : c ≠ '\r') :
    splitLinesAux (c :: rest) cur = splitLinesAux rest (c :: cur) := by
  cases rest with
  | nil => simp [splitLinesAux, h1]
  | cons d rest => simp [splitLinesAux, h1, h2]

theorem splitLinesAux_toCRLF : ∀ (s cur : Str), (∀ x ∈ s, x ≠ '\r') →
    splitLinesAux (toCRLF s) cur = splitLinesAux s cur := by
  intro s
  induction s with
  | nil => intro cur _; rfl
  | cons c rest ih =>
    intro cur h
    have hrest : ∀ x ∈ rest, x ≠ '\r' := fun x hx => h x (List.mem_cons_of_mem _ hx)
    by_cases hc : c = '\n'
    · subst hc
      rw [toCRLF, if_pos rfl, splitLinesAux_crlf, splitLinesAux_lf, ih [] hrest]
    · have hr : c ≠ '\r' := h c (List.mem_cons_self _ _)
      rw [toCRLF, if_neg hc, splitLinesAux_plain c _ cur hc hr,
        splitLinesAux_plain c _ cur hc hr, ih (c :: cur) hrest]

/-- C14 (line-ending independence): for every text without a carriage return,
the text with every LF replaced by CRLF splits into the same lines, so
`analyzeLogfile` returns the same result on both. -/
theorem analyzeLogfile_crlf (s : Str) (h : ∀ x ∈ s, x ≠ '\r') :
    splitLines (toCRLF s) = splitLines s ∧ analyzeLogfile (toCRLF s) = analyzeLogfile s := by
  have hs : splitLines (toCRLF s) = splitLines s := splitLinesAux_toCRLF s [] h
  exact ⟨hs, by simp only [analyzeLogfile, hs]⟩

/-- C14, at a concrete input: a banner, a header and a user line separated by LF. -/
theorem analyzeLogfile_crlf_witness :
    (∀ x ∈ ("========= Mandanten mit einem Benutzer =========\n" ++
      "Geschäftspartner: GP1\nBenutzer: a@x.com | Herrn Eins, Emil").toList, x ≠ '\r') ∧
    splitLines (toCRLF ("========= Mandanten mit einem Benutzer =========\n" ++
      "Geschäftspartner: GP1\nBenutzer: a@x.com | Herrn Eins, Emil").toList) =
      splitLines ("========= Mandanten mit einem Benutzer =========\n" ++
      "Geschäftspartner: GP1\nBenutzer: a@x.com | Herrn Eins, Emil").toList ∧
    analyzeLogfile (toCRLF ("========= Mandanten mit einem Benutzer =========\n" ++
      "Geschäftspartner: GP1\nBenutzer: a@x.com | Herrn Eins, Emil").toList) =
      analyzeLogfile ("========= Mandanten mit einem Benutzer =========\n" ++
      "Geschäftspartner: GP1\nBenutzer: a@x.com | Herrn Eins, Emil").toList :=
  ⟨by decide, analyzeLogfile_crlf _ (by decide)⟩

/-! ## The workbook -/

theorem appendSheet_eq (enc : Range → Str) (wb : List Sheet) (name : Str)
    (headers : List Str) (rows : List (List Cell)) :
    appendSheet enc wb name headers rows =
      wb ++ [{ name := name, allRows := headers.map some :: rows,
               autofilter := if rows = [] then none else
                 some (enc { s := { r := 0, c := 0 },
                             e := { r := rows.length, c := (headers.length : Int) - 1 } }) }] := by
  unfold appendSheet
  cases rows with
  | nil => simp
  | cons r rs => simp

theorem orEmpty_eq_getD (o : Option Str) : orEmpty o = o.getD [] := by
  cases o with
  | none => rfl
  | some v =>
    cases v with
    | nil => rfl
    | cons x t => rfl

theorem ignoredRow_eq : ignoredRow = fun r =>
    [some (r.organisation.getD []), some r.email, some r.anrede, some r.name,
     r.letztes_aenderungsdatum, r.erfassungszeitpunkt] := by
  funext r
  simp only [ignoredRow, orEmpty_eq_getD]

/-- C16 (projection shape): `createWorkbook` builds six sheets, in the fixed
order and under the fixed names. The first row of each is its header row; the
rows under it are one per record of the corresponding collection, in the order
of the collection, the i-th row holding the fields of the i-th record: email,
anrede, name, datum_zeit for the two included sheets; organisation (the empty
string when absent), email, anrede, name, letztes_aenderungsdatum,
erfassungszeitpunkt for the ignored sheet; geschaeftspartner, email, anrede,
name for the two tenant sheets; email, dn for the group sheet. Every row, the
header row included, has as many cells as the sheet has headers: 4, 4, 6, 4, 4
and 2. -/
theorem createWorkbook_shape (enc : Range → Str) (data : Data) :
    ∃ s1 s2 s3 s4 s5 s6, createWorkbook enc data = [s1, s2, s3, s4, s5, s6] ∧
      (s1.name = "Eingeschlossen_LetztesAD".toList ∧
        s1.allRows =
          [some "Email".toList, some "Anrede".toList, some "Name".toList,
           some "Datum/Uhrzeit".toList] ::
          data.eingeschlossen_lad.map (fun r =>
            [some r.email, some r.anrede, some r.name, some r.datum_zeit]) ∧
        s1.allRows.tail.length = data.eingeschlossen_lad.length ∧
        (∀ i : Nat, s1.allRows.tail[i]? = (data.eingeschlossen_lad[i]?).map (fun r =>
            [some r.email, some r.anrede, some r.name, some r.datum_zeit])) ∧
        ∀ row ∈ s1.allRows, row.length = 4) ∧
      (s2.name = "Eingeschlossen_EZPunkt".toList ∧
        s2.allRows =
          [some "Email".toList, some "Anrede".toList, some "Name".toList,
           some "Datum/Uhrzeit".toList] ::
          data.eingeschlossen_ez.map (fun r =>
            [some r.email, some r.anrede, some r.name, some r.datum_zeit]) ∧
        s2.allRows.tail.length = data.eingeschlossen_ez.length ∧
        (∀ i : Nat, s2.allRows.tail[i]? = (data.eingeschlossen_ez[i]?).map (fun r =>
            [some r.email, some r.anrede, some r.name, some r.datum_zeit])) ∧
        ∀ row ∈ s2.allRows, row.length = 4) ∧
      (s3.name = "Ignorierte_Nutzer".toList ∧
        s3.allRows =
          [some "Organisation".toList, some "Email".toList, some "Anrede".toList,
           some "Name".toList, some "LetztesÄnderungsdatum".toList,
           some "Erfassungszeitpunkt".toList] ::
          data.ignorierte_nutzer.map (fun r =>
            [some (r.organisation.getD []), some r.email, some r.anrede, some r.name,
             r.letztes_aenderungsdatum, r.erfassungszeitpunkt]) ∧
        s3.allRows.tail.length = data.ignorierte_nutzer.length ∧
        (∀ i : Nat, s3.allRows.tail[i]? = (data.ignorierte_nutzer[i]?).map (fun r =>
            [some (r.organisation.getD []), some r.email, some r.anrede, some r.name,
             r.letztes_aenderungsdatum, r.erfassungszeitpunkt])) ∧
        ∀ row ∈ s3.allRows, row.length = 6) ∧
      (s4.name = "Mandanten_EinNutzer".toList ∧
        s4.allRows =
          [some "Geschaeftspartner".toList, some "Email".toList, some "Anrede".toList,
           some "Name".toList] ::
          data.mandanten_ein_nutzer.map (fun r =>
            [r.geschaeftspartner, some r.email, some r.anrede, some r.name]) ∧
        s4.allRows.tail.length = data.mandanten_ein_nutzer.length ∧
        (∀ i : Nat, s4.allRows.tail[i]? = (data.mandanten_ein_nutzer[i]?).map (fun r =>
            [r.geschaeftspartner, some r.email, some r.anrede, some r.name])) ∧
        ∀ row ∈ s4.allRows, row.length = 4) ∧
      (s5.name = "Mandanten_MehrereNutzer".toList ∧
        s5.allRows =
          [some "Geschaeftspartner".toList, some "Email".toList, some "Anrede".toList,
           some "Name".toList] ::
          data.mandanten_mehrere_nutzer.map (fun r =>
            [r.geschaeftspartner, some r.email, some r.anrede, some r.name]) ∧
        s5.allRows.tail.length = data.mandanten_mehrere_nutzer.length ∧
        (∀ i : Nat, s5.allRows.tail[i]? = (data.mandanten_mehrere_nutzer[i]?).map (fun r =>
            [r.geschaeftspartner, some r.email, some r.anrede, some r.name])) ∧
        ∀ row ∈ s5.allRows, row.length = 4) ∧
      (s6.name = "HV_Gruppe_Hinzugefuegt".toList ∧
        s6.allRows =
          [some "Email".toList, some "DN".toList] ::
          data.benutzer_hinzugefuegt_hv.map (fun r =>
            [some r.email, some r.dn]) ∧
        s6.allRows.tail.length = data.benutzer_hinzugefuegt_hv.length ∧
        (∀ i : Nat, s6.allRows.tail[i]? = (data.benutzer_hinzugefuegt_hv[i]?).map (fun r =>
            [some r.email, some r.dn])) ∧
        ∀ row ∈ s6.allRows, row.length = 2) := by
  simp only [createWorkbook, appendSheet_eq, List.nil_append, List.cons_append, ignoredRow_eq]
  refine ⟨_, _, _, _, _, _, rfl, ?_, ?_, ?_, ?_, ?_, ?_⟩ <;>
    refine ⟨rfl, rfl, by simp,
      fun i => by simp only [List.tail_cons, List.getElem?_map] <;> rfl, ?_⟩ <;>
    · intro row hrow
      simp only [List.mem_cons, List.mem_map] at hrow
      rcases hrow with rfl | ⟨r, _, rfl⟩
      · rfl
      · rfl

/-- C17 (header filter range): `appendSheet` appends one sheet; its autofilter
is set if and only if there is at least one data row, and then its `ref` is
`encode_range` of the range from row 0, column 0 to row = number of data rows,
column = number of headers - 1; one data row under four headers gives rows 0
to 1 and columns 0 to 3. -/
theorem appendSheet_autofilter (enc : Range → Str) (wb : List Sheet) (name : Str)
    (headers : List Str) (rows : List (List Cell)) :
    (∃ ws, appendSheet enc wb name headers rows = wb ++ [ws] ∧
      (ws.autofilter.isSome = true ↔ 0 < rows.length) ∧
      (0 < rows.length → ws.autofilter = some (enc
        { s := { r := 0, c := 0 },
          e := { r := rows.length, c := (headers.length : Int) - 1 } }))) ∧
    (∀ (row : List Cell) (h1 h2 h3 h4 : Str),
      ∃ ws, appendSheet enc wb name [h1, h2, h3, h4] [row] = wb ++ [ws] ∧
        ws.autofilter = some (enc { s := { r := 0, c := 0 }, e := { r := 1, c := 3 } })) := by
  constructor
  · refine ⟨_, appendSheet_eq enc wb name headers rows, ?_, ?_⟩
    · cases rows <;> simp
    · intro h
      cases rows with
      | nil => simp at h
      | cons r rs => simp
  · intro row h1 h2 h3 h4
    exact ⟨_, appendSheet_eq enc wb name _ _, by simp⟩


/-! ## A tenant line -/

theorem isSpace_of_isLineTerminator (x : Char) (h : isLineTerminator x = true) :
    isSpace x = true := by
  simp only [isLineTerminator, Bool.or_eq_true, beq_iff_eq] at h
  simp only [isSpace, Bool.or_eq_true, beq_iff_eq, Bool.and_eq_true, decide_eq_true_eq]
  rcases h with ((h | h) | h) | h <;> simp [h]

theorem dot_of_not_space (x : Char) (h : isSpace x = false) : Cls.dot.test x = true := by
  cases hl : isLineTerminator x with
  | false => simp [Cls.test, hl]
  | true => rw [isSpace_of_isLineTerminator x hl] at h; cases h

theorem run_group_plus_dot_last (g : Grp) (s : Str) (c : Caps) (hne : s ≠ [])
    (hs : Stops isSpace s) :
    (Re.group g (Re.plus .dot)).run s c (fun _ c' => some c') =
      some (c.set g (s.takeWhile Cls.dot.test)) := by
  cases s with
  | nil => exact absurd rfl hne
  | cons x t =>
    have hx : Cls.dot.test x = true := dot_of_not_space x (hs x (by simp))
    simp only [Re.run, hx, if_true]
    rw [starGreedy_total Cls.dot.test t
      (fun s' => c.set g ((x :: t).take ((x :: t).length - s'.length)))]
    have h := take_sub_dropWhile Cls.dot.test (x :: t)
    rw [List.dropWhile_cons_of_pos hx] at h
    simp only [h]

theorem all_space_of_trim_nil (s : Str) (h : trim s = []) : ∀ x ∈ s, isSpace x = true := by
  obtain ⟨tr, hd, htr⟩ := dropWhile_eq_trim_append s
  rw [h, List.nil_append] at hd
  have h2 : (s.dropWhile isSpace).dropWhile isSpace = [] := by
    rw [hd]; exact List.dropWhile_eq_nil_iff.mpr htr
  rw [List.dropWhile_idempotent] at h2
  exact List.dropWhile_eq_nil_iff.mp h2

theorem trim_getLast_not_space (s : Str) (h : trim s ≠ []) :
    isSpace ((trim s).getLast h) = false := by
  have := List.rdropWhile_last_not isSpace (s.dropWhile isSpace) h
  simpa using this

theorem benutzer_run (E S N : Str) (hE : GoodEmail E) (hS : GoodAnrede S)
    (hN : trim N ≠ []) :
    benutzerPattern.run
      ("Benutzer:".toList ++ (' ' :: (E ++ (' ' :: ('|' :: (' ' :: (S ++ (' ' :: N))))))))
      Caps.empty (fun _ c => some c) =
    some ((((Caps.empty.set .email E).set .anrede S)).set .name
      ((N.dropWhile isSpace).takeWhile Cls.dot.test)) := by
  have hSstop : Stops Cls.space.test S := by
    rcases hS with rfl | rfl
    · exact stops_cons _ 'F' _ (by decide)
    · exact stops_cons _ 'H' _ (by decide)
  have hSne : S ≠ [] := by
    rcases hS with rfl | rfl <;> decide
  have hdne : N.dropWhile isSpace ≠ [] := by
    intro h
    exact hN (trim_of_all_space N (List.dropWhile_eq_nil_iff.mp h))
  simp only [benutzerPattern]
  rw [cat_cons, run_seq]
  apply run_lit_head
  rw [cat_cons, run_seq]
  refine run_plus_head _ [' '] _ _ _ _ (by simp) (by simp; decide)
    (stops_append _ _ _ hE.1 (stops_of_head_mem _ _ hE.2)) ?_
  rw [cat_cons, run_seq]
  refine run_group_plus_head _ _ E _ _ _ _ hE.1 (fun x hx => by simp [Cls.test, hE.2 x hx])
    (stops_cons _ ' ' _ (by decide)) ?_
  rw [cat_cons, run_seq]
  refine run_star_head _ [' '] _ _ _ _ (by simp; decide) (stops_cons _ '|' _ (by decide)) ?_
  rw [cat_cons, run_seq]
  refine run_lit_head "|".toList _ _ _ _ ?_
  rw [cat_cons, run_seq]
  refine run_star_head _ [' '] _ _ _ _ (by simp; decide) (stops_append _ _ _ hSne hSstop) ?_
  rw [cat_cons, run_seq]
  refine run_group_salutation_head S _ _ _ _ hS ?_
  rw [cat_cons, run_seq]
  have hsplit : (' ' :: N) = (' ' :: N.takeWhile isSpace) ++ N.dropWhile isSpace := by
    rw [List.cons_append, List.takeWhile_append_dropWhile]
  rw [hsplit]
  refine run_plus_head _ _ _ _ _ _ (by simp) ?_ (stops_dropWhile _ _) ?_
  · intro x hx
    rcases List.mem_cons.mp hx with rfl | hx
    · decide
    · exact List.mem_takeWhile_imp hx
  · exact run_group_plus_dot_last _ _ _ hdne (stops_dropWhile _ _)

theorem parseBenutzer_line (E S N : Str) (hE : GoodEmail E) (hS : GoodAnrede S)
    (hN : trim N ≠ []) (hLT : ∀ x ∈ trim N, isLineTerminator x = false) :
    parseBenutzer ("Benutzer: ".toList ++ E ++ " | ".toList ++ S ++ " ".toList ++ N) =
      .ok (some { email := E, anrede := S, name := trim N }) := by
  have hline : "Benutzer: ".toList ++ E ++ " | ".toList ++ S ++ " ".toList ++ N =
      "Benutzer:".toList ++ (' ' :: (E ++ (' ' :: ('|' :: (' ' :: (S ++ (' ' :: N))))))) := by
    simp
  rw [hline]
  unfold parseBenutzer
  rw [search_of_run _ _ _ (benutzer_run E S N hE hS hN)]
  simp [Caps.set, Caps.empty, trimOf, hE.trim_email, hS.trim_anrede, trim_dot_run N hLT]
  rfl

theorem name_not_blank_of_trimmed (line P N : Str) (ht : trim line = P ++ ' ' :: N) :
    trim N ≠ [] := by
  intro hN
  have hall := all_space_of_trim_nil N hN
  have hne : trim line ≠ [] := by rw [ht]; simp
  have hlast := trim_getLast_not_space line hne
  have hmem : (trim line).getLast hne ∈ ' ' :: N := by
    have h2 : (P ++ ' ' :: N).getLast (by simp) ∈ ' ' :: N := by
      rw [List.getLast_append_of_ne_nil (by simp : ' ' :: N ≠ [])]
      exact List.getLast_mem _
    simpa only [ht] using h2
  rcases List.mem_cons.mp hmem with h | h
  · rw [h] at hlast; exact absurd hlast (by decide)
  · rw [hall _ h] at hlast; cases hlast


theorem step_tenant_line (st : Scan) (line E S N : Str)
    (ht : trim line = "Benutzer: ".toList ++ E ++ " | ".toList ++ S ++ " ".toList ++ N)
    (hE : GoodEmail E) (hS : GoodAnrede S)
    (hLT : ∀ x ∈ trim N, isLineTerminator x = false)
    (hm : isMarker line = false) (hi : isIncludedLine line = false)
    (hs : st.inIgnoredSection = false) :
    (st.inSingleSection = true →
      step st line = .ok { st with data := { st.data with
        mandanten_ein_nutzer := st.data.mandanten_ein_nutzer ++
          [{ email := E, anrede := S, name := trim N,
             geschaeftspartner := st.currentGp }] } }) ∧
    (st.inSingleSection = false → st.inMultiSection = true →
      step st line = .ok { st with data := { st.data with
        mandanten_mehrere_nutzer := st.data.mandanten_mehrere_nutzer ++
          [{ email := E, anrede := S, name := trim N,
             geschaeftspartner := st.currentGp }] } }) := by
  obtain ⟨m1, m2, m3, m4, m5, m6⟩ := isMarker_false_iff _ hm
  obtain ⟨i1, i2⟩ := isIncludedLine_false_iff _ hi
  have hN : trim N ≠ [] :=
    name_not_blank_of_trimmed line ("Benutzer: ".toList ++ E ++ " | ".toList ++ S) N
      (by rw [ht]; simp)
  have hparse := parseBenutzer_line E S N hE hS hN hLT
  have hgp : startsWith ("Benutzer: ".toList ++ E ++ " | ".toList ++ S ++ " ".toList ++ N)
      "Geschäftspartner:".toList = false := by
    simp [startsWith, List.isPrefixOf]
  have hben : startsWith ("Benutzer: ".toList ++ E ++ " | ".toList ++ S ++ " ".toList ++ N)
      "Benutzer:".toList = true := by
    unfold startsWith
    rw [List.isPrefixOf_iff_prefix]
    exact ⟨' ' :: (E ++ " | ".toList ++ S ++ " ".toList ++ N), by simp⟩
  constructor
  · intro h1
    unfold step
    simp only []
    rw [if_neg (by rw [m1]; simp), if_neg (by rw [m2]; simp), if_neg (by rw [m3]; simp),
      if_neg (by rw [m4]; simp), if_neg (by rw [m5]; simp), if_neg (by rw [m6]; simp),
      if_neg (by rw [i1]; simp), if_neg (by rw [i2]; simp), if_neg (by rw [hs]; simp),
      if_pos h1, ht, if_neg (by rw [hgp]; simp), if_pos hben, hparse]
    rfl
  · intro h1 h2
    unfold step
    simp only []
    rw [if_neg (by rw [m1]; simp), if_neg (by rw [m2]; simp), if_neg (by rw [m3]; simp),
      if_neg (by rw [m4]; simp), if_neg (by rw [m5]; simp), if_neg (by rw [m6]; simp),
      if_neg (by rw [i1]; simp), if_neg (by rw [i2]; simp), if_neg (by rw [hs]; simp),
      if_neg (by rw [h1]; simp), if_pos h2, ht, if_neg (by rw [hgp]; simp), if_pos hben, hparse]
    rfl

/-- C13, refuted at a concrete input: a tenant line whose name has a lone
carriage return inside, processed in the single-user section, yields a record
whose name is the text before the carriage return, not the name trimmed. -/
theorem tenant_name_cut_at_line_terminator :
    step (Scan.init.setFlags false true false) "Benutzer: a@x.com | Herrn Eins\rEmil".toList =
      .ok { Scan.init.setFlags false true false with data := { Data.empty with
        mandanten_ein_nutzer := [
          { email := "a@x.com".toList, anrede := "Herrn".toList, name := "Eins".toList,
            geschaeftspartner := none }] } } ∧
    trim "Benutzer: a@x.com | Herrn Eins\rEmil".toList =
      "Benutzer: ".toList ++ "a@x.com".toList ++ " | ".toList ++ "Herrn".toList ++
        " ".toList ++ "Eins\rEmil".toList ∧
    trim "Eins\rEmil".toList = "Eins\rEmil".toList := by
  refine ⟨by decide, by decide, by decide⟩

/-- C13, amended: for every line that is neither a banner line nor an
included-user line and whose trimmed form is `Benutzer: E | S N`, with `E` a
non-empty run of non-whitespace characters, `S` one of `Frau` and `Herrn`, and
`N`, once trimmed, free of line terminators, processing it while the
single-user section is active appends exactly the record with email `E`,
salutation `S`, name `N` trimmed and `geschaeftspartner = currentGp` to
`mandanten_ein_nutzer` and changes nothing else, and processing it while the
multi-user section is active appends that record to `mandanten_mehrere_nutzer`
and changes nothing else. -/
theorem tenant_line_routing (st : Scan) (line E S N : Str)
    (ht : trim line = "Benutzer: ".toList ++ E ++ " | ".toList ++ S ++ " ".toList ++ N)
    (hE : GoodEmail E) (hS : GoodAnrede S)
    (hLT : ∀ x ∈ trim N, isLineTerminator x = false)
    (hm : isMarker line = false) (hi : isIncludedLine line = false)
    (hs : st.inIgnoredSection = false) :
    (st.inSingleSection = true → ∃ st', step st line = .ok st' ∧
      st'.data.mandanten_ein_nutzer = st.data.mandanten_ein_nutzer ++
        [{ email := E, anrede := S, name := trim N, geschaeftspartner := st.currentGp }] ∧
      st'.data.mandanten_mehrere_nutzer = st.data.mandanten_mehrere_nutzer ∧
      st' = { st with data := { st.data with
        mandanten_ein_nutzer := st'.data.mandanten_ein_nutzer } }) ∧
    (st.inSingleSection = false → st.inMultiSection = true → ∃ st', step st line = .ok st' ∧
      st'.data.mandanten_mehrere_nutzer = st.data.mandanten_mehrere_nutzer ++
        [{ email := E, anrede := S, name := trim N, geschaeftspartner := st.currentGp }] ∧
      st'.data.mandanten_ein_nutzer = st.data.mandanten_ein_nutzer ∧
      st' = { st with data := { st.data with
        mandanten_mehrere_nutzer := st'.data.mandanten_mehrere_nutzer } }) := by
  obtain ⟨h1, h2⟩ := step_tenant_line st line E S N ht hE hS hLT hm hi hs
  exact ⟨fun hs1 => ⟨_, h1 hs1, rfl, rfl, rfl⟩, fun hs1 hs2 => ⟨_, h2 hs1 hs2, rfl, rfl, rfl⟩⟩

/-- C13 amended, at a concrete input: a tenant line with blanks around it,
processed in the single-user section with `currentGp = GP1`. -/
theorem tenant_line_routing_witness :
    trim "  Benutzer: a@x.com | Herrn Eins, Emil ".toList =
      "Benutzer: ".toList ++ "a@x.com".toList ++ " | ".toList ++ "Herrn".toList ++
        " ".toList ++ "Eins, Emil".toList ∧
    GoodEmail "a@x.com".toList ∧ GoodAnrede "Herrn".toList ∧
    (∀ x ∈ trim "Eins, Emil".toList, isLineTerminator x = false) ∧
    isMarker "  Benutzer: a@x.com | Herrn Eins, Emil ".toList = false ∧
    isIncludedLine "  Benutzer: a@x.com | Herrn Eins, Emil ".toList = false ∧
    ({ Scan.init with currentGp := some "GP1".toList,
                      inSingleSection := true } : Scan).inIgnoredSection = false ∧
    (({ Scan.init with currentGp := some "GP1".toList,
                       inSingleSection := true } : Scan).inSingleSection = true →
      ∃ st', step { Scan.init with currentGp := some "GP1".toList, inSingleSection := true }
          "  Benutzer: a@x.com | Herrn Eins, Emil ".toList = .ok st' ∧
        st'.data.mandanten_ein_nutzer = Scan.init.data.mandanten_ein_nutzer ++
          [{ email := "a@x.com".toList, anrede := "Herrn".toList,
             name := trim "Eins, Emil".toList, geschaeftspartner := some "GP1".toList }] ∧
        st'.data.mandanten_mehrere_nutzer = Scan.init.data.mandanten_mehrere_nutzer ∧
        st' = { ({ Scan.init with currentGp := some "GP1".toList,
                                  inSingleSection := true } : Scan) with
          data := { Scan.init.data with
            mandanten_ein_nutzer := st'.data.mandanten_ein_nutzer } }) :=
  ⟨by decide, ⟨by decide, by decide⟩, Or.inr rfl, by decide, by decide, by decide, rfl,
    (tenant_line_routing _ _ _ _ _ (by decide) ⟨by decide, by decide⟩ (Or.inr rfl)
      (by decide) (by decide) (by decide) rfl).1⟩


/-! ## Completeness of the matcher -/

theorem starGreedy_isSome_here (p : Char → Bool) (s : Str) (f : Str → Option Caps)
    (h : (f s).isSome = true) : (starGreedy p s f).isSome = true := by
  cases s with
  | nil => exact h
  | cons x t =>
    unfold starGreedy
    split
    · rw [Option.isSome_or, h, Bool.or_true]
    · exact h

theorem starGreedy_complete (p : Char → Bool) (w s : Str) (f : Str → Option Caps)
    (hw : ∀ x ∈ w, p x = true) (h : (f s).isSome = true) :
    (starGreedy p (w ++ s) f).isSome = true := by
  induction w with
  | nil => exact starGreedy_isSome_here p s f h
  | cons x w ih =>
    rw [List.cons_append, starGreedy, if_pos (hw x (List.mem_cons_self _ _)), Option.isSome_or,
      ih (fun y hy => hw y (List.mem_cons_of_mem _ hy)), Bool.true_or]

theorem starLazy_isSome_here (p : Char → Bool) (s : Str) (f : Str → Option Caps)
    (h : (f s).isSome = true) : (starLazy p s f).isSome = true := by
  cases s with
  | nil => exact h
  | cons x t =>
    unfold starLazy
    rw [Option.isSome_or, h, Bool.true_or]

theorem starLazy_complete (p : Char → Bool) (w s : Str) (f : Str → Option Caps)
    (hw : ∀ x ∈ w, p x = true) (h : (f s).isSome = true) :
    (starLazy p (w ++ s) f).isSome = true := by
  induction w with
  | nil => exact starLazy_isSome_here p s f h
  | cons x w ih =>
    rw [List.cons_append, starLazy, if_pos (hw x (List.mem_cons_self _ _)), Option.isSome_or,
      ih (fun y hy => hw y (List.mem_cons_of_mem _ hy)), Bool.or_true]

/-- The matcher finds what the pattern can match: if `r` can match the word `w`
and the continuation accepts the rest with any captures, the run on `w`
followed by the rest succeeds. -/
theorem Re.run_complete (r : Re) : ∀ (w : Str) (c c' : Caps) (s : Str) (c0 : Caps)
    (k : Str → Caps → Option Caps), r.Matches w c c' →
    (∀ c1, (k s c1).isSome = true) → (r.run (w ++ s) c0 k).isSome = true := by
  induction r with
  | lit w0 =>
    intro w c c' s c0 k hm hk
    obtain ⟨rfl, _⟩ := hm
    rw [run_lit_append]
    exact hk c0
  | star cls =>
    intro w c c' s c0 k hm hk
    exact starGreedy_complete _ w s _ hm.1 (hk c0)
  | lazyStar cls =>
    intro w c c' s c0 k hm hk
    exact starLazy_complete _ w s _ hm.1 (hk c0)
  | plus cls =>
    intro w c c' s c0 k hm hk
    obtain ⟨hn, hall, _⟩ := hm
    cases w with
    | nil => exact absurd rfl hn
    | cons x w =>
      simp only [List.cons_append, Re.run, hall x (List.mem_cons_self _ _), if_true]
      exact starGreedy_complete _ w s _ (fun y hy => hall y (List.mem_cons_of_mem _ hy)) (hk c0)
  | alt a b iha ihb =>
    intro w c c' s c0 k hm hk
    simp only [Re.run, Option.isSome_or]
    rcases hm with hm | hm
    · rw [iha w c c' s c0 k hm hk, Bool.true_or]
    · rw [ihb w c c' s c0 k hm hk, Bool.or_true]
  | seq a b iha ihb =>
    intro w c c' s c0 k hm hk
    obtain ⟨w1, w2, c1, rfl, h1, h2⟩ := hm
    rw [List.append_assoc, run_seq]
    exact iha w1 c c1 (w2 ++ s) c0 _ h1 (fun d => ihb w2 c1 c' s d k h2 hk)
  | group g r ih =>
    intro w c c' s c0 k hm hk
    obtain ⟨c1, h1, _⟩ := hm
    simp only [Re.run]
    exact ih w c c1 s c0 _ h1 (fun d => hk _)
  | opt r ih =>
    intro w c c' s c0 k hm hk
    simp only [Re.run, Option.isSome_or]
    rcases hm with hm | ⟨rfl, _⟩
    · rw [ih w c c' s c0 k hm hk, Bool.true_or]
    · rw [List.nil_append, hk c0, Bool.or_true]

theorem Re.search_complete (r : Re) (pre w post : Str) (c c' : Caps)
    (hm : r.Matches w c c') : (r.search (pre ++ w ++ post)).isSome = true := by
  have hrun : (r.run (w ++ post) Caps.empty (fun _ c => some c)).isSome = true :=
    r.run_complete w c c' post Caps.empty _ hm (fun _ => rfl)
  induction pre with
  | nil =>
    rw [List.nil_append]
    cases hwp : w ++ post with
    | nil => rw [hwp] at hrun; exact hrun
    | cons x t =>
      rw [hwp] at hrun
      simp only [Re.search, Option.isSome_or, hrun, Bool.true_or]
  | cons x pre ih =>
    have hs : r.search (x :: pre ++ w ++ post) =
        (r.run (x :: pre ++ w ++ post) Caps.empty (fun _ c => some c)).or
          (r.search (pre ++ w ++ post)) := rfl
    rw [hs, Option.isSome_or, ih, Bool.or_true]

/-- What one finds in a line is what the pattern can match in it. -/
theorem Re.search_isSome_iff (r : Re) (line : Str) :
    (r.search line).isSome = true ↔
      ∃ pre w post v, line = pre ++ w ++ post ∧ r.Matches w Caps.empty v := by
  constructor
  · intro h
    obtain ⟨v, hv⟩ := Option.isSome_iff_exists.mp h
    obtain ⟨pre, w, post, hl, hm⟩ := Re.search_sound _ _ _ hv
    exact ⟨pre, w, post, v, hl, hm⟩
  · rintro ⟨pre, w, post, v, rfl, hm⟩
    exact r.search_complete pre w post _ _ hm


/-! ## Names in the included collections -/

/-- The declarative reading of the pattern of `parseIncludedUser`, spelled out. -/
theorem includedPattern_matches_iff (kind : Kind) (w : Str) :
    (∃ v, (includedPattern kind).Matches w Caps.empty v) ↔
    ∃ w1 e w2 w3 a w4 n w5 d : Str,
      w = "User".toList ++ (w1 ++ (e ++ (w2 ++ ('|' :: (w3 ++ (a ++ (w4 ++ (n ++
        (includedLiteral kind ++ (w5 ++ d)))))))))) ∧
      w1 ≠ [] ∧ (∀ x ∈ w1, isSpace x = true) ∧
      e ≠ [] ∧ (∀ x ∈ e, isSpace x = false) ∧
      (∀ x ∈ w2, isSpace x = true) ∧ (∀ x ∈ w3, isSpace x = true) ∧
      GoodAnrede a ∧
      w4 ≠ [] ∧ (∀ x ∈ w4, isSpace x = true) ∧
      n ≠ [] ∧ (∀ x ∈ n, x ≠ 'i') ∧
      w5 ≠ [] ∧ (∀ x ∈ w5, isSpace x = true) ∧
      d ≠ [] ∧ (∀ x ∈ d, isLineTerminator x = false) := by
  constructor
  · rintro ⟨v, h⟩
    simp only [includedPattern, Re.cat, Re.Matches, salutation] at h
    obtain ⟨_, _, _, rfl, ⟨rfl, rfl⟩, h⟩ := h
    obtain ⟨w1, _, _, rfl, ⟨hw1n, hw1, rfl⟩, h⟩ := h
    obtain ⟨e, _, _, rfl, ⟨_, ⟨hen, he, rfl⟩, rfl⟩, h⟩ := h
    obtain ⟨w2, _, _, rfl, ⟨hw2, rfl⟩, h⟩ := h
    obtain ⟨_, _, _, rfl, ⟨rfl, rfl⟩, h⟩ := h
    obtain ⟨w3, _, _, rfl, ⟨hw3, rfl⟩, h⟩ := h
    obtain ⟨a, _, _, rfl, ⟨c1, ha, rfl⟩, h⟩ := h
    obtain ⟨w4, _, _, rfl, ⟨hw4n, hw4, rfl⟩, h⟩ := h
    obtain ⟨n, _, _, rfl, ⟨_, ⟨hnn, hn, rfl⟩, rfl⟩, h⟩ := h
    obtain ⟨_, _, _, rfl, ⟨rfl, rfl⟩, h⟩ := h
    obtain ⟨w5, d, _, rfl, ⟨hw5n, hw5, rfl⟩, h⟩ := h
    obtain ⟨_, ⟨hdn, hd, rfl⟩, rfl⟩ := h
    have hga : GoodAnrede a := by
      rcases ha with ⟨rfl, _⟩ | ⟨rfl, _⟩
      · exact Or.inl rfl
      · exact Or.inr rfl
    refine ⟨w1, e, w2, w3, a, w4, n, w5, d, ?_, hw1n,
      fun x hx => by simpa [Cls.test] using hw1 x hx, hen,
      fun x hx => by simpa [Cls.test] using he x hx,
      fun x hx => by simpa [Cls.test] using hw2 x hx,
      fun x hx => by simpa [Cls.test] using hw3 x hx, hga, hw4n,
      fun x hx => by simpa [Cls.test] using hw4 x hx, hnn,
      fun x hx => by simpa [Cls.test] using hn x hx, hw5n,
      fun x hx => by simpa [Cls.test] using hw5 x hx, hdn,
      fun x hx => by simpa [Cls.test] using hd x hx⟩
    simp only [includedLiteral, List.append_assoc, List.cons_append, List.nil_append,
      List.singleton_append]
    rfl
  · rintro ⟨w1, e, w2, w3, a, w4, n, w5, d, rfl, hw1n, hw1, hen, he, hw2, hw3, ha, hw4n, hw4,
      hnn, hn, hw5n, hw5, hdn, hd⟩
    refine ⟨(((Caps.empty.set .email e).set .anrede a).set .lastFirst n).set .datetime d, ?_⟩
    simp only [includedPattern, Re.cat, Re.Matches, salutation]
    refine ⟨_, _, _, rfl, ⟨rfl, rfl⟩, w1, _, _, rfl,
      ⟨hw1n, fun x hx => by simpa [Cls.test] using hw1 x hx, rfl⟩, e, _, _, rfl,
      ⟨_, ⟨hen, fun x hx => by simpa [Cls.test] using he x hx, rfl⟩, rfl⟩, w2, _, _, rfl,
      ⟨fun x hx => by simpa [Cls.test] using hw2 x hx, rfl⟩, "|".toList, _, _, rfl, ⟨rfl, rfl⟩,
      w3, _, _, rfl, ⟨fun x hx => by simpa [Cls.test] using hw3 x hx, rfl⟩, a, _, _, rfl,
      ⟨_, ?_, rfl⟩, w4, _, _, rfl,
      ⟨hw4n, fun x hx => by simpa [Cls.test] using hw4 x hx, rfl⟩, n, _, _, rfl,
      ⟨_, ⟨hnn, fun x hx => by simpa [Cls.test] using hn x hx, rfl⟩, rfl⟩,
      includedLiteral kind, _, _, rfl, ⟨rfl, rfl⟩, w5, d, _, rfl,
      ⟨hw5n, fun x hx => by simpa [Cls.test] using hw5 x hx, rfl⟩,
      _, ⟨hdn, fun x hx => by simpa [Cls.test] using hd x hx, rfl⟩, rfl⟩
    rcases ha with rfl | rfl
    · exact Or.inl ⟨rfl, rfl⟩
    · exact Or.inr ⟨rfl, rfl⟩


theorem i_not_space : ∀ y : Char, isSpace y = true → y ≠ 'i' := by
  intro y hy h
  rw [h] at hy
  exact absurd hy (by decide)

theorem nameStretchAt_reading (kind : Kind) (x : Char) (w4 n post : Str)
    (hx : isSpace x = true) (hw4 : ∀ y ∈ w4, isSpace y = true) (hnn : n ≠ [])
    (hn : ∀ y ∈ n, y ≠ 'i') :
    nameStretchAt kind (x :: (w4 ++ (n ++ (includedLiteral kind ++ post)))) = true := by
  have hlit : includedLiteral kind ++ post =
      'i' :: ("ncluded based on ".toList ++ kind.text ++ ":".toList ++ post) := by
    simp [includedLiteral]
  have hall : ∀ y ∈ w4 ++ n, (fun c : Char => c != 'i') y = true := by
    intro y hy
    rcases List.mem_append.mp hy with hy | hy
    · simpa using i_not_space y (hw4 y hy)
    · simpa using hn y hy
  have htake : (w4 ++ (n ++ (includedLiteral kind ++ post))).takeWhile (fun c => c != 'i')
      = w4 ++ n := by
    rw [← List.append_assoc, List.takeWhile_append_of_pos hall, hlit,
      List.takeWhile_cons_of_neg (by simp), List.append_nil]
  have hdrop : (w4 ++ (n ++ (includedLiteral kind ++ post))).dropWhile (fun c => c != 'i')
      = includedLiteral kind ++ post := by
    rw [← List.append_assoc, List.dropWhile_append_of_pos hall, hlit,
      List.dropWhile_cons_of_neg (by simp)]
  have hne : (w4 ++ n).isEmpty = false := by
    cases w4 with
    | nil =>
      cases n with
      | nil => exact absurd rfl hnn
      | cons _ _ => rfl
    | cons _ _ => rfl
  have hp : (includedLiteral kind).isPrefixOf (includedLiteral kind ++ post) = true :=
    List.isPrefixOf_iff_prefix.mpr (List.prefix_append _ _)
  simp only [nameStretchAt, htake, hdrop, hx, hne, hp]
  rfl

theorem parseIncludedUser_none_iff_search (line : Str) (kind : Kind) :
    parseIncludedUser line kind = .ok none ↔ (includedPattern kind).search line = none := by
  unfold parseIncludedUser
  cases hs : (includedPattern kind).search line with
  | none => simp
  | some v =>
    obtain ⟨pre, w, post, hl, hm⟩ := Re.search_sound _ _ _ hs
    obtain ⟨e, a, n, d, he, ha, hn, hinf, h1, h2, h3, h4⟩ := includedPattern_matches kind w v hm
    simp only [h1, h2, h3, h4, trimOf]
    constructor
    · intro h
      cases h
    · intro h
      cases h

/-- `parseIncludedUser` returns null exactly for the lines that have no part of
the form the pattern describes. -/
theorem parseIncludedUser_none_iff (line : Str) (kind : Kind) :
    parseIncludedUser line kind = .ok none ↔ ¬ IncludedPart kind line := by
  rw [parseIncludedUser_none_iff_search, ← Option.not_isSome_iff_eq_none,
    Re.search_isSome_iff]
  constructor
  · rintro h ⟨pre, w1, e, w2, w3, a, w4, n, w5, d, post, hl, hc⟩
    have hm := (includedPattern_matches_iff kind
      ("User".toList ++ (w1 ++ (e ++ (w2 ++ ('|' :: (w3 ++ (a ++ (w4 ++ (n ++
        (includedLiteral kind ++ (w5 ++ d)))))))))))).mpr
      ⟨w1, e, w2, w3, a, w4, n, w5, d, rfl, hc⟩
    obtain ⟨v, hv⟩ := hm
    refine h ⟨pre, _, post, v, ?_, hv⟩
    rw [hl]
    simp only [List.append_assoc, List.cons_append]
  · rintro h ⟨pre, w, post, v, hl, hm⟩
    obtain ⟨w1, e, w2, w3, a, w4, n, w5, d, hw, hc⟩ :=
      (includedPattern_matches_iff kind w).mp ⟨v, hm⟩
    refine h ⟨pre, w1, e, w2, w3, a, w4, n, w5, d, post, ?_, hc⟩
    rw [hl, hw]
    simp only [List.append_assoc, List.cons_append]

theorem dropWhile_space_anrede (w3 a rest : Str) (hw3 : ∀ x ∈ w3, isSpace x = true)
    (ha : GoodAnrede a) : (w3 ++ (a ++ rest)).dropWhile isSpace = a ++ rest := by
  rw [List.dropWhile_append_of_pos hw3]
  rcases ha with rfl | rfl
  · rfl
  · rfl

theorem salutationThenName_reading (kind : Kind) (a : Str) (x : Char) (w4 n post : Str)
    (ha : GoodAnrede a) (hx : isSpace x = true) (hw4 : ∀ y ∈ w4, isSpace y = true)
    (hnn : n ≠ []) (hn : ∀ y ∈ n, y ≠ 'i') :
    salutationThenName kind (a ++ (x :: (w4 ++ (n ++ (includedLiteral kind ++ post))))) =
      true := by
  have hs := nameStretchAt_reading kind x w4 n post hx hw4 hnn hn
  unfold salutationThenName
  rcases ha with rfl | rfl
  · have h1 : "Frau".toList.isPrefixOf ("Frau".toList ++
        (x :: (w4 ++ (n ++ (includedLiteral kind ++ post))))) = true :=
      List.isPrefixOf_iff_prefix.mpr ⟨_, rfl⟩
    have h2 : ("Frau".toList ++ (x :: (w4 ++ (n ++ (includedLiteral kind ++ post))))).drop 4 =
        x :: (w4 ++ (n ++ (includedLiteral kind ++ post))) := rfl
    rw [h1, h2, hs]
    rfl
  · have h1 : "Herrn".toList.isPrefixOf ("Herrn".toList ++
        (x :: (w4 ++ (n ++ (includedLiteral kind ++ post))))) = true :=
      List.isPrefixOf_iff_prefix.mpr ⟨_, rfl⟩
    have h2 : ("Herrn".toList ++ (x :: (w4 ++ (n ++ (includedLiteral kind ++ post))))).drop 5 =
        x :: (w4 ++ (n ++ (includedLiteral kind ++ post))) := rfl
    rw [h1, h2, hs]
    simp

theorem hasIFreeName_reading (kind : Kind) (pre w3 a : Str) (x : Char) (w4 n post : Str)
    (hw3 : ∀ y ∈ w3, isSpace y = true)
    (ha : GoodAnrede a) (hx : isSpace x = true) (hw4 : ∀ y ∈ w4, isSpace y = true)
    (hnn : n ≠ []) (hn : ∀ y ∈ n, y ≠ 'i') :
    hasIFreeName kind (pre ++ ('|' :: (w3 ++ (a ++ (x :: (w4 ++ (n ++
      (includedLiteral kind ++ post)))))))) = true := by
  induction pre with
  | nil =>
    rw [List.nil_append]
    unfold hasIFreeName
    rw [dropWhile_space_anrede w3 a _ hw3 ha,
      salutationThenName_reading kind a x w4 n post ha hx hw4 hnn hn]
    rfl
  | cons c pre ih =>
    rw [List.cons_append]
    unfold hasIFreeName
    rw [ih, Bool.or_true]

theorem parseIncludedUser_none_of_no_reading (line : Str) (kind : Kind)
    (h : hasIFreeName kind line = false) : parseIncludedUser line kind = .ok none := by
  rw [parseIncludedUser_none_iff]
  rintro ⟨pre, w1, e, w2, w3, a, w4, n, w5, d, post, hl, _, _, _, _, _, hw3, ha, hw4n, hw4,
    hnn, hn, _⟩
  cases w4 with
  | nil => exact hw4n rfl
  | cons x w4 =>
    have hline : line = (pre ++ ("User".toList ++ (w1 ++ (e ++ w2)))) ++
        ('|' :: (w3 ++ (a ++ (x :: (w4 ++ (n ++ (includedLiteral kind ++
          (w5 ++ (d ++ post))))))))) := by
      rw [hl]
      simp only [List.append_assoc, List.cons_append]
    rw [hline, hasIFreeName_reading kind _ w3 a x w4 n _ hw3 ha
      (hw4 x (List.mem_cons_self _ _)) (fun y hy => hw4 y (List.mem_cons_of_mem _ hy)) hnn hn] at h
    cases h


theorem StepShape.names_i_free {st : Scan} {line : Str} {st' : Scan}
    (h : StepShape st line st')
    (hg : (∀ r ∈ st.data.eingeschlossen_lad, ∀ x ∈ r.name, x ≠ 'i') ∧
      (∀ r ∈ st.data.eingeschlossen_ez, ∀ x ∈ r.name, x ≠ 'i')) :
    (∀ r ∈ st'.data.eingeschlossen_lad, ∀ x ∈ r.name, x ≠ 'i') ∧
    (∀ r ∈ st'.data.eingeschlossen_ez, ∀ x ∈ r.name, x ≠ 'i') := by
  obtain ⟨g1, g2⟩ := hg
  cases h with
  | marker => exact ⟨g1, g2⟩
  | skip => exact ⟨g1, g2⟩
  | org => exact ⟨g1, g2⟩
  | gp => exact ⟨g1, g2⟩
  | ignored => exact ⟨g1, g2⟩
  | single => exact ⟨g1, g2⟩
  | multi => exact ⟨g1, g2⟩
  | group => exact ⟨g1, g2⟩
  | lad r hm hp =>
    rcases parseIncludedUser_spec line .LETZTES_AENDERUNGSDATUM with h | ⟨u, h, _, _, _, hi, _⟩
    · rw [h] at hp; cases hp
    · rw [h] at hp; cases hp
      refine ⟨?_, g2⟩
      intro x hx
      rcases List.mem_append.mp hx with hx | hx
      · exact g1 x hx
      · rw [List.mem_singleton.mp hx]; exact hi
  | ez r hm hp =>
    rcases parseIncludedUser_spec line .ERFASSUNGSZEITPUNKT with h | ⟨u, h, _, _, _, hi, _⟩
    · rw [h] at hp; cases hp
    · rw [h] at hp; cases hp
      refine ⟨g1, ?_⟩
      intro x hx
      rcases List.mem_append.mp hx with hx | hx
      · exact g2 x hx
      · rw [List.mem_singleton.mp hx]; exact hi

/-- C20, refuted at a concrete input. The line is an included-user line
`User E | S N included based on KIND: T` with `E = a@x.com`, `S = Frau` and a
name part `N` that contains a lowercase `i` (in `Alice`), yet
`parseIncludedUser` does not return null: it returns the record of the part
that begins at the second `User`, whose name `Anna` has no `i`. -/
theorem included_line_with_i_not_null :
    ("User a@x.com | Frau Alice User b@x.com |Frau Anna included based on " ++
        "LETZTES_AENDERUNGSDATUM: 2024-01-01").toList =
      "User a@x.com | ".toList ++ "Frau".toList ++ " ".toList ++
        "Alice User b@x.com |Frau Anna ".toList ++
        includedLiteral .LETZTES_AENDERUNGSDATUM ++ " 2024-01-01".toList ∧
    'i' ∈ "Alice User b@x.com |Frau Anna ".toList ∧
    parseIncludedUser ("User a@x.com | Frau Alice User b@x.com |Frau Anna included based on " ++
        "LETZTES_AENDERUNGSDATUM: 2024-01-01").toList .LETZTES_AENDERUNGSDATUM =
      .ok (some { email := "b@x.com".toList, anrede := "Frau".toList, name := "Anna".toList,
                  datum_zeit := "2024-01-01".toList, kind := .LETZTES_AENDERUNGSDATUM }) := by
  refine ⟨by decide, by decide, by decide⟩

/-- C20, amended: for every input, `analyzeLogfile` returns and no record of
`eingeschlossen_lad` or `eingeschlossen_ez` has a lowercase `i` in its name, and
whenever `parseIncludedUser` returns a record its name has none.
`parseIncludedUser` returns null exactly for the lines that have no part of the
form `User`, whitespace, email, optional whitespace, `|`, optional whitespace,
`Frau` or `Herrn`, whitespace, name, `included based on KIND:`, whitespace, date
with a non-empty name free of `i`. In particular it returns null for every line
in which no `|` is followed, after optional whitespace, by a salutation token, a
whitespace character and a non-empty stretch free of `i` that ends where
`included based on KIND:` begins: wherever a salutation stands behind a pipe, a
lowercase `i` (or nothing) stands between it and that literal. The line for
`Frau Muster, Alice` of the specification is such a line, and so is a line
whose name is `Alice, Frau Anna`. -/
theorem included_names_have_no_i :
    (∀ logText : Str, ∃ d : Data, analyzeLogfile logText = .ok d ∧
      (∀ r ∈ d.eingeschlossen_lad, ∀ x ∈ r.name, x ≠ 'i') ∧
      (∀ r ∈ d.eingeschlossen_ez, ∀ x ∈ r.name, x ≠ 'i')) ∧
    (∀ (line : Str) (kind : Kind) (r : IncludedUser),
      parseIncludedUser line kind = .ok (some r) → ∀ x ∈ r.name, x ≠ 'i') ∧
    (∀ (line : Str) (kind : Kind),
      parseIncludedUser line kind = .ok none ↔ ¬ IncludedPart kind line) ∧
    (∀ (line : Str) (kind : Kind), hasIFreeName kind line = false →
      parseIncludedUser line kind = .ok none) ∧
    (hasIFreeName .LETZTES_AENDERUNGSDATUM ("User alice@x.com | Frau Muster, Alice " ++
        "included based on LETZTES_AENDERUNGSDATUM: 2024-01-01 10:00").toList = false ∧
      parseIncludedUser ("User alice@x.com | Frau Muster, Alice " ++
        "included based on LETZTES_AENDERUNGSDATUM: 2024-01-01 10:00").toList
        .LETZTES_AENDERUNGSDATUM = .ok none) ∧
    (hasIFreeName .LETZTES_AENDERUNGSDATUM ("User a@x.com | Frau Alice, Frau Anna " ++
        "included based on LETZTES_AENDERUNGSDATUM: 2024-01-01").toList = false ∧
      parseIncludedUser ("User a@x.com | Frau Alice, Frau Anna " ++
        "included based on LETZTES_AENDERUNGSDATUM: 2024-01-01").toList
        .LETZTES_AENDERUNGSDATUM = .ok none) := by
  refine ⟨?_, ?_, parseIncludedUser_none_iff, parseIncludedUser_none_of_no_reading,
    ⟨by decide, by decide⟩, ⟨by decide, by decide⟩⟩
  · intro logText
    obtain ⟨st, h, hg⟩ := scanLines_induct
      (fun st => (∀ r ∈ st.data.eingeschlossen_lad, ∀ x ∈ r.name, x ≠ 'i') ∧
        (∀ r ∈ st.data.eingeschlossen_ez, ∀ x ∈ r.name, x ≠ 'i'))
      (fun _ _ _ hg hs => hs.names_i_free hg) (splitLines logText) Scan.init
      ⟨by simp [Scan.init], by simp [Scan.init]⟩
    exact ⟨st.data, analyzeLogfile_eq logText st h, hg⟩
  · intro line kind r hr
    rcases parseIncludedUser_spec line kind with h | ⟨u, h, _, _, _, hi, _⟩
    · rw [h] at hr; cases hr
    · rw [h] at hr; cases hr
      exact hi


/-! ## The optional fields of an ignored-user record -/

theorem starGreedy_isSome_congr (p : Char → Bool) (s : Str) (f g : Str → Option Caps)
    (h : ∀ s', (f s').isSome = (g s').isSome) :
    (starGreedy p s f).isSome = (starGreedy p s g).isSome := by
  induction s with
  | nil => exact h []
  | cons x t ih =>
    unfold starGreedy
    split
    · rw [Option.isSome_or, Option.isSome_or, ih, h]
    · exact h _

theorem starLazy_isSome_congr (p : Char → Bool) (s : Str) (f g : Str → Option Caps)
    (h : ∀ s', (f s').isSome = (g s').isSome) :
    (starLazy p s f).isSome = (starLazy p s g).isSome := by
  induction s with
  | nil => exact h []
  | cons x t ih =>
    unfold starLazy
    rw [Option.isSome_or, Option.isSome_or, h]
    split
    · rw [ih]
    · rfl

theorem Re.run_isSome_congr (r : Re) : ∀ (s : Str) (c1 c2 : Caps)
    (k1 k2 : Str → Caps → Option Caps),
    (∀ s' d1 d2, (k1 s' d1).isSome = (k2 s' d2).isSome) →
    (r.run s c1 k1).isSome = (r.run s c2 k2).isSome := by
  induction r with
  | lit w0 =>
    intro s c1 c2 k1 k2 h
    simp only [Re.run]
    split
    · exact h _ _ _
    · rfl
  | star cls =>
    intro s c1 c2 k1 k2 h
    exact starGreedy_isSome_congr _ _ _ _ (fun s' => h s' c1 c2)
  | lazyStar cls =>
    intro s c1 c2 k1 k2 h
    exact starLazy_isSome_congr _ _ _ _ (fun s' => h s' c1 c2)
  | plus cls =>
    intro s c1 c2 k1 k2 h
    cases s with
    | nil => rfl
    | cons x t =>
      simp only [Re.run]
      split
      · exact starGreedy_isSome_congr _ _ _ _ (fun s' => h s' c1 c2)
      · rfl
  | alt a b iha ihb =>
    intro s c1 c2 k1 k2 h
    simp only [Re.run]
    rw [Option.isSome_or, Option.isSome_or, iha s c1 c2 k1 k2 h, ihb s c1 c2 k1 k2 h]
  | seq a b iha ihb =>
    intro s c1 c2 k1 k2 h
    simp only [Re.run]
    exact iha s c1 c2 _ _ (fun s' d1 d2 => ihb s' d1 d2 k1 k2 h)
  | group g r ih =>
    intro s c1 c2 k1 k2 h
    simp only [Re.run]
    exact ih s c1 c2 _ _ (fun s' d1 d2 => h s' _ _)
  | opt r ih =>
    intro s c1 c2 k1 k2 h
    simp only [Re.run]
    rw [Option.isSome_or, Option.isSome_or, ih s c1 c2 k1 k2 h, h]

theorem run_last_ez (s : Str) (c : Caps) :
    (Re.seq (.star .space) (.group .ez (.star .dot))).run s c (fun _ c' => some c') =
      some (c.set .ez ((s.dropWhile isSpace).takeWhile Cls.dot.test)) := by
  rw [run_seq]
  simp only [run_group_star_dot_last]
  show starGreedy isSpace s (fun s' => some (c.set .ez (s'.takeWhile Cls.dot.test))) = _
  exact starGreedy_total isSpace s (fun s' => c.set .ez (s'.takeWhile Cls.dot.test))

theorem ignoredEnd_run (s : Str) (c v : Caps)
    (h : ignoredEnd.run s c (fun _ c' => some c') = some v) :
    ∃ (r s4 : Str), s = ',' :: r ∧
      v = c.set .ez ((s4.dropWhile isSpace).takeWhile Cls.dot.test) := by
  unfold ignoredEnd at h
  rw [cat_cons, run_seq] at h
  obtain ⟨w1, s1, c1, hs1, hm1, h1⟩ := Re.run_sound _ _ _ _ _ h
  simp only [Re.Matches] at hm1
  obtain ⟨rfl, rfl⟩ := hm1
  rw [cat_cons, run_seq] at h1
  obtain ⟨w2, s2, c2, hs2, hm2, h2⟩ := Re.run_sound _ _ _ _ _ h1
  simp only [Re.Matches] at hm2
  obtain ⟨_, rfl⟩ := hm2
  rw [cat_cons, run_seq] at h2
  obtain ⟨w3, s3, c3, hs3, hm3, h3⟩ := Re.run_sound _ _ _ _ _ h2
  simp only [Re.Matches] at hm3
  obtain ⟨rfl, rfl⟩ := hm3
  rw [cat_cons, Re.cat, run_last_ez] at h3
  exact ⟨s1, s3, hs1, (Option.some.inj h3).symm⟩

theorem nonblank_of_head (w : Str) (hw : w ≠ []) (h : Stops isSpace w) : trim w ≠ [] := by
  intro ht
  have hall := all_space_of_trim_nil w ht
  cases w with
  | nil => exact hw rfl
  | cons x t =>
    have hx : isSpace x = false := h x (by simp)
    rw [hall x (List.mem_cons_self _ _)] at hx
    exact Bool.noConfusion hx

theorem ignoredEnd_lad (s : Str) (c v : Caps)
    (h : ignoredEnd.run s c (fun _ c' => some c') = some v) : v .lad = c .lad := by
  obtain ⟨r, s4, _, hv⟩ := ignoredEnd_run s c v h
  rw [hv]
  simp [Caps.set]

/-- The optional date group followed by the rest of the pattern, tried at one
position: either no date is captured, or the date is a non-empty word `w` and
the rest of the pattern also matches right after `w`. -/
theorem lad_at_position (s : Str) (c v : Caps) (hc : c .lad = none)
    (h : (Re.seq (.opt (.group .lad (.plus (.notChar ',')))) ignoredEnd).run s c
      (fun _ c' => some c') = some v) :
    v .lad = none ∨ ∃ (w s2 : Str), s = w ++ s2 ∧ w ≠ [] ∧ v .lad = some w ∧
      (ignoredEnd.run s2 c (fun _ c' => some c')).isSome = true := by
  have h' : ((Re.group .lad (.plus (.notChar ','))).run s c
      (fun s' c' => ignoredEnd.run s' c' (fun _ c' => some c'))).or
      (ignoredEnd.run s c (fun _ c' => some c')) = some v := h
  rcases Option.or_eq_some.mp h' with h1 | ⟨_, h2⟩
  · obtain ⟨w, s2, c1, hs, hm, hk⟩ := Re.run_sound _ _ _ _ _ h1
    simp only [Re.Matches] at hm
    obtain ⟨c0, ⟨hwn, _, hc0⟩, hc1⟩ := hm
    rw [hc1, hc0] at hk
    refine Or.inr ⟨w, s2, hs, hwn, ?_, ?_⟩
    · rw [ignoredEnd_lad _ _ _ hk]
      simp [Caps.set]
    · have hcg := Re.run_isSome_congr ignoredEnd s2 c (c.set .lad w)
        (fun _ c' => some c') (fun _ c' => some c') (fun _ _ _ => rfl)
      rw [hcg, hk]
      rfl
  · exact Or.inl (by rw [ignoredEnd_lad _ _ _ h2, hc])

theorem lad_tail_aux (c : Caps) (hc : c .lad = none) : ∀ (s : Str) (v : Caps),
    starGreedy isSpace s (fun s' =>
      (Re.seq (.opt (.group .lad (.plus (.notChar ',')))) ignoredEnd).run s' c
        (fun _ c' => some c')) = some v →
    ∀ l, v .lad = some l → trim l ≠ [] := by
  intro s
  induction s with
  | nil =>
    intro v h l hl
    have h0 : (Re.seq (.opt (.group .lad (.plus (.notChar ',')))) ignoredEnd).run [] c
        (fun _ c' => some c') = some v := h
    rcases lad_at_position _ _ _ hc h0 with hn | ⟨w, s2, hs, hwn, _, _⟩
    · rw [hn] at hl; cases hl
    · cases w with
      | nil => exact absurd rfl hwn
      | cons y w => cases hs
  | cons x t ih =>
    intro v h l hl
    by_cases hx : isSpace x = true
    · rw [starGreedy, if_pos hx] at h
      rcases Option.or_eq_some.mp h with h1 | ⟨h0, h2⟩
      · exact ih v h1 l hl
      · rcases lad_at_position _ _ _ hc h2 with hn | ⟨w, s2, hs, hwn, hlad, hsome⟩
        · rw [hn] at hl; cases hl
        · rw [hlad] at hl
          cases hl
          intro ht
          have hall := all_space_of_trim_nil l ht
          cases l with
          | nil => exact hwn rfl
          | cons y w =>
            rw [List.cons_append] at hs
            injection hs with _ hts
            obtain ⟨v1, hv1⟩ := Option.isSome_iff_exists.mp hsome
            obtain ⟨r, _, hr, _⟩ := ignoredEnd_run s2 c v1 hv1
            have hF : (Re.seq (.opt (.group .lad (.plus (.notChar ',')))) ignoredEnd).run s2 c
                (fun _ c' => some c') = some v1 := by
              rw [run_seq]
              refine run_opt_skip_head _ _ _ _ _ ?_ hv1
              rw [hr]
              simp [Re.run, Cls.test]
            have hstop : Stops isSpace s2 := by
              rw [hr]
              intro z hz
              simp only [List.head?_cons, Option.mem_def, Option.some.injEq] at hz
              subst hz
              decide
            have hgo := starGreedy_head isSpace w s2 (fun s' =>
              (Re.seq (.opt (.group .lad (.plus (.notChar ',')))) ignoredEnd).run s' c
                (fun _ c' => some c')) v1
              (fun z hz => hall z (List.mem_cons_of_mem _ hz)) hstop hF
            rw [← hts, h0] at hgo
            cases hgo
    · rw [starGreedy, if_neg hx] at h
      rcases lad_at_position _ _ _ hc h with hn | ⟨w, s2, hs, hwn, hlad, _⟩
      · rw [hn] at hl; cases hl
      · rw [hlad] at hl
        cases hl
        cases l with
        | nil => exact absurd rfl hwn
        | cons y w =>
          rw [List.cons_append] at hs
          injection hs with hxy _
          refine nonblank_of_head _ hwn ?_
          intro z hz
          simp only [List.head?_cons, Option.mem_def, Option.some.injEq] at hz
          subst hz
          rw [← hxy]
          simpa using hx

theorem lad_tail (s : Str) (c v : Caps) (hc : c .lad = none)
    (h : (Re.seq (.star .space)
      (Re.seq (.opt (.group .lad (.plus (.notChar ',')))) ignoredEnd)).run s c
        (fun _ c' => some c') = some v) :
    ∀ l, v .lad = some l → trim l ≠ [] :=
  lad_tail_aux c hc s v h

theorem ez_tail (s : Str) (c v : Caps)
    (h : (Re.seq (.star .space)
      (Re.seq (.opt (.group .lad (.plus (.notChar ',')))) ignoredEnd)).run s c
        (fun _ c' => some c') = some v) :
    ∃ s4 : Str, v .ez = some ((s4.dropWhile isSpace).takeWhile Cls.dot.test) := by
  rw [run_seq] at h
  obtain ⟨w1, s1, c1, _, _, h1⟩ := Re.run_sound _ _ _ _ _ h
  rw [run_seq] at h1
  obtain ⟨w2, s2, c2, _, _, h2⟩ := Re.run_sound _ _ _ _ _ h1
  obtain ⟨r, s4, _, hv⟩ := ignoredEnd_run s2 c2 v h2
  exact ⟨s4, by rw [hv]; simp [Caps.set]⟩

theorem run_seq_keeps_lad (a b : Re) (s : Str) (c : Caps) (k : Str → Caps → Option Caps)
    (v : Caps) (ha : ∀ w c c', a.Matches w c c' → c' .lad = c .lad) (hc : c .lad = none)
    (h : (Re.seq a b).run s c k = some v) :
    ∃ (s' : Str) (c' : Caps), c' .lad = none ∧ b.run s' c' k = some v := by
  rw [run_seq] at h
  obtain ⟨w, s', c', _, hm, hk⟩ := Re.run_sound _ _ _ _ _ h
  exact ⟨s', c', by rw [ha w c c' hm, hc], hk⟩

theorem keeps_lit (w0 : Str) : ∀ w c c', (Re.lit w0).Matches w c c' → c' .lad = c .lad :=
  fun _ _ _ h => by rw [h.2]

theorem keeps_star (cls : Cls) : ∀ w c c', (Re.star cls).Matches w c c' → c' .lad = c .lad :=
  fun _ _ _ h => by rw [h.2]

theorem keeps_lazyStar (cls : Cls) :
    ∀ w c c', (Re.lazyStar cls).Matches w c c' → c' .lad = c .lad :=
  fun _ _ _ h => by rw [h.2]

theorem keeps_plus (cls : Cls) : ∀ w c c', (Re.plus cls).Matches w c c' → c' .lad = c .lad :=
  fun _ _ _ h => by rw [h.2.2]

theorem keeps_group (g : Grp) (r : Re) (hg : g ≠ .lad)
    (hr : ∀ w c c', r.Matches w c c' → c' .lad = c .lad) :
    ∀ w c c', (Re.group g r).Matches w c c' → c' .lad = c .lad := by
  intro w c c' h
  obtain ⟨c1, hm, rfl⟩ := h
  rw [← hr w c c1 hm]
  simp [Caps.set, Ne.symm hg]

theorem keeps_salutation : ∀ w c c', salutation.Matches w c c' → c' .lad = c .lad := by
  intro w c c' h
  rcases h with h | h
  · exact keeps_lit _ w c c' h
  · exact keeps_lit _ w c c' h

theorem search_run (r : Re) : ∀ (s : Str) (v : Caps), r.search s = some v →
    ∃ s0 : Str, r.run s0 Caps.empty (fun _ c => some c) = some v := by
  intro s
  induction s with
  | nil => exact fun v h => ⟨[], h⟩
  | cons x t ih =>
    intro v h
    simp only [Re.search] at h
    rcases Option.or_eq_some.mp h with h1 | ⟨_, h2⟩
    · exact ⟨_, h1⟩
    · exact ih v h2

/-- Where a match of the pattern of `parseIgnoredUser` stands once the label
`LETZTES_AENDERUNGSDATUM:` has been read: no date captured yet, and the rest of
the pattern still to run. -/
theorem ignoredPattern_tail (line : Str) (v : Caps) (h : ignoredPattern.search line = some v) :
    ∃ (s : Str) (c : Caps), c .lad = none ∧
      (Re.seq (.star .space)
        (Re.seq (.opt (.group .lad (.plus (.notChar ',')))) ignoredEnd)).run s c
          (fun _ c' => some c') = some v := by
  obtain ⟨s0, h0⟩ := search_run _ _ _ h
  unfold ignoredPattern at h0
  have hc0 : Caps.empty .lad = none := rfl
  rw [cat_cons] at h0
  obtain ⟨s1, c1, hc1, h1⟩ := run_seq_keeps_lad _ _ _ _ _ _ (keeps_lit _) hc0 h0
  rw [cat_cons] at h1
  obtain ⟨s2, c2, hc2, h2⟩ := run_seq_keeps_lad _ _ _ _ _ _ (keeps_plus _) hc1 h1
  rw [cat_cons] at h2
  obtain ⟨s3, c3, hc3, h3⟩ := run_seq_keeps_lad _ _ _ _ _ _
    (keeps_group _ _ (by decide) (keeps_plus _)) hc2 h2
  rw [cat_cons] at h3
  obtain ⟨s4, c4, hc4, h4⟩ := run_seq_keeps_lad _ _ _ _ _ _ (keeps_star _) hc3 h3
  rw [cat_cons] at h4
  obtain ⟨s5, c5, hc5, h5⟩ := run_seq_keeps_lad _ _ _ _ _ _ (keeps_lit _) hc4 h4
  rw [cat_cons] at h5
  obtain ⟨s6, c6, hc6, h6⟩ := run_seq_keeps_lad _ _ _ _ _ _ (keeps_star _) hc5 h5
  rw [cat_cons] at h6
  obtain ⟨s7, c7, hc7, h7⟩ := run_seq_keeps_lad _ _ _ _ _ _
    (keeps_group _ _ (by decide) keeps_salutation) hc6 h6
  rw [cat_cons] at h7
  obtain ⟨s8, c8, hc8, h8⟩ := run_seq_keeps_lad _ _ _ _ _ _ (keeps_plus _) hc7 h7
  rw [cat_cons] at h8
  obtain ⟨s9, c9, hc9, h9⟩ := run_seq_keeps_lad _ _ _ _ _ _
    (keeps_group _ _ (by decide) (keeps_plus _)) hc8 h8
  rw [cat_cons] at h9
  obtain ⟨s10, c10, hc10, h10⟩ := run_seq_keeps_lad _ _ _ _ _ _ (keeps_lit _) hc9 h9
  rw [cat_cons] at h10
  obtain ⟨s11, c11, hc11, h11⟩ := run_seq_keeps_lad _ _ _ _ _ _ (keeps_lazyStar _) hc10 h10
  rw [cat_cons] at h11
  obtain ⟨s12, c12, hc12, h12⟩ := run_seq_keeps_lad _ _ _ _ _ _ (keeps_lit _) hc11 h11
  exact ⟨s12, c12, hc12, h12⟩

theorem goodOptional_trimOrNull (o : Option Str)
    (h : ∀ l, o = some l → l = [] ∨ trim l ≠ []) : GoodOptional (trimOrNull o) := by
  intro x hx
  cases o with
  | none => cases hx
  | some l =>
    unfold trimOrNull at hx
    cases l with
    | nil => cases hx
    | cons y t =>
      rcases h _ rfl with h0 | h0
      · cases h0
      · simp only [List.isEmpty_cons, Bool.false_eq_true, if_false, Option.some.injEq] at hx
        subst hx
        exact ⟨h0, trim_trim _⟩

theorem parseIgnoredUser_fields (line : Str) (u : IgnoredParse)
    (h : parseIgnoredUser line = .ok (some u)) :
    GoodOptional u.letztes_aenderungsdatum ∧ GoodOptional u.erfassungszeitpunkt := by
  unfold parseIgnoredUser at h
  cases hs : ignoredPattern.search line with
  | none => rw [hs] at h; cases h
  | some v =>
    rw [hs] at h
    obtain ⟨pre, w, post, hl, hm⟩ := Re.search_sound _ _ _ hs
    obtain ⟨e, a, n, he, ha, hinf, h1, h2, h3⟩ := ignoredPattern_matches w v hm
    simp only [h1, h2, h3, trimOf] at h
    have hu : u = ⟨trim e, trim a, trim n, trimOrNull (v .lad), trimOrNull (v .ez)⟩ := by
      cases h; rfl
    obtain ⟨s, c, hc, ht⟩ := ignoredPattern_tail line v hs
    rw [hu]
    constructor
    · exact goodOptional_trimOrNull _ (fun l hl => Or.inr (lad_tail s c v hc ht l hl))
    · apply goodOptional_trimOrNull
      intro l hl
      obtain ⟨s4, h4⟩ := ez_tail s c v ht
      rw [h4] at hl
      cases hl
      by_cases hn : (s4.dropWhile isSpace).takeWhile Cls.dot.test = []
      · exact Or.inl hn
      · refine Or.inr (nonblank_of_head _ hn ?_)
        have hst := stops_dropWhile isSpace s4
        cases hd : s4.dropWhile isSpace with
        | nil => rw [hd] at hn; exact absurd rfl hn
        | cons y t =>
          rw [hd] at hst hn
          intro z hz
          rw [List.takeWhile_cons] at hz hn
          by_cases hy : Cls.dot.test y = true
          · rw [if_pos hy] at hz
            simp only [List.head?_cons, Option.mem_def, Option.some.injEq] at hz
            subst hz
            exact hst _ (by simp)
          · rw [if_neg hy] at hn
            exact absurd rfl hn

theorem StepShape.ignored_fields {st : Scan} {line : Str} {st' : Scan}
    (h : StepShape st line st')
    (hg : ∀ r ∈ st.data.ignorierte_nutzer,
      GoodOptional r.letztes_aenderungsdatum ∧ GoodOptional r.erfassungszeitpunkt) :
    ∀ r ∈ st'.data.ignorierte_nutzer,
      GoodOptional r.letztes_aenderungsdatum ∧ GoodOptional r.erfassungszeitpunkt := by
  cases h with
  | marker => exact hg
  | skip => exact hg
  | org => exact hg
  | gp => exact hg
  | lad => exact hg
  | ez => exact hg
  | single => exact hg
  | multi => exact hg
  | group => exact hg
  | ignored r hm hi hs hh hp =>
    intro x hx
    rcases List.mem_append.mp hx with hx | hx
    · exact hg x hx
    · rw [List.mem_singleton.mp hx]
      exact parseIgnoredUser_fields line r hp

/-- C19 (optional fields of ignored records): for every input, `analyzeLogfile`
returns collections in which each ignored-user record has
`letztes_aenderungsdatum` either `null` or a non-empty string that is its own
trim, and likewise `erfassungszeitpunkt`; neither field is the empty string. -/
theorem ignored_optional_fields_good (logText : Str) :
    ∃ d : Data, analyzeLogfile logText = .ok d ∧
      ∀ r ∈ d.ignorierte_nutzer,
        GoodOptional r.letztes_aenderungsdatum ∧ GoodOptional r.erfassungszeitpunkt ∧
        r.letztes_aenderungsdatum ≠ some [] ∧ r.erfassungszeitpunkt ≠ some [] := by
  obtain ⟨st, h, hg⟩ := scanLines_induct
    (fun st => ∀ r ∈ st.data.ignorierte_nutzer,
      GoodOptional r.letztes_aenderungsdatum ∧ GoodOptional r.erfassungszeitpunkt)
    (fun _ _ _ hg hs => hs.ignored_fields hg) (splitLines logText) Scan.init
    (by intro r hr; simp [Scan.init, Data.empty] at hr)
  refine ⟨st.data, analyzeLogfile_eq logText st h, ?_⟩
  intro r hr
  obtain ⟨h1, h2⟩ := hg r hr
  exact ⟨h1, h2, fun h0 => (h1 _ h0).1 rfl, fun h0 => (h2 _ h0).1 rfl⟩


/-! ## Swapping two adjacent lines -/

theorem Data.append_empty (d : Data) : d.append Data.empty = d := by
  cases d
  simp [Data.append, Data.empty]

theorem Data.append_assoc (a b c : Data) : (a.append b).append c = a.append (b.append c) := by
  simp [Data.append]

/-- The records a line adds do not depend on the records already collected:
one iteration started with collections `d` ends with `d` followed by what the
same iteration adds to empty collections. -/
theorem step_data (st : Scan) (line : Str) (d : Data) :
    step { st with data := d } line =
      (step { st with data := Data.empty } line).map
        (fun s => { s with data := d.append s.data }) := by
  unfold step
  simp only []
  by_cases m1 : includes line markerIncludedLad = true
  · rw [if_pos m1, if_pos m1]
    simp [Except.map, Scan.setFlags, Data.append_empty]
  rw [if_neg m1, if_neg m1]
  by_cases m2 : includes line markerIncludedEz = true
  · rw [if_pos m2, if_pos m2]
    simp [Except.map, Scan.setFlags, Data.append_empty]
  rw [if_neg m2, if_neg m2]
  by_cases m3 : includes line markerIgnored = true
  · rw [if_pos m3, if_pos m3]
    simp [Except.map, Scan.setFlags, Data.append_empty]
  rw [if_neg m3, if_neg m3]
  by_cases m4 : includes line markerSingle = true
  · rw [if_pos m4, if_pos m4]
    simp [Except.map, Scan.setFlags, Data.append_empty]
  rw [if_neg m4, if_neg m4]
  by_cases m5 : includes line markerMulti = true
  · rw [if_pos m5, if_pos m5]
    simp [Except.map, Scan.setFlags, Data.append_empty]
  rw [if_neg m5, if_neg m5]
  by_cases m6 : includes line markerGroup = true
  · rw [if_pos m6, if_pos m6]
    simp [Except.map, Scan.setFlags, Data.append_empty]
  rw [if_neg m6, if_neg m6]
  by_cases i1 : includes line " included based on LETZTES_AENDERUNGSDATUM:".toList = true
  · rw [if_pos i1, if_pos i1]
    rcases parseIncludedUser_spec line .LETZTES_AENDERUNGSDATUM with h | ⟨u, h, _⟩
    · rw [h]
      simp [Except.map, Data.append_empty, bind, Except.bind, pure, Except.pure]
    · rw [h]
      simp [Except.map, Data.append, Data.empty, bind, Except.bind, pure, Except.pure]
  rw [if_neg i1, if_neg i1]
  by_cases i2 : includes line " included based on ERFASSUNGSZEITPUNKT:".toList = true
  · rw [if_pos i2, if_pos i2]
    rcases parseIncludedUser_spec line .ERFASSUNGSZEITPUNKT with h | ⟨u, h, _⟩
    · rw [h]
      simp [Except.map, Data.append_empty, bind, Except.bind, pure, Except.pure]
    · rw [h]
      simp [Except.map, Data.append, Data.empty, bind, Except.bind, pure, Except.pure]
  rw [if_neg i2, if_neg i2]
  by_cases s1 : st.inIgnoredSection = true
  · rw [if_pos s1, if_pos s1]
    by_cases o1 : startsWith (trim line) "Organization:".toList = true
    · rw [if_pos o1, if_pos o1]
      simp [Except.map, Data.append_empty]
    rw [if_neg o1, if_neg o1]
    by_cases o2 : includes line "Ignorierter Nutzer:".toList = true
    · rw [if_pos o2, if_pos o2]
      rcases parseIgnoredUser_spec line with h | ⟨u, h, _⟩
      · rw [h]
        simp [Except.map, Data.append_empty, bind, Except.bind, pure, Except.pure]
      · rw [h]
        simp [Except.map, Data.append, Data.empty, bind, Except.bind, pure, Except.pure]
    rw [if_neg o2, if_neg o2]
    simp [Except.map, Data.append_empty]
  rw [if_neg s1, if_neg s1]
  by_cases s2 : st.inSingleSection = true
  · rw [if_pos s2, if_pos s2]
    by_cases g1 : startsWith (trim line) "Geschäftspartner:".toList = true
    · rw [if_pos g1, if_pos g1]
      simp [Except.map, Data.append_empty]
    rw [if_neg g1, if_neg g1]
    by_cases b1 : startsWith (trim line) "Benutzer:".toList = true
    · rw [if_pos b1, if_pos b1]
      rcases parseBenutzer_spec (trim line) with h | ⟨u, h, _⟩
      · rw [h]
        simp [Except.map, Data.append_empty, bind, Except.bind, pure, Except.pure]
      · rw [h]
        simp [Except.map, Data.append, Data.empty, bind, Except.bind, pure, Except.pure]
    rw [if_neg b1, if_neg b1]
    simp [Except.map, Data.append_empty]
  rw [if_neg s2, if_neg s2]
  by_cases s3 : st.inMultiSection = true
  · rw [if_pos s3, if_pos s3]
    by_cases g1 : startsWith (trim line) "Geschäftspartner:".toList = true
    · rw [if_pos g1, if_pos g1]
      simp [Except.map, Data.append_empty]
    rw [if_neg g1, if_neg g1]
    by_cases b1 : startsWith (trim line) "Benutzer:".toList = true
    · rw [if_pos b1, if_pos b1]
      rcases parseBenutzer_spec (trim line) with h | ⟨u, h, _⟩
      · rw [h]
        simp [Except.map, Data.append_empty, bind, Except.bind, pure, Except.pure]
      · rw [h]
        simp [Except.map, Data.append, Data.empty, bind, Except.bind, pure, Except.pure]
    rw [if_neg b1, if_neg b1]
    simp [Except.map, Data.append_empty]
  rw [if_neg s3, if_neg s3]
  by_cases d1 : (startsWith (trim line) "Benutzer:".toList &&
      includes (trim line) " DN: ".toList) = true
  · rw [if_pos d1, if_pos d1]
    rcases parseUsersAddedToGroup_spec (trim line) with h | ⟨u, h, _⟩
    · rw [h]
      simp [Except.map, Data.append_empty, bind, Except.bind, pure, Except.pure]
    · rw [h]
      simp [Except.map, Data.append, Data.empty, bind, Except.bind, pure, Except.pure]
  rw [if_neg d1, if_neg d1]
  simp [Except.map, Data.append_empty]

theorem step_append (st : Scan) (line : Str) (sa : Scan) (h : step st line = .ok sa) :
    ∃ δ : Data, δ.total ≤ 1 ∧ sa.data = st.data.append δ ∧
      ∀ d, step { st with data := d } line = .ok { sa with data := d.append δ } := by
  obtain ⟨se, he, hs⟩ := step_shape { st with data := Data.empty } line
  have ht := hs.total
  have hall : ∀ d, step { st with data := d } line =
      .ok { se with data := d.append se.data } := by
    intro d
    rw [step_data, he]
    rfl
  have hst : step st line = .ok { se with data := st.data.append se.data } := hall st.data
  rw [h] at hst
  cases hst
  refine ⟨se.data, ?_, rfl, hall⟩
  have h0 : Data.empty.total = 0 := rfl
  simp only [h0] at ht
  omega

theorem scanLines_data : ∀ (lines : List Str) (st sf : Scan), scanLines st lines = .ok sf →
    ∃ y : Data, sf.data = st.data.append y ∧
      ∀ d, scanLines { st with data := d } lines = .ok { sf with data := d.append y } := by
  intro lines
  induction lines with
  | nil =>
    intro st sf h
    cases h
    exact ⟨Data.empty, (Data.append_empty _).symm, fun d => by rw [Data.append_empty]; rfl⟩
  | cons line rest ih =>
    intro st sf h
    obtain ⟨sa, ha, _⟩ := step_shape st line
    simp only [scanLines, ha] at h
    obtain ⟨δ, _, hδ, hall⟩ := step_append st line sa ha
    obtain ⟨y, hy, hally⟩ := ih sa sf h
    refine ⟨δ.append y, by rw [hy, hδ, Data.append_assoc], fun d => ?_⟩
    simp only [scanLines, hall d]
    rw [hally (d.append δ), Data.append_assoc]

theorem scanLines_append (pre rest : List Str) : ∀ (st sm : Scan),
    scanLines st pre = .ok sm → scanLines st (pre ++ rest) = scanLines sm rest := by
  induction pre with
  | nil =>
    intro st sm h
    cases h
    rfl
  | cons line pre ih =>
    intro st sm h
    obtain ⟨sa, ha, _⟩ := step_shape st line
    simp only [scanLines, ha] at h
    simp only [List.cons_append, scanLines, ha]
    exact ih sa sm h

theorem scan_eq_of_control (s t : Scan) (h : s.control = t.control) :
    s = { t with data := s.data } := by
  cases s
  cases t
  simp only [Scan.control, Prod.mk.injEq] at h
  obtain ⟨rfl, rfl, rfl, rfl, rfl⟩ := h
  rfl

theorem perm_swap_middle {α : Type} (s a b y : List α) :
    (((s ++ a) ++ b) ++ y).Perm (((s ++ b) ++ a) ++ y) := by
  refine List.Perm.append_right y ?_
  rw [List.append_assoc, List.append_assoc]
  exact List.Perm.append_left s List.perm_append_comm

/-- A line that is no banner and does not start, once trimmed, with one of the
two header labels leaves the remembered headers and the section flags alone. -/
theorem plain_line_keeps_control (st sa : Scan) (line : Str) (hm : isMarker line = false)
    (ho : startsWith (trim line) "Organization:".toList = false)
    (hg : startsWith (trim line) "Geschäftspartner:".toList = false)
    (h : step st line = .ok sa) : sa.control = st.control := by
  obtain ⟨st', h1, hs⟩ := step_shape st line
  rw [h] at h1
  cases h1
  cases hs with
  | marker _ _ _ hm2 => rw [hm] at hm2; cases hm2
  | skip => rfl
  | lad => rfl
  | ez => rfl
  | org _ _ _ hh => rw [ho] at hh; cases hh
  | ignored => rfl
  | gp _ _ _ _ hh => rw [hg] at hh; cases hh
  | single => rfl
  | multi => rfl
  | group => rfl

/-- C15 (swapping adjacent lines): let two inputs split into the same lines
except that two adjacent lines `a`, `b` are exchanged, and let neither line
change the remembered headers or the section flags when it is processed in the
state `st` reached before them. Then each line adds the same records in either
order (`δa` for `a`, `δb` for `b`, at most one record each), both runs succeed,
the first returns the records before, then `δa`, `δb` and the records of the
later lines, the second the same with `δb` before `δa`; so each of the six
collections holds the same records in both results, up to the order of the two
lines' records. -/
theorem swap_adjacent_lines (t1 t2 : Str) (pre post : List Str) (a b : Str)
    (st sa sb : Scan)
    (h1 : splitLines t1 = pre ++ a :: b :: post)
    (h2 : splitLines t2 = pre ++ b :: a :: post)
    (hpre : scanLines Scan.init pre = .ok st)
    (ha : step st a = .ok sa) (hb : step st b = .ok sb)
    (hka : sa.control = st.control) (hkb : sb.control = st.control) :
    ∃ δa δb y d1 d2 : Data, δa.total ≤ 1 ∧ δb.total ≤ 1 ∧
      sa.data = st.data.append δa ∧ sb.data = st.data.append δb ∧
      step sa b = .ok { sa with data := sa.data.append δb } ∧
      step sb a = .ok { sb with data := sb.data.append δa } ∧
      analyzeLogfile t1 = .ok d1 ∧ analyzeLogfile t2 = .ok d2 ∧
      d1 = ((st.data.append δa).append δb).append y ∧
      d2 = ((st.data.append δb).append δa).append y ∧
      d1.SameRecords d2 := by
  obtain ⟨δa, hta, hda, halla⟩ := step_append st a sa ha
  obtain ⟨δb, htb, hdb, hallb⟩ := step_append st b sb hb
  have ea := scan_eq_of_control sa st hka
  have eb := scan_eq_of_control sb st hkb
  have hab : step sa b = .ok { sa with data := sa.data.append δb } := by
    have := hallb sa.data
    rw [← ea] at this
    rw [this, eb, ea]
  have hba : step sb a = .ok { sb with data := sb.data.append δa } := by
    have := halla sb.data
    rw [← eb] at this
    rw [this, ea, eb]
  obtain ⟨sp, hp, _⟩ := scanLines_induct (fun _ => True) (fun _ _ _ _ _ => trivial)
    post st trivial
  obtain ⟨y, hy, hally⟩ := scanLines_data post st sp hp
  have r1 : scanLines Scan.init (pre ++ a :: b :: post) =
      .ok { sp with data := ((st.data.append δa).append δb).append y } := by
    rw [scanLines_append pre _ Scan.init st hpre]
    simp only [scanLines, ha, hab]
    have := hally (sa.data.append δb)
    rw [ea] at this ⊢
    rw [← hda]
    exact this
  have r2 : scanLines Scan.init (pre ++ b :: a :: post) =
      .ok { sp with data := ((st.data.append δb).append δa).append y } := by
    rw [scanLines_append pre _ Scan.init st hpre]
    simp only [scanLines, hb, hba]
    have := hally (sb.data.append δa)
    rw [eb] at this ⊢
    rw [← hdb]
    exact this
  refine ⟨δa, δb, y, _, _, hta, htb, hda, hdb, hab, hba,
    analyzeLogfile_eq t1 _ (h1 ▸ r1), analyzeLogfile_eq t2 _ (h2 ▸ r2), rfl, rfl, ?_⟩
  exact ⟨perm_swap_middle _ _ _ _, perm_swap_middle _ _ _ _, perm_swap_middle _ _ _ _,
    perm_swap_middle _ _ _ _, perm_swap_middle _ _ _ _, perm_swap_middle _ _ _ _⟩

/-- C15, at a concrete input: two user lines of the single-user tenant section,
after its banner and a `Geschäftspartner:` header, in both orders. -/
theorem swap_adjacent_lines_witness :
    splitLines ("========= Mandanten mit einem Benutzer =========\nGeschäftspartner: GP1\n" ++
      "Benutzer: a@x.com | Herrn Eins, Emil\nBenutzer: b@x.com | Frau Zwei, Eva").toList =
      ["========= Mandanten mit einem Benutzer =========".toList,
        "Geschäftspartner: GP1".toList] ++
      "Benutzer: a@x.com | Herrn Eins, Emil".toList ::
        "Benutzer: b@x.com | Frau Zwei, Eva".toList :: [] ∧
    scanLines Scan.init ["========= Mandanten mit einem Benutzer =========".toList,
        "Geschäftspartner: GP1".toList] =
      .ok { Scan.init with currentGp := some "GP1".toList, inSingleSection := true } ∧
    ∃ δa δb y d1 d2 : Data, δa.total ≤ 1 ∧ δb.total ≤ 1 ∧
      ({ Scan.init with
          currentGp := some "GP1".toList, inSingleSection := true,
          data := { Data.empty with mandanten_ein_nutzer :=
            [{ email := "a@x.com".toList, anrede := "Herrn".toList,
               name := "Eins, Emil".toList, geschaeftspartner := some "GP1".toList }] } }
        : Scan).data =
        ({ Scan.init with currentGp := some "GP1".toList, inSingleSection := true }
          : Scan).data.append δa ∧
      ({ Scan.init with
          currentGp := some "GP1".toList, inSingleSection := true,
          data := { Data.empty with mandanten_ein_nutzer :=
            [{ email := "b@x.com".toList, anrede := "Frau".toList,
               name := "Zwei, Eva".toList, geschaeftspartner := some "GP1".toList }] } }
        : Scan).data =
        ({ Scan.init with currentGp := some "GP1".toList, inSingleSection := true }
          : Scan).data.append δb ∧
      step { Scan.init with
          currentGp := some "GP1".toList, inSingleSection := true,
          data := { Data.empty with mandanten_ein_nutzer :=
            [{ email := "a@x.com".toList, anrede := "Herrn".toList,
               name := "Eins, Emil".toList, geschaeftspartner := some "GP1".toList }] } }
        "Benutzer: b@x.com | Frau Zwei, Eva".toList =
        .ok { Scan.init with
          currentGp := some "GP1".toList, inSingleSection := true,
          data := Data.append { Data.empty with mandanten_ein_nutzer :=
            [{ email := "a@x.com".toList, anrede := "Herrn".toList,
               name := "Eins, Emil".toList, geschaeftspartner := some "GP1".toList }] } δb } ∧
      step { Scan.init with
          currentGp := some "GP1".toList, inSingleSection := true,
          data := { Data.empty with mandanten_ein_nutzer :=
            [{ email := "b@x.com".toList, anrede := "Frau".toList,
               name := "Zwei, Eva".toList, geschaeftspartner := some "GP1".toList }] } }
        "Benutzer: a@x.com | Herrn Eins, Emil".toList =
        .ok { Scan.init with
          currentGp := some "GP1".toList, inSingleSection := true,
          data := Data.append { Data.empty with mandanten_ein_nutzer :=
            [{ email := "b@x.com".toList, anrede := "Frau".toList,
               name := "Zwei, Eva".toList, geschaeftspartner := some "GP1".toList }] } δa } ∧
      analyzeLogfile ("========= Mandanten mit einem Benutzer =========\n" ++
        "Geschäftspartner: GP1\n" ++
        "Benutzer: a@x.com | Herrn Eins, Emil\nBenutzer: b@x.com | Frau Zwei, Eva").toList =
        .ok d1 ∧
      analyzeLogfile ("========= Mandanten mit einem Benutzer =========\n" ++
        "Geschäftspartner: GP1\n" ++
        "Benutzer: b@x.com | Frau Zwei, Eva\nBenutzer: a@x.com | Herrn Eins, Emil").toList =
        .ok d2 ∧
      d1 = ((({ Scan.init with currentGp := some "GP1".toList, inSingleSection := true }
          : Scan).data.append δa).append δb).append y ∧
      d2 = ((({ Scan.init with currentGp := some "GP1".toList, inSingleSection := true }
          : Scan).data.append δb).append δa).append y ∧
      d1.SameRecords d2 :=
  ⟨by decide, by decide,
    swap_adjacent_lines
      ("========= Mandanten mit einem Benutzer =========\nGeschäftspartner: GP1\n" ++
        "Benutzer: a@x.com | Herrn Eins, Emil\nBenutzer: b@x.com | Frau Zwei, Eva").toList
      ("========= Mandanten mit einem Benutzer =========\nGeschäftspartner: GP1\n" ++
        "Benutzer: b@x.com | Frau Zwei, Eva\nBenutzer: a@x.com | Herrn Eins, Emil").toList
      ["========= Mandanten mit einem Benutzer =========".toList,
        "Geschäftspartner: GP1".toList] []
      "Benutzer: a@x.com | Herrn Eins, Emil".toList
      "Benutzer: b@x.com | Frau Zwei, Eva".toList
      { Scan.init with currentGp := some "GP1".toList, inSingleSection := true }
      { Scan.init with
          currentGp := some "GP1".toList, inSingleSection := true,
          data := { Data.empty with mandanten_ein_nutzer :=
            [{ email := "a@x.com".toList, anrede := "Herrn".toList,
               name := "Eins, Emil".toList, geschaeftspartner := some "GP1".toList }] } }
      { Scan.init with
          currentGp := some "GP1".toList, inSingleSection := true,
          data := { Data.empty with mandanten_ein_nutzer :=
            [{ email := "b@x.com".toList, anrede := "Frau".toList,
               name := "Zwei, Eva".toList, geschaeftspartner := some "GP1".toList }] } }
      (by decide) (by decide) (by decide) (by decide) (by decide) rfl rfl⟩


/-! ## Lines without a recognised salutation -/

/-- A match of a pattern that begins like the three salutation-bearing patterns
begins with a match of their common head. -/
theorem head_of_matches (label : Str) (rest : Re) (w : Str) (c v : Caps)
    (h : (Re.seq (.lit label) (.seq (.plus .space) (.seq (.group .email (.plus .notSpace))
      (.seq (.star .space) (.seq (.lit "|".toList) (.seq (.star .space)
      (.seq (.group .anrede salutation) (.seq (.plus .space) rest)))))))).Matches w c v) :
    ∃ w1 w2, w = w1 ++ w2 ∧ (salutationHead label).Matches w1 c c := by
  simp only [Re.Matches, salutation] at h
  obtain ⟨l0, _, c0, rfl, ⟨hl0, hc0⟩, h⟩ := h
  obtain ⟨w1, _, _, rfl, ⟨hw1n, hw1, rfl⟩, h⟩ := h
  obtain ⟨e, _, _, rfl, ⟨_, ⟨hen, he, rfl⟩, rfl⟩, h⟩ := h
  obtain ⟨w2, _, _, rfl, ⟨hw2, rfl⟩, h⟩ := h
  obtain ⟨_, _, _, rfl, ⟨rfl, rfl⟩, h⟩ := h
  obtain ⟨w3, _, _, rfl, ⟨hw3, rfl⟩, h⟩ := h
  obtain ⟨a, _, _, rfl, ⟨c1, ha, rfl⟩, h⟩ := h
  obtain ⟨w4, r, _, rfl, ⟨hw4n, hw4, rfl⟩, h⟩ := h
  refine ⟨label ++ (w1 ++ (e ++ (w2 ++ ("|".toList ++ (w3 ++ (a ++ w4)))))), r, ?_, ?_⟩
  · rw [hl0]
    simp only [List.append_assoc]
  · simp only [salutationHead, Re.cat, Re.Matches, salutation]
    refine ⟨label, _, _, rfl, ⟨rfl, rfl⟩, w1, _, _, rfl, ⟨hw1n, hw1, rfl⟩, e, _, _, rfl,
      ⟨hen, he, rfl⟩, w2, _, _, rfl, ⟨hw2, rfl⟩, "|".toList, _, _, rfl, ⟨rfl, rfl⟩,
      w3, _, _, rfl, ⟨hw3, rfl⟩, a, w4, _, rfl, ?_, ⟨hw4n, hw4, rfl⟩⟩
    rcases ha with ⟨rfl, _⟩ | ⟨rfl, _⟩
    · exact Or.inl ⟨rfl, rfl⟩
    · exact Or.inr ⟨rfl, rfl⟩

theorem hasPart_of_matches (r : Re) (pre w post : Str) (c c' : Caps) (h : r.Matches w c c') :
    hasPart r (pre ++ w ++ post) = true :=
  r.search_complete pre w post c c' h

theorem hasPart_head_of_search (label : Str) (rest : Re) (line : Str) (v : Caps)
    (h : (Re.seq (.lit label) (.seq (.plus .space) (.seq (.group .email (.plus .notSpace))
      (.seq (.star .space) (.seq (.lit "|".toList) (.seq (.star .space)
      (.seq (.group .anrede salutation) (.seq (.plus .space) rest)))))))).search line = some v) :
    hasPart (salutationHead label) line = true := by
  obtain ⟨pre, w, post, hl, hm⟩ := Re.search_sound _ _ _ h
  obtain ⟨w1, w2, hw, hh⟩ := head_of_matches label rest w _ v hm
  have := hasPart_of_matches (salutationHead label) pre w1 (w2 ++ post) _ _ hh
  rw [hl, hw]
  simpa only [List.append_assoc] using this

theorem parseIncludedUser_no_head (line : Str) (kind : Kind)
    (h : hasPart (salutationHead "User".toList) line = false) :
    parseIncludedUser line kind = .ok none := by
  rw [parseIncludedUser_none_iff_search]
  cases hs : (includedPattern kind).search line with
  | none => rfl
  | some v =>
    have := hasPart_head_of_search "User".toList _ line v hs
    rw [h] at this
    cases this

theorem parseIgnoredUser_no_head (line : Str)
    (h : hasPart (salutationHead "Ignorierter Nutzer:".toList) line = false) :
    parseIgnoredUser line = .ok none := by
  unfold parseIgnoredUser
  cases hs : ignoredPattern.search line with
  | none => rfl
  | some v =>
    have := hasPart_head_of_search "Ignorierter Nutzer:".toList _ line v hs
    rw [h] at this
    cases this

theorem parseBenutzer_no_head (s : Str)
    (h : hasPart (salutationHead "Benutzer:".toList) s = false) :
    parseBenutzer s = .ok none := by
  unfold parseBenutzer
  cases hs : benutzerPattern.search s with
  | none => rfl
  | some v =>
    have := hasPart_head_of_search "Benutzer:".toList _ s v hs
    rw [h] at this
    cases this

theorem parseUsersAddedToGroup_no_head (s : Str) (h : hasPart dnHead s = false) :
    parseUsersAddedToGroup s = .ok none := by
  unfold parseUsersAddedToGroup
  cases hs : groupPattern.search s with
  | none => rfl
  | some v =>
    obtain ⟨pre, w, post, hl, hm⟩ := Re.search_sound _ _ _ hs
    simp only [groupPattern, Re.cat, Re.Matches] at hm
    obtain ⟨_, _, _, rfl, ⟨rfl, rfl⟩, hm⟩ := hm
    obtain ⟨w1, _, _, rfl, ⟨hw1n, hw1, rfl⟩, hm⟩ := hm
    obtain ⟨e, _, _, rfl, ⟨_, ⟨hen, he, rfl⟩, rfl⟩, hm⟩ := hm
    obtain ⟨w2, _, _, rfl, ⟨hw2, rfl⟩, hm⟩ := hm
    obtain ⟨_, _, _, rfl, ⟨rfl, rfl⟩, hm⟩ := hm
    obtain ⟨w3, _, _, rfl, ⟨hw3n, hw3, rfl⟩, hm⟩ := hm
    obtain ⟨_, _, _, rfl, ⟨rfl, rfl⟩, hm⟩ := hm
    obtain ⟨w4, d, _, rfl, ⟨hw4n, hw4, rfl⟩, hm⟩ := hm
    have hh : dnHead.Matches ("Benutzer:".toList ++ (w1 ++ (e ++ (w2 ++ ("|".toList ++
        (w3 ++ ("DN:".toList ++ w4))))))) Caps.empty Caps.empty := by
      simp only [dnHead, Re.cat, Re.Matches]
      exact ⟨_, _, _, rfl, ⟨rfl, rfl⟩, w1, _, _, rfl, ⟨hw1n, hw1, rfl⟩, e, _, _, rfl,
        ⟨hen, he, rfl⟩, w2, _, _, rfl, ⟨hw2, rfl⟩, "|".toList, _, _, rfl, ⟨rfl, rfl⟩,
        w3, _, _, rfl, ⟨hw3n, hw3, rfl⟩, "DN:".toList, w4, _, rfl, ⟨rfl, rfl⟩,
        ⟨hw4n, hw4, rfl⟩⟩
    have := hasPart_of_matches dnHead pre _ (d ++ post) _ _ hh
    rw [hl] at h
    simp only [List.append_assoc] at this h
    rw [h] at this
    cases this

theorem parseUsersAddedToGroup_of_head (s : Str) (h : hasPart dnHead s = true) :
    ∃ r, parseUsersAddedToGroup s = .ok (some r) := by
  obtain ⟨pre, w, post, v, hl, hm⟩ := (Re.search_isSome_iff dnHead s).mp h
  simp only [dnHead, Re.cat, Re.Matches] at hm
  obtain ⟨_, _, _, rfl, ⟨rfl, rfl⟩, hm⟩ := hm
  obtain ⟨w1, _, _, rfl, ⟨hw1n, hw1, rfl⟩, hm⟩ := hm
  obtain ⟨e, _, _, rfl, ⟨hen, he, rfl⟩, hm⟩ := hm
  obtain ⟨w2, _, _, rfl, ⟨hw2, rfl⟩, hm⟩ := hm
  obtain ⟨_, _, _, rfl, ⟨rfl, rfl⟩, hm⟩ := hm
  obtain ⟨w3, _, _, rfl, ⟨hw3n, hw3, rfl⟩, hm⟩ := hm
  obtain ⟨_, w4, _, rfl, ⟨rfl, rfl⟩, ⟨hw4n, hw4, rfl⟩⟩ := hm
  have hg : groupPattern.Matches ("Benutzer:".toList ++ (w1 ++ (e ++ (w2 ++ ("|".toList ++
      (w3 ++ ("DN:".toList ++ (w4 ++ []))))))))
      Caps.empty ((Caps.empty.set .email e).set .dn []) := by
    simp only [groupPattern, Re.cat, Re.Matches]
    exact ⟨_, _, _, rfl, ⟨rfl, rfl⟩, w1, _, _, rfl, ⟨hw1n, hw1, rfl⟩, e, _, _, rfl,
      ⟨_, ⟨hen, he, rfl⟩, rfl⟩, w2, _, _, rfl, ⟨hw2, rfl⟩, "|".toList, _, _, rfl, ⟨rfl, rfl⟩,
      w3, _, _, rfl, ⟨hw3n, hw3, rfl⟩, "DN:".toList, _, _, rfl, ⟨rfl, rfl⟩,
      w4, [], _, rfl, ⟨hw4n, hw4, rfl⟩, _, ⟨by simp, rfl⟩, rfl⟩
  have hsome := groupPattern.search_complete pre _ post _ _ hg
  rw [List.append_nil] at hsome
  rw [← hl] at hsome
  obtain ⟨v, hv⟩ := Option.isSome_iff_exists.mp hsome
  obtain ⟨pre2, w', post2, _, hm2⟩ := Re.search_sound _ _ _ hv
  obtain ⟨e2, d2, _, h1, h2⟩ := groupPattern_matches w' v hm2
  refine ⟨⟨trim e2, trim d2⟩, ?_⟩
  unfold parseUsersAddedToGroup
  rw [hv]
  simp only [h1, h2, trimOf]
  rfl

theorem scan_append_nil_group (st : Scan) :
    ({ st with data := { st.data with
        benutzer_hinzugefuegt_hv := st.data.benutzer_hinzugefuegt_hv ++ [] } } : Scan) = st := by
  cases st with
  | mk data o g a b c =>
    cases data
    simp

theorem step_outside_plain (st : Scan) (line : Str) (hm : isMarker line = false)
    (hi : isIncludedLine line = false) (hs1 : st.inIgnoredSection = false)
    (hs2 : st.inSingleSection = false) (hs3 : st.inMultiSection = false)
    (hd : (startsWith (trim line) "Benutzer:".toList &&
      includes (trim line) " DN: ".toList) = false) :
    step st line = .ok st := by
  obtain ⟨m1, m2, m3, m4, m5, m6⟩ := isMarker_false_iff _ hm
  obtain ⟨i1, i2⟩ := isIncludedLine_false_iff _ hi
  unfold step
  simp only []
  rw [if_neg (by rw [m1]; simp), if_neg (by rw [m2]; simp), if_neg (by rw [m3]; simp),
    if_neg (by rw [m4]; simp), if_neg (by rw [m5]; simp), if_neg (by rw [m6]; simp),
    if_neg (by rw [i1]; simp), if_neg (by rw [i2]; simp), if_neg (by rw [hs1]; simp),
    if_neg (by rw [hs2]; simp), if_neg (by rw [hs3]; simp), if_neg (by rw [hd]; simp)]

theorem step_outside_group (st : Scan) (line : Str) (hm : isMarker line = false)
    (hi : isIncludedLine line = false) (hs1 : st.inIgnoredSection = false)
    (hs2 : st.inSingleSection = false) (hs3 : st.inMultiSection = false)
    (hd : (startsWith (trim line) "Benutzer:".toList &&
      includes (trim line) " DN: ".toList) = true)
    (p : Option GroupUser) (hp : parseUsersAddedToGroup (trim line) = .ok p) :
    step st line = .ok { st with data := { st.data with
      benutzer_hinzugefuegt_hv := st.data.benutzer_hinzugefuegt_hv ++ p.toList } } := by
  obtain ⟨m1, m2, m3, m4, m5, m6⟩ := isMarker_false_iff _ hm
  obtain ⟨i1, i2⟩ := isIncludedLine_false_iff _ hi
  cases p with
  | none =>
    rw [Option.toList, scan_append_nil_group st]
    unfold step
    simp only []
    rw [if_neg (by rw [m1]; simp), if_neg (by rw [m2]; simp), if_neg (by rw [m3]; simp),
      if_neg (by rw [m4]; simp), if_neg (by rw [m5]; simp), if_neg (by rw [m6]; simp),
      if_neg (by rw [i1]; simp), if_neg (by rw [i2]; simp), if_neg (by rw [hs1]; simp),
      if_neg (by rw [hs2]; simp), if_neg (by rw [hs3]; simp), if_pos hd, hp]
    rfl
  | some r =>
    unfold step
    simp only []
    rw [if_neg (by rw [m1]; simp), if_neg (by rw [m2]; simp), if_neg (by rw [m3]; simp),
      if_neg (by rw [m4]; simp), if_neg (by rw [m5]; simp), if_neg (by rw [m6]; simp),
      if_neg (by rw [i1]; simp), if_neg (by rw [i2]; simp), if_neg (by rw [hs1]; simp),
      if_neg (by rw [hs2]; simp), if_neg (by rw [hs3]; simp), if_pos hd, hp]
    rfl

theorem salutationRecognised_false (line : Str) (h : salutationRecognised line = false) :
    hasPart (salutationHead "User".toList) line = false ∧
    hasPart (salutationHead "Ignorierter Nutzer:".toList) line = false ∧
    hasPart (salutationHead "Benutzer:".toList) (trim line) = false := by
  unfold salutationRecognised at h
  simp only [Bool.or_eq_false_iff] at h
  exact ⟨h.1.1, h.1.2, h.2⟩

theorem StepShape.no_recognised_salutation {st : Scan} {line : Str} {st' : Scan}
    (hs : StepShape st line st') (h : salutationRecognised line = false) :
    st'.data.eingeschlossen_lad = st.data.eingeschlossen_lad ∧
    st'.data.eingeschlossen_ez = st.data.eingeschlossen_ez ∧
    st'.data.ignorierte_nutzer = st.data.ignorierte_nutzer ∧
    st'.data.mandanten_ein_nutzer = st.data.mandanten_ein_nutzer ∧
    st'.data.mandanten_mehrere_nutzer = st.data.mandanten_mehrere_nutzer ∧
    (st'.data = st.data ∨
      ∃ r, st.inIgnoredSection = false ∧ st.inSingleSection = false ∧
        st.inMultiSection = false ∧ isMarker line = false ∧ isIncludedLine line = false ∧
        parseUsersAddedToGroup (trim line) = .ok (some r) ∧
        st' = { st with data := { st.data with
          benutzer_hinzugefuegt_hv := st.data.benutzer_hinzugefuegt_hv ++ [r] } }) := by
  obtain ⟨hU, hI, hB⟩ := salutationRecognised_false line h
  cases hs with
  | marker => exact ⟨rfl, rfl, rfl, rfl, rfl, Or.inl rfl⟩
  | skip => exact ⟨rfl, rfl, rfl, rfl, rfl, Or.inl rfl⟩
  | org => exact ⟨rfl, rfl, rfl, rfl, rfl, Or.inl rfl⟩
  | gp => exact ⟨rfl, rfl, rfl, rfl, rfl, Or.inl rfl⟩
  | lad r hm hp => rw [parseIncludedUser_no_head line _ hU] at hp; cases hp
  | ez r hm hp => rw [parseIncludedUser_no_head line _ hU] at hp; cases hp
  | ignored r hm hi hs hh hp => rw [parseIgnoredUser_no_head line hI] at hp; cases hp
  | single r hm hi hs h1 hh hp => rw [parseBenutzer_no_head _ hB] at hp; cases hp
  | multi r hm hi hs h1 h2 hh hp => rw [parseBenutzer_no_head _ hB] at hp; cases hp
  | group r hm hi hs h1 h2 hp =>
    exact ⟨rfl, rfl, rfl, rfl, rfl, Or.inr ⟨r, hs, h1, h2, hm, hi, hp, rfl⟩⟩

/-- C7, refuted at three concrete inputs. A `Benutzer: E | W N` line whose word
`W` is `DN:` is a group line: processed with no section active it adds a record
to `benutzer_hinzugefuegt_hv`. A line whose salutation position holds `Mx.` but
whose email field ends in `|Frau` is matched by the pattern from inside the
email: processed in the single-user section it adds a tenant record. And a
`Benutzer: E | W N` line with `W = Mx.` whose name contains a complete
included-user text is matched there by the pattern of `parseIncludedUser`: it
adds an included record. -/
theorem salutation_rejection_fails :
    step Scan.init "Benutzer: bob@x.com | DN: uid=bob,ou=Benutzer".toList =
      .ok { Scan.init with data := { Data.empty with benutzer_hinzugefuegt_hv := [
        { email := "bob@x.com".toList, dn := "uid=bob,ou=Benutzer".toList }] } } ∧
    step (Scan.init.setFlags false true false) "Benutzer: x|Frau | Mx. N".toList =
      .ok { Scan.init.setFlags false true false with data := { Data.empty with
        mandanten_ein_nutzer := [
          { email := "x".toList, anrede := "Frau".toList, name := "| Mx. N".toList,
            geschaeftspartner := none }] } } ∧
    step Scan.init ("Benutzer: max@x.com | Mx. User y@x.com | Frau Z included based on " ++
        "LETZTES_AENDERUNGSDATUM: 2024-01-01").toList =
      .ok { Scan.init with data := { Data.empty with eingeschlossen_lad := [
        { email := "y@x.com".toList, anrede := "Frau".toList, name := "Z".toList,
          datum_zeit := "2024-01-01".toList, kind := .LETZTES_AENDERUNGSDATUM }] } } := by
  refine ⟨by decide, by decide, by decide⟩

/-- C7, amended: in every scanner state, a line in which no salutation position
holds a recognised token (it has no part `User E | S `, `Ignorierter Nutzer: E |
S ` or, once trimmed, `Benutzer: E | S ` with `S` one of `Frau` and `Herrn`;
`Frau` or `Herrn` elsewhere in the line does not count) fails all three
salutation-bearing patterns, and processing it succeeds and adds no record to
the two included, the ignored and the two tenant collections. It adds no record
to any of the six collections when a section is active or the line is not a
group line, and it adds one record, to `benutzer_hinzugefuegt_hv` only, when no
section is active and the line is a group line (`Benutzer: E | DN: ...`). -/
theorem unrecognised_salutation_no_record (st : Scan) (line : Str)
    (h : salutationRecognised line = false) :
    (∀ kind, parseIncludedUser line kind = .ok none) ∧
    parseIgnoredUser line = .ok none ∧
    parseBenutzer (trim line) = .ok none ∧
    ∃ st', step st line = .ok st' ∧
      st'.data.eingeschlossen_lad = st.data.eingeschlossen_lad ∧
      st'.data.eingeschlossen_ez = st.data.eingeschlossen_ez ∧
      st'.data.ignorierte_nutzer = st.data.ignorierte_nutzer ∧
      st'.data.mandanten_ein_nutzer = st.data.mandanten_ein_nutzer ∧
      st'.data.mandanten_mehrere_nutzer = st.data.mandanten_mehrere_nutzer ∧
      (st.inIgnoredSection = true ∨ st.inSingleSection = true ∨ st.inMultiSection = true ∨
        isGroupLine line = false → st'.data = st.data) ∧
      (st.inIgnoredSection = false → st.inSingleSection = false →
        st.inMultiSection = false → isGroupLine line = true →
        ∃ r, st'.data = { st.data with
          benutzer_hinzugefuegt_hv := st.data.benutzer_hinzugefuegt_hv ++ [r] }) := by
  obtain ⟨hU, hI, hB⟩ := salutationRecognised_false line h
  obtain ⟨st', h1, hs⟩ := step_shape st line
  obtain ⟨e1, e2, e3, e4, e5, e6⟩ := hs.no_recognised_salutation h
  refine ⟨fun kind => parseIncludedUser_no_head line kind hU, parseIgnoredUser_no_head line hI,
    parseBenutzer_no_head _ hB, st', h1, e1, e2, e3, e4, e5, ?_, ?_⟩
  · intro hyp
    rcases e6 with e6 | ⟨r, s1, s2, s3, hm, hi, hp, hst⟩
    · exact e6
    · rcases hyp with hyp | hyp | hyp | hyp
      · rw [s1] at hyp; cases hyp
      · rw [s2] at hyp; cases hyp
      · rw [s3] at hyp; cases hyp
      · unfold isGroupLine at hyp
        rw [hm, hi] at hyp
        by_cases hd : (startsWith (trim line) "Benutzer:".toList &&
            includes (trim line) " DN: ".toList) = true
        · rw [hd] at hyp
          have hpart : hasPart dnHead (trim line) = false := by simpa using hyp
          rw [parseUsersAddedToGroup_no_head _ hpart] at hp
          cases hp
        · have hplain := step_outside_plain st line hm hi s1 s2 s3 (by simpa using hd)
          rw [hplain] at h1
          cases h1
          rfl
  · intro s1 s2 s3 hg
    unfold isGroupLine at hg
    simp only [Bool.and_eq_true, Bool.not_eq_true'] at hg
    obtain ⟨⟨⟨hm, hi⟩, hd1, hd2⟩, hpart⟩ := hg
    obtain ⟨r, hp⟩ := parseUsersAddedToGroup_of_head _ hpart
    have hstep := step_outside_group st line hm hi s1 s2 s3 (by rw [hd1, hd2]; rfl) (some r) hp
    rw [hstep] at h1
    cases h1
    exact ⟨r, rfl⟩

/-- C7 amended, at a concrete input: a tenant-shaped line with the salutation
`Mx.` and the word `Frau` inside its name, which is no group line, processed
with no section active. -/
theorem unrecognised_salutation_no_record_witness :
    salutationRecognised "Benutzer: max@x.com | Mx. Muster, Frau Holle".toList = false ∧
    isGroupLine "Benutzer: max@x.com | Mx. Muster, Frau Holle".toList = false ∧
    (∀ kind, parseIncludedUser "Benutzer: max@x.com | Mx. Muster, Frau Holle".toList kind =
      .ok none) ∧
    parseIgnoredUser "Benutzer: max@x.com | Mx. Muster, Frau Holle".toList = .ok none ∧
    parseBenutzer (trim "Benutzer: max@x.com | Mx. Muster, Frau Holle".toList) = .ok none ∧
    ∃ st', step Scan.init "Benutzer: max@x.com | Mx. Muster, Frau Holle".toList = .ok st' ∧
      st'.data.eingeschlossen_lad = Scan.init.data.eingeschlossen_lad ∧
      st'.data.eingeschlossen_ez = Scan.init.data.eingeschlossen_ez ∧
      st'.data.ignorierte_nutzer = Scan.init.data.ignorierte_nutzer ∧
      st'.data.mandanten_ein_nutzer = Scan.init.data.mandanten_ein_nutzer ∧
      st'.data.mandanten_mehrere_nutzer = Scan.init.data.mandanten_mehrere_nutzer ∧
      (Scan.init.inIgnoredSection = true ∨ Scan.init.inSingleSection = true ∨
        Scan.init.inMultiSection = true ∨
        isGroupLine "Benutzer: max@x.com | Mx. Muster, Frau Holle".toList = false →
        st'.data = Scan.init.data) ∧
      (Scan.init.inIgnoredSection = false → Scan.init.inSingleSection = false →
        Scan.init.inMultiSection = false →
        isGroupLine "Benutzer: max@x.com | Mx. Muster, Frau Holle".toList = true →
        ∃ r, st'.data = { Scan.init.data with
          benutzer_hinzugefuegt_hv := Scan.init.data.benutzer_hinzugefuegt_hv ++ [r] }) :=
  ⟨by decide, by decide, unrecognised_salutation_no_record _ _ (by decide)⟩


end LogConverter
